import Mathlib

/-!
# A shallow embedding of `ecs.h`

The development follows `src/src/ecs.h` function by function.

Platform model (LP64): `size_t` is 64 bits wide, `int` is 32 bits wide, so
`ECS_COMPONENT_MASK_BITS` is 64.  Arithmetic on `size_t` that can wrap
(`++current_id`, `component_id - 1`) is written with an explicit `% 2 ^ 64`.
Buffer sizes and instance counts (`cap`, `count`) are bounded by the memory a
process can hold and are kept as plain natural numbers.

Memory model: a dynamic array is a `List`; a pointer into an array is the
index of the slot it designates.  Every call of `ecs_malloc` or `ecs_realloc`
takes the outcome of the allocation as an argument: `none` when the allocator
returns a null pointer, `some junk` when it hands out a block, whose fresh
bytes have the arbitrary contents `junk`.  A null buffer is the empty list.
-/

namespace ECS

/-! ## Utils -/

/-- Modelled from the spec: `darray.h` is not part of the sources; the spec
describes it as a growable array. `da_len` is the number of elements (0 for a
null array). -/
abbrev da_len {α : Type} (xs : List α) : Nat := xs.length

/-- Modelled from the spec: `darray.h`, `da_push` appends one element at the end. -/
abbrev da_push {α : Type} (xs : List α) (x : α) : List α := xs ++ [x]

/-- Modelled from the spec: `darray.h`, `da_pop` drops the last element. -/
abbrev da_pop {α : Type} (xs : List α) : List α := xs.dropLast

/-- Result of `ecs_malloc n`: `none` for a null pointer (the allocation
failed), else `n` bytes of indeterminate content. -/
def ecs_malloc (alloc : Option (Nat → Nat)) (n : Nat) : Option (List Nat) :=
  match alloc with
  | none => none
  | some junk => some ((List.range n).map junk)

/-- Result of `ecs_realloc mem n`: `none` for a null pointer (the allocation
failed), else the old bytes are kept (up to `n`) and the bytes beyond them are
indeterminate. -/
def ecs_realloc (alloc : Option (Nat → Nat)) (mem : List Nat) (n : Nat) :
    Option (List Nat) :=
  match alloc with
  | none => none
  | some junk => some (mem.take n ++ (List.range (n - mem.length)).map junk)

/-- The loop of `ecs_mem_copy` when source and destination lie in the same
buffer: `*d++ = *s++`, `num_bytes` times. -/
def ecs_mem_copy (mem : List Nat) : Nat → Nat → Nat → List Nat
  | _, _, 0 => mem
  | s, d, n + 1 => ecs_mem_copy (mem.set d (mem.getD s 0)) (s + 1) (d + 1) n

/-- The loop of `ecs_mem_copy` when the source is a buffer `src` of the caller. -/
def ecs_mem_copy_ext (src : List Nat) (mem : List Nat) : Nat → Nat → Nat → List Nat
  | _, _, 0 => mem
  | s, d, n + 1 => ecs_mem_copy_ext src (mem.set d (src.getD s 0)) (s + 1) (d + 1) n

/-- The loop of `ecs_mem_zero`: `*d++ = 0`, `num_bytes` times. -/
def ecs_mem_zero (mem : List Nat) : Nat → Nat → List Nat
  | _, 0 => mem
  | d, n + 1 => ecs_mem_zero (mem.set d 0) (d + 1) n

/-! ## Map -/

structure ecs_map_entry where
  key : Nat
  value : Nat
  free : Bool
deriving DecidableEq

/-- The struct `ecs_map` has the single field `entries`; the map is identified
with that array. -/
abbrev ecs_map := List ecs_map_entry

/-- The value of the first non-free entry with the given key (the C function
returns a pointer to that value, or null). -/
def ecs_map_get : ecs_map → Nat → Option Nat
  | [], _ => none
  | e :: es, key =>
    if e.free then ecs_map_get es key
    else if e.key = key then some e.value
    else ecs_map_get es key

/-- The store `*value_ptr = value` through the pointer returned by
`ecs_map_get`: the first non-free entry with the key gets the value. -/
def ecs_map_put : ecs_map → Nat → Nat → ecs_map
  | [], _, _ => []
  | e :: es, key, value =>
    if e.free then e :: ecs_map_put es key value
    else if e.key = key then { e with value := value } :: es
    else e :: ecs_map_put es key value

def ecs_map_add : ecs_map → Nat → Nat → ecs_map
  | [], key, value => [{ key := key, value := value, free := false }]
  | e :: es, key, value =>
    if e.free then { key := key, value := value, free := false } :: es
    else e :: ecs_map_add es key value

def ecs_map_set (map : ecs_map) (key value : Nat) : ecs_map :=
  match ecs_map_get map key with
  | some _ => ecs_map_put map key value
  | none => ecs_map_add map key value

def ecs_map_unset : ecs_map → Nat → ecs_map
  | [], _ => []
  | e :: es, key =>
    if e.free then e :: ecs_map_unset es key
    else if e.key = key then { e with free := true } :: es
    else e :: ecs_map_unset es key

/-! ## Entity manager -/

def ECS_COMPONENT_MASK_BITS : Nat := 64

structure ecs_entity where
  id : Nat
  component_mask : List Nat
  dead : Bool
  destroyed : Bool
deriving DecidableEq

structure ecs_entity_manager where
  current_id : Nat
  cap : Nat
  entities : List ecs_entity
  id_to_index : ecs_map
  index_to_id : ecs_map
  free_slots : List Nat
deriving DecidableEq

/-- Returns the new entity id together with the updated manager. -/
def ecs_entity_manager_create (entity_manager : ecs_entity_manager) :
    Nat × ecs_entity_manager :=
  let entity_id := (entity_manager.current_id + 1) % 2 ^ 64
  let entity : ecs_entity :=
    { id := entity_id, component_mask := [], dead := false, destroyed := false }
  let free_slots_length := da_len entity_manager.free_slots
  if free_slots_length > 0 then
    let entity_index := entity_manager.free_slots.getD (free_slots_length - 1) 0
    (entity_id,
      { current_id := entity_id
        cap := entity_manager.cap
        entities := entity_manager.entities.set entity_index entity
        id_to_index := ecs_map_set entity_manager.id_to_index entity_id entity_index
        index_to_id := ecs_map_set entity_manager.index_to_id entity_index entity_id
        free_slots := da_pop entity_manager.free_slots })
  else
    let entity_index := da_len entity_manager.entities
    (entity_id,
      { current_id := entity_id
        cap := entity_manager.cap + 1
        entities := da_push entity_manager.entities entity
        id_to_index := ecs_map_set entity_manager.id_to_index entity_id entity_index
        index_to_id := ecs_map_set entity_manager.index_to_id entity_index entity_id
        free_slots := entity_manager.free_slots })

def ecs_entity_manager_destroy (entity_manager : ecs_entity_manager) (entity_id : Nat) :
    ecs_entity_manager :=
  match ecs_map_get entity_manager.id_to_index entity_id with
  | none => entity_manager
  | some entity_index =>
    { entity_manager with
      free_slots := da_push entity_manager.free_slots entity_index
      id_to_index := ecs_map_unset entity_manager.id_to_index entity_id
      index_to_id := ecs_map_unset entity_manager.index_to_id entity_index
      entities :=
        match entity_manager.entities[entity_index]? with
        | none => entity_manager.entities
        | some entity =>
          entity_manager.entities.set entity_index { entity with destroyed := true } }

/-- A pointer to an entity is returned as the slot index together with the
record stored there; `none` is the null pointer. -/
def ecs_entity_manager_get_at (entity_manager : ecs_entity_manager) (index : Nat) :
    Option (Nat × ecs_entity) :=
  if h : index < entity_manager.entities.length then
    some (index, entity_manager.entities[index])
  else none

def ecs_entity_manager_get (entity_manager : ecs_entity_manager) (entity_id : Nat) :
    Option (Nat × ecs_entity) :=
  match ecs_map_get entity_manager.id_to_index entity_id with
  | none => none
  | some entity_index => ecs_entity_manager_get_at entity_manager entity_index

/-! ## Component list -/

structure ecs_component_list where
  id : Nat
  entity_to_index : ecs_map
  index_to_entity : ecs_map
  destroyed : Bool
  unit_size : Nat
  count : Nat
  cap : Nat
  data : List Nat
deriving DecidableEq

/-- A pointer into `data` is the byte offset from its start. (When `data` is
null while `count` is not 0, which only a failed allocation in
`ecs_component_list_add` brings about, the source adds the offset to a null
pointer, which C leaves undefined; the model returns the offset there as
well.) -/
def ecs_component_list_get_at (component_list : ecs_component_list) (index : Nat) :
    Option Nat :=
  if index ≥ component_list.count then none
  else some (index * component_list.unit_size)

def ecs_component_list_get (component_list : ecs_component_list) (entity_id : Nat) :
    Option Nat :=
  match ecs_map_get component_list.entity_to_index entity_id with
  | none => none
  | some index => ecs_component_list_get_at component_list index

/-- The argument `component` is the caller's source buffer (`none` for a null
pointer); `alloc` is the outcome of the allocation the call makes when the
buffer has to be created or grown. When the allocation fails the source
assigns the null result to `data`, resets `cap` to 0 and returns before the
maps, `count` and the slot are touched. After `count += 1` the call
`ecs_component_list_get_at(component_list, index)` is `data + index*unit_size`. -/
def ecs_component_list_add (component_list : ecs_component_list) (entity_id : Nat)
    (component : Option (List Nat)) (alloc : Option (Nat → Nat)) : ecs_component_list :=
  match ecs_map_get component_list.entity_to_index entity_id with
  | some _ => component_list
  | none =>
    let index := component_list.count
    let grown : Option (Nat × List Nat) :=
      if component_list.cap = 0 then
        match ecs_malloc alloc (1 * component_list.unit_size) with
        | none => none
        | some data => some (1, data)
      else if component_list.cap ≤ component_list.count then
        match ecs_realloc alloc component_list.data
            ((component_list.cap * 2 + 1) * component_list.unit_size) with
        | none => none
        | some data => some (component_list.cap * 2 + 1, data)
      else some (component_list.cap, component_list.data)
    match grown with
    | none => { component_list with cap := 0, data := [] }
    | some grown =>
      let dst := index * component_list.unit_size
      { component_list with
        cap := grown.1
        entity_to_index := ecs_map_set component_list.entity_to_index entity_id index
        index_to_entity := ecs_map_set component_list.index_to_entity index entity_id
        count := component_list.count + 1
        data :=
          match component with
          | some src => ecs_mem_copy_ext src grown.2 0 dst component_list.unit_size
          | none => ecs_mem_zero grown.2 dst component_list.unit_size }

/-- When `dst` would be null (a slot index at or beyond `count`) the copy is not
modelled and the buffer is left as it is. -/
def ecs_component_list_remove (component_list : ecs_component_list) (entity_id : Nat) :
    ecs_component_list :=
  if component_list.count = 0 then component_list
  else
    match ecs_map_get component_list.entity_to_index entity_id with
    | none => component_list
    | some index =>
      let last_index := component_list.count - 1
      let copied : ecs_component_list :=
        match ecs_component_list_get_at component_list last_index,
              ecs_component_list_get_at component_list index with
        | some src, some dst =>
          { component_list with
            data := ecs_mem_copy component_list.data src dst component_list.unit_size }
        | _, _ => component_list
      match ecs_map_get component_list.index_to_entity last_index with
      | none => copied
      | some last_entity =>
        { copied with
          entity_to_index :=
            ecs_map_unset
              (ecs_map_set component_list.entity_to_index last_entity index) entity_id
          index_to_entity :=
            ecs_map_unset
              (ecs_map_set component_list.index_to_entity index last_entity) last_index }

def ecs_component_list_entity_destroyed (component_list : ecs_component_list)
    (entity_id : Nat) : ecs_component_list :=
  ecs_component_list_remove component_list entity_id

/-! ## Component manager -/

structure ecs_component_manager where
  current_id : Nat
  lists : List ecs_component_list
  cap : Nat
  id_to_index : ecs_map
  index_to_id : ecs_map
  free_slots : List Nat
deriving DecidableEq

/-- Returns the new component id (0 when rejected) and the updated manager. -/
def ecs_component_manager_register (component_manager : ecs_component_manager)
    (component_size : Nat) : Nat × ecs_component_manager :=
  if component_size = 0 then (0, component_manager)
  else
    let component_id := (component_manager.current_id + 1) % 2 ^ 64
    let list : ecs_component_list :=
      { id := component_id, entity_to_index := [], index_to_entity := [],
        destroyed := false, unit_size := component_size, count := 0, cap := 0, data := [] }
    let free_slots_length := da_len component_manager.free_slots
    if free_slots_length > 0 then
      let component_index := component_manager.free_slots.getD (free_slots_length - 1) 0
      (component_id,
        { current_id := component_id
          lists := component_manager.lists.set component_index list
          cap := component_manager.cap
          id_to_index := ecs_map_set component_manager.id_to_index component_id component_index
          index_to_id := ecs_map_set component_manager.index_to_id component_index component_id
          free_slots := da_pop component_manager.free_slots })
    else
      let component_index := da_len component_manager.lists
      (component_id,
        { current_id := component_id
          lists := da_push component_manager.lists list
          cap := component_manager.cap + 1
          id_to_index := ecs_map_set component_manager.id_to_index component_id component_index
          index_to_id := ecs_map_set component_manager.index_to_id component_index component_id
          free_slots := component_manager.free_slots })

/-- The source indexes `lists[list_index]` without a bounds check; an index
outside the array is not modelled and leaves the manager as it is. The
argument `alloc` is the outcome of the allocation made by
`ecs_component_list_add`. -/
def ecs_component_manager_add (component_manager : ecs_component_manager)
    (entity_id component_id : Nat) (alloc : Option (Nat → Nat)) : ecs_component_manager :=
  match ecs_map_get component_manager.id_to_index component_id with
  | none => component_manager
  | some list_index =>
    match component_manager.lists[list_index]? with
    | none => component_manager
    | some list =>
      { component_manager with
        lists := component_manager.lists.set list_index
          (ecs_component_list_add list entity_id none alloc) }

def ecs_component_manager_remove (component_manager : ecs_component_manager)
    (entity_id component_id : Nat) : ecs_component_manager :=
  match ecs_map_get component_manager.id_to_index component_id with
  | none => component_manager
  | some list_index =>
    match component_manager.lists[list_index]? with
    | none => component_manager
    | some list =>
      { component_manager with
        lists := component_manager.lists.set list_index
          (ecs_component_list_remove list entity_id) }

/-- A pointer to component bytes: the store it points into (slot of `lists`)
and the byte offset inside that store's `data`. -/
structure ecs_ptr where
  list : Nat
  offset : Nat
deriving DecidableEq

def ecs_component_manager_get (component_manager : ecs_component_manager)
    (entity_id component_id : Nat) : Option ecs_ptr :=
  match ecs_map_get component_manager.id_to_index component_id with
  | none => none
  | some list_index =>
    match component_manager.lists[list_index]? with
    | none => none
    | some list =>
      match ecs_component_list_get list entity_id with
      | none => none
      | some offset => some { list := list_index, offset := offset }

def ecs_component_manager_entity_destroyed (component_manager : ecs_component_manager)
    (entity_id : Nat) : ecs_component_manager :=
  { component_manager with
    lists := component_manager.lists.map
      (fun list => ecs_component_list_entity_destroyed list entity_id) }

/-! ## World -/

structure ecs_query_result where
  count : Nat
  list : List (List (Option ecs_ptr))
deriving DecidableEq

structure ecs_world where
  id : Nat
  entity_manager : ecs_entity_manager
  component_manager : ecs_component_manager
  query_result : ecs_query_result
  dead : Bool
  destroyed : Bool
deriving DecidableEq

def ecs_world_entity_create (world : ecs_world) : Nat × ecs_world :=
  let r := ecs_entity_manager_create world.entity_manager
  (r.1, { world with entity_manager := r.2 })

def ecs_world_entity_destroy (world : ecs_world) (entity_id : Nat) : ecs_world :=
  { world with
    entity_manager := ecs_entity_manager_destroy world.entity_manager entity_id
    component_manager :=
      ecs_component_manager_entity_destroyed world.component_manager entity_id }

def ecs_world_component_register (world : ecs_world) (component_size : Nat) :
    Nat × ecs_world :=
  let r := ecs_component_manager_register world.component_manager component_size
  (r.1, { world with component_manager := r.2 })

/-- The word index `(component_id - 1) / ECS_COMPONENT_MASK_BITS`, with the
subtraction on `size_t`. -/
def ecs_mask_index (component_id : Nat) : Nat :=
  ((component_id + 2 ^ 64 - 1) % 2 ^ 64) / ECS_COMPONENT_MASK_BITS

/-- The bit index `(component_id - 1) % ECS_COMPONENT_MASK_BITS`. -/
def ecs_mask_shift (component_id : Nat) : Nat :=
  ((component_id + 2 ^ 64 - 1) % 2 ^ 64) % ECS_COMPONENT_MASK_BITS

/-- The loop `while(mask_size <= mask_index) da_push(component_mask, 0)`. -/
def ecs_mask_grow (component_mask : List Nat) (mask_index : Nat) : List Nat :=
  component_mask ++ List.replicate (mask_index + 1 - da_len component_mask) 0

/-- The argument `alloc` is the outcome of the allocation made by
`ecs_component_list_add`; `ecs_component_manager_add` returns nothing, and the
mask bit is set whether or not the store took the entity. -/
def ecs_world_entity_component_attach (world : ecs_world)
    (entity_id component_id : Nat) (alloc : Option (Nat → Nat)) : ecs_world :=
  match ecs_entity_manager_get world.entity_manager entity_id with
  | none => world
  | some (entity_index, entity) =>
    let component_manager :=
      ecs_component_manager_add world.component_manager entity_id component_id alloc
    let mask_index := ecs_mask_index component_id
    let mask_shift := ecs_mask_shift component_id
    let component_mask := ecs_mask_grow entity.component_mask mask_index
    let word := component_mask.getD mask_index 0 ||| (1 <<< mask_shift)
    { world with
      component_manager := component_manager
      entity_manager :=
        { world.entity_manager with
          entities := world.entity_manager.entities.set entity_index
            { entity with component_mask := component_mask.set mask_index word } } }

/-- The value of the `int` expression `1 << mask_shift`: `int` has 32 bits,
the shift count is taken modulo 32 (as the x86-64 shift instruction does; C
leaves a count of 32 or more undefined) and bit 31 is the sign bit. -/
def ecs_int_shl_one (mask_shift : Nat) : Int :=
  if mask_shift % 32 = 31 then -(2 ^ 31) else 2 ^ (mask_shift % 32)

/-- The operand `~(1 << mask_shift)` of `&=`, an `int` converted to `size_t`. -/
def ecs_detach_operand (mask_shift : Nat) : Nat :=
  ((-(ecs_int_shl_one mask_shift) - 1) % 2 ^ 64).toNat

def ecs_world_entity_component_detach (world : ecs_world)
    (entity_id component_id : Nat) : ecs_world :=
  match ecs_entity_manager_get world.entity_manager entity_id with
  | none => world
  | some (entity_index, entity) =>
    let component_manager :=
      ecs_component_manager_remove world.component_manager entity_id component_id
    let mask_index := ecs_mask_index component_id
    let mask_shift := ecs_mask_shift component_id
    let component_mask := ecs_mask_grow entity.component_mask mask_index
    let word := component_mask.getD mask_index 0 &&& ecs_detach_operand mask_shift
    { world with
      component_manager := component_manager
      entity_manager :=
        { world.entity_manager with
          entities := world.entity_manager.entities.set entity_index
            { entity with component_mask := component_mask.set mask_index word } } }

def ecs_world_entity_component_has (world : ecs_world)
    (entity_id component_id : Nat) : Nat :=
  match ecs_entity_manager_get world.entity_manager entity_id with
  | none => 0
  | some (_, entity) =>
    if entity.dead then 0
    else
      let mask_size := da_len entity.component_mask
      let mask_index := ecs_mask_index component_id
      let mask_shift := ecs_mask_shift component_id
      if mask_size ≤ mask_index then 0
      else if entity.component_mask.getD mask_index 0 &&& (1 <<< mask_shift) ≠ 0 then 1
      else 0

def ecs_world_entity_component_get (world : ecs_world)
    (entity_id component_id : Nat) : Option ecs_ptr :=
  if ecs_world_entity_component_has world entity_id component_id = 0 then none
  else ecs_component_manager_get world.component_manager entity_id component_id

/-! ## Query -/

/-- The first loop of `ecs_world_query`: the requested ids (`args`, of which
there are `num_components`) without the zero ids, in the order given. -/
def ecs_query_components (args : List Nat) : List Nat :=
  args.filter (fun component_id => component_id ≠ 0)

/-- The inner loop of the scan: `has_required_components`. -/
def ecs_query_has_required (world : ecs_world) (entity_id : Nat)
    (components_ids : List Nat) : Bool :=
  components_ids.all
    (fun component_id => ecs_world_entity_component_has world entity_id component_id != 0)

/-- The second loop of `ecs_world_query`: the array `entities_ids`, collected
by scanning `entity_index` from 0 up to `cap`. -/
def ecs_world_query_entities (world : ecs_world) (components_ids : List Nat) : List Nat :=
  (List.range world.entity_manager.cap).filterMap (fun entity_index =>
    match ecs_map_get world.entity_manager.index_to_id entity_index with
    | none => none
    | some entity_id =>
      if ecs_query_has_required world entity_id components_ids then some entity_id
      else none)

/-- One row of the result: the row is grown with null pointers up to
`components_count`, then its first `components_count` cells are overwritten. -/
def ecs_query_fill_row (world : ecs_world) (components_ids : List Nat)
    (entity_id : Nat) (row : List (Option ecs_ptr)) : List (Option ecs_ptr) :=
  let components_count := da_len components_ids
  let grown := row ++ List.replicate (components_count - da_len row) none
  components_ids.map (fun component_id =>
      ecs_world_entity_component_get world entity_id component_id)
    ++ grown.drop components_count

/-- The last loop of `ecs_world_query`: row `entity_index` is filled for the
entity `entities_ids[entity_index]`; rows beyond `entities_count` are kept.
The array of rows has been grown to `entities_count` rows before, so the case
of a missing row does not occur. -/
def ecs_query_fill (world : ecs_world) (components_ids : List Nat) :
    List Nat → List (List (Option ecs_ptr)) → List (List (Option ecs_ptr))
  | [], rows => rows
  | _ :: _, [] => []
  | entity_id :: entities_ids, row :: rows =>
    ecs_query_fill_row world components_ids entity_id row
      :: ecs_query_fill world components_ids entities_ids rows

/-- The variadic arguments are the list `args`. The function returns
`&world->query_result`; here it returns the world with that buffer rewritten. -/
def ecs_world_query (world : ecs_world) (args : List Nat) : ecs_world :=
  let components_ids := ecs_query_components args
  let entities_ids := ecs_world_query_entities world components_ids
  let entities_count := da_len entities_ids
  let list := world.query_result.list
    ++ List.replicate (entities_count - da_len world.query_result.list) []
  { world with
    query_result :=
      { count := entities_count
        list := ecs_query_fill world components_ids entities_ids list } }

/-! ## The process-wide instance, seen from its current world -/

/-- The body of `ecs_entity_destroy` once the current world is resolved:
`entity->dead = 1`. -/
def ecs_entity_destroy_in (world : ecs_world) (entity_id : Nat) : ecs_world :=
  match ecs_entity_manager_get world.entity_manager entity_id with
  | none => world
  | some (entity_index, entity) =>
    { world with
      entity_manager :=
        { world.entity_manager with
          entities := world.entity_manager.entities.set entity_index
            { entity with dead := true } } }

/-- The first loop of `ecs_update`, on the resolved current world: every slot
below `cap` whose entity is dead and not destroyed is destroyed. -/
def ecs_update_entities (world : ecs_world) : ecs_world :=
  (List.range world.entity_manager.cap).foldl
    (fun w entity_index =>
      match w.entity_manager.entities[entity_index]? with
      | none => w
      | some entity =>
        if entity.dead && !entity.destroyed then ecs_world_entity_destroy w entity.id
        else w)
    world

/-- The bytes a caller reads through a component pointer: `n` bytes from the
designated offset of the designated store. -/
def ecs_ptr_read (world : ecs_world) (p : ecs_ptr) (n : Nat) : List Nat :=
  match world.component_manager.lists[p.list]? with
  | none => []
  | some list => (list.data.drop p.offset).take n

/-- The stores `p[i] = bytes[i]` a caller performs through a pointer. -/
def ecs_mem_write (mem : List Nat) : Nat → List Nat → List Nat
  | _, [] => mem
  | d, b :: bs => ecs_mem_write (mem.set d b) (d + 1) bs

/-- A caller writes `bytes` (at most `unit_size` of them) into the instance
returned by `ecs_world_entity_component_get(world, entity_id, component_id)`. -/
def ecs_component_write (world : ecs_world) (entity_id component_id : Nat)
    (bytes : List Nat) : ecs_world :=
  match ecs_world_entity_component_get world entity_id component_id with
  | none => world
  | some p =>
    match world.component_manager.lists[p.list]? with
    | none => world
    | some list =>
      { world with
        component_manager :=
          { world.component_manager with
            lists := world.component_manager.lists.set p.list
              { list with
                data := ecs_mem_write list.data p.offset (bytes.take list.unit_size) } } }

/-- The bytes of the instance designated by
`ecs_world_entity_component_get(world, entity_id, component_id)`:
`unit_size` bytes of that store, or `none` when the pointer is null. -/
def ecs_component_bytes (world : ecs_world) (entity_id component_id : Nat) :
    Option (List Nat) :=
  match ecs_world_entity_component_get world entity_id component_id with
  | none => none
  | some p =>
    match world.component_manager.lists[p.list]? with
    | none => none
    | some list => some (ecs_ptr_read world p list.unit_size)

/-- A zero-initialised world (`ecs_world world = {0}`). -/
def ecs_world_zero : ecs_world :=
  { id := 0
    entity_manager :=
      { current_id := 0, cap := 0, entities := [], id_to_index := [], index_to_id := [],
        free_slots := [] }
    component_manager :=
      { current_id := 0, lists := [], cap := 0, id_to_index := [], index_to_id := [],
        free_slots := [] }
    query_result := { count := 0, list := [] }
    dead := false
    destroyed := false }

/-! ## Unregistering a component type -/

/-- The calls `ecs_map_free` and `ecs_free` release the store's blocks and do
not reset the pointers: the model keeps the arrays as they are (reading them
afterwards is undefined in C). The source indexes `lists[component_index]`
without a bounds check; for an index outside the array only the push on the
free-slot list is modelled. -/
def ecs_component_manager_unregister (component_manager : ecs_component_manager)
    (component_id : Nat) : ecs_component_manager :=
  match ecs_map_get component_manager.id_to_index component_id with
  | none => component_manager
  | some component_index =>
    { component_manager with
      free_slots := da_push component_manager.free_slots component_index
      lists :=
        match component_manager.lists[component_index]? with
        | none => component_manager.lists
        | some list =>
          component_manager.lists.set component_index { list with destroyed := true } }

def ecs_world_component_unregister (world : ecs_world) (component_id : Nat) : ecs_world :=
  { world with
    component_manager :=
      ecs_component_manager_unregister world.component_manager component_id }

/-! ## Reachable worlds -/

/-- One call of the public interface on the current world, with no allocation
failing. Creating an entity or registering a component type requires that the
id counter is not exhausted; the allocation an attach makes succeeds and hands
out bytes of arbitrary content `junk`. -/
inductive ecs_step : ecs_world → ecs_world → Prop
  | register (w : ecs_world) (component_size : Nat)
      (h : w.component_manager.current_id + 1 < 2 ^ 64) :
      ecs_step w (ecs_world_component_register w component_size).2
  | unregister (w : ecs_world) (component_id : Nat) :
      ecs_step w (ecs_world_component_unregister w component_id)
  | create (w : ecs_world) (h : w.entity_manager.current_id + 1 < 2 ^ 64) :
      ecs_step w (ecs_world_entity_create w).2
  | destroy (w : ecs_world) (entity_id : Nat) :
      ecs_step w (ecs_entity_destroy_in w entity_id)
  | attach (w : ecs_world) (entity_id component_id : Nat) (junk : Nat → Nat) :
      ecs_step w (ecs_world_entity_component_attach w entity_id component_id (some junk))
  | detach (w : ecs_world) (entity_id component_id : Nat) :
      ecs_step w (ecs_world_entity_component_detach w entity_id component_id)
  | write (w : ecs_world) (entity_id component_id : Nat) (bytes : List Nat) :
      ecs_step w (ecs_component_write w entity_id component_id bytes)
  | query (w : ecs_world) (args : List Nat) :
      ecs_step w (ecs_world_query w args)
  | update (w : ecs_world) :
      ecs_step w (ecs_update_entities w)

/-- The worlds reachable from a zero-initialised world by calls of the public
interface (register, unregister, create, destroy, attach, detach,
get-and-write, query, update), with no allocation failing. -/
inductive ecs_reachable : ecs_world → Prop
  | zero : ecs_reachable ecs_world_zero
  | step {w w2 : ecs_world} : ecs_reachable w → ecs_step w w2 → ecs_reachable w2

/-! ## Predicates used in the statements -/

/-- The keys of the entries that are not tombstoned, in array order. -/
def ecs_map_keys : ecs_map → List Nat
  | [] => []
  | e :: es => if e.free then ecs_map_keys es else e.key :: ecs_map_keys es

/-- No two live entries of the map carry the same key. -/
def ecs_map_unique (m : ecs_map) : Prop := (ecs_map_keys m).Nodup

/-- Every live entry of the map has a value satisfying `P`. -/
def ecs_map_values (P : Nat → Prop) (m : ecs_map) : Prop :=
  ∀ e ∈ m, e.free = false → P e.value

/-- Every slot index recorded for an entity lies below `count`. -/
def ecs_component_list_ok (l : ecs_component_list) : Prop :=
  ecs_map_values (fun index => index < l.count) l.entity_to_index

/-- Every free registry slot and every registered id designates a slot of
`lists`, and every store keeps its recorded slot indices below `count`. -/
def ecs_component_manager_ok (cm : ecs_component_manager) : Prop :=
  (∀ f ∈ cm.free_slots, f < cm.lists.length) ∧
  ecs_map_values (fun list_index => list_index < cm.lists.length) cm.id_to_index ∧
  ∀ l ∈ cm.lists, ecs_component_list_ok l

/-- Well-formedness of the entity table: `cap` counts the slots, the two id
maps have unique keys and are inverse to each other, mapped slots lie below
`cap`, issued ids do not exceed `current_id`, and the free-slot list holds
distinct unmapped slots below `cap`. -/
def ecs_entity_manager_ok (em : ecs_entity_manager) : Prop :=
  em.cap = em.entities.length ∧
  ecs_map_unique em.id_to_index ∧
  ecs_map_unique em.index_to_id ∧
  (∀ e i, ecs_map_get em.id_to_index e = some i ↔ ecs_map_get em.index_to_id i = some e) ∧
  (∀ e i, ecs_map_get em.id_to_index e = some i → i < em.cap ∧ e ≤ em.current_id) ∧
  em.free_slots.Nodup ∧
  ∀ f ∈ em.free_slots, f < em.cap ∧ ecs_map_get em.index_to_id f = none

/-- Well-formedness of a world: of its entity table and of its stores. -/
def ecs_world_ok (w : ecs_world) : Prop :=
  ecs_entity_manager_ok w.entity_manager ∧ ecs_component_manager_ok w.component_manager

/-- An entity is live when its id resolves to a slot of the entity table and
the entity there is not marked dead (the test `!entity || entity->dead` of
`ecs_world_entity_component_has`, negated). -/
def ecs_entity_live (world : ecs_world) (entity_id : Nat) : Bool :=
  match ecs_entity_manager_get world.entity_manager entity_id with
  | none => false
  | some (_, entity) => !entity.dead

/-- A component id is registered when it resolves in the registry's id map.
The map is never unset (`ecs_component_manager_unregister` leaves it as it
is), so every id registered in the world resolves. -/
def ecs_component_registered (world : ecs_world) (component_id : Nat) : Bool :=
  (ecs_map_get world.component_manager.id_to_index component_id).isSome

/-- The store's buffer matches its bookkeeping: `count` does not exceed `cap`
and `data` holds `cap * unit_size` bytes. -/
def ecs_component_list_sized (l : ecs_component_list) : Prop :=
  l.count ≤ l.cap ∧ l.data.length = l.cap * l.unit_size

/-- Every store of the registry has a buffer matching its bookkeeping. -/
def ecs_component_manager_sized (cm : ecs_component_manager) : Prop :=
  ∀ l ∈ cm.lists, ecs_component_list_sized l

/-! ## Concrete worlds -/

/-- Content of freshly allocated bytes in the scenarios below, where every
allocation succeeds unless a scenario says otherwise. -/
def ecs_junk : Nat → Nat := fun _ => 170

/-- The world after `n` calls of `ecs_component_register(1)`. -/
def ecs_register_n : Nat → ecs_world → ecs_world
  | 0, w => w
  | n + 1, w => ecs_register_n n (ecs_world_component_register w 1).2

/-- Scenario: one component type of size 1, entities 1 and 2 both attached,
entity 2's byte set to 7, then both detached (entity 1 first). -/
def ecs_scenario_detached : ecs_world :=
  ecs_world_entity_component_detach
    (ecs_world_entity_component_detach
      (ecs_component_write
        (ecs_world_entity_component_attach
          (ecs_world_entity_component_attach
            (ecs_world_entity_create
              (ecs_world_entity_create
                (ecs_world_component_register ecs_world_zero 1).2).2).2
            1 1 (some ecs_junk))
          2 1 (some ecs_junk))
        2 1 [7])
      1 1)
    2 1

/-- Scenario: 33 component types, entity 1 with component 33 attached. -/
def ecs_scenario_wide : ecs_world :=
  ecs_world_entity_component_attach
    (ecs_world_entity_create (ecs_register_n 33 ecs_world_zero)).2 1 33 (some ecs_junk)

/-- Scenario: one component type, one entity. -/
def ecs_scenario_one : ecs_world :=
  (ecs_world_entity_create (ecs_world_component_register ecs_world_zero 4).2).2

/-- Scenario: one component type whose instances take `2 ^ 62` bytes, one
entity. -/
def ecs_scenario_huge : ecs_world :=
  (ecs_world_entity_create (ecs_world_component_register ecs_world_zero (2 ^ 62)).2).2

/-- Scenario: 33 component types, entities 1, 2 and 3 with component 33
attached, then component 33 detached from entity 3. -/
def ecs_scenario_stale : ecs_world :=
  ecs_world_entity_component_detach
    (ecs_world_entity_component_attach
      (ecs_world_entity_component_attach
        (ecs_world_entity_component_attach
          (ecs_world_entity_create
            (ecs_world_entity_create
              (ecs_world_entity_create (ecs_register_n 33 ecs_world_zero)).2).2).2
          1 33 (some ecs_junk))
        2 33 (some ecs_junk))
      3 33 (some ecs_junk))
    3 33

/-- Scenario: two entities, entity 1 marked dead by `ecs_entity_destroy`,
no `ecs_update` yet. -/
def ecs_scenario_dead : ecs_world :=
  ecs_entity_destroy_in
    (ecs_world_entity_create (ecs_world_entity_create ecs_world_zero).2).2 1

/-- Scenario of the spec: component types A = 1 and B = 2, entities
`e1:[A]`, `e2:[A,B]`, `e3:[B]`. -/
def ecs_scenario_query : ecs_world :=
  ecs_world_entity_component_attach
    (ecs_world_entity_component_attach
      (ecs_world_entity_component_attach
        (ecs_world_entity_component_attach
          (ecs_world_entity_create
            (ecs_world_entity_create
              (ecs_world_entity_create
                (ecs_world_component_register
                  (ecs_world_component_register ecs_world_zero 4).2 2).2).2).2).2
          1 1 (some ecs_junk))
        2 1 (some ecs_junk))
      2 2 (some ecs_junk))
    3 2 (some ecs_junk)

/-- A store of unit size 1 holding entity 1 in slot 0. -/
def ecs_scenario_store : ecs_component_list :=
  ecs_component_list_add
    { id := 1, entity_to_index := [], index_to_entity := [], destroyed := false,
      unit_size := 1, count := 0, cap := 0, data := [] }
    1 none (some ecs_junk)

/-! ## World manager and the process-wide instance -/

structure ecs_world_manager where
  id_to_index : ecs_map
  index_to_id : ecs_map
  worlds : List ecs_world
  cap : Nat
  current_id : Nat
  free_slots : List Nat
deriving DecidableEq

/-- Returns the new world id and the updated manager. On the append path `cap`
is incremented twice, as in the source. -/
def ecs_world_manager_create (world_manager : ecs_world_manager) :
    Nat × ecs_world_manager :=
  let world_id := (world_manager.current_id + 1) % 2 ^ 64
  let world : ecs_world := { ecs_world_zero with id := world_id }
  let free_slots_length := da_len world_manager.free_slots
  if free_slots_length > 0 then
    let world_index := world_manager.free_slots.getD (free_slots_length - 1) 0
    (world_id,
      { id_to_index := ecs_map_set world_manager.id_to_index world_id world_index
        index_to_id := ecs_map_set world_manager.index_to_id world_index world_id
        worlds := world_manager.worlds.set world_index world
        cap := world_manager.cap + 1
        current_id := world_id
        free_slots := da_pop world_manager.free_slots })
  else
    let world_index := da_len world_manager.worlds
    (world_id,
      { id_to_index := ecs_map_set world_manager.id_to_index world_id world_index
        index_to_id := ecs_map_set world_manager.index_to_id world_index world_id
        worlds := da_push world_manager.worlds world
        cap := world_manager.cap + 1 + 1
        current_id := world_id
        free_slots := world_manager.free_slots })

/-- The first loop of `ecs_world_manager_destroy`: every slot below `cap`
whose entity is not flagged destroyed is destroyed in the entity table and in
the stores. -/
def ecs_world_destroy_entities (world : ecs_world) : ecs_world :=
  (List.range world.entity_manager.cap).foldl
    (fun w entity_index =>
      match w.entity_manager.entities[entity_index]? with
      | none => w
      | some entity =>
        if entity.destroyed then w
        else ecs_world_entity_destroy w entity.id)
    world

/-- The second loop of `ecs_world_manager_destroy`: every slot below the
registry's `cap` whose store is not flagged destroyed is unregistered. -/
def ecs_world_destroy_components (component_manager : ecs_component_manager) :
    ecs_component_manager :=
  (List.range component_manager.cap).foldl
    (fun cm component_index =>
      match cm.lists[component_index]? with
      | none => cm
      | some list =>
        if list.destroyed then cm
        else ecs_component_manager_unregister cm list.id)
    component_manager

/-- The teardown of one world inside `ecs_world_manager_destroy`. Arrays
released with `da_free` and then set to 0 become empty; the id maps are
released with `ecs_map_free` and keep their (dangling) pointers, so the model
leaves them as they are. -/
def ecs_world_teardown (world : ecs_world) : ecs_world :=
  let w1 := ecs_world_destroy_entities world
  let entity_manager : ecs_entity_manager :=
    { w1.entity_manager with current_id := 0, cap := 0, entities := [], free_slots := [] }
  let cm1 := ecs_world_destroy_components w1.component_manager
  let component_manager : ecs_component_manager :=
    { cm1 with current_id := 0, cap := 0, lists := [], free_slots := [] }
  { w1 with
    entity_manager := entity_manager
    component_manager := component_manager
    query_result := { count := 0, list := [] } }

/-- The source indexes `worlds[world_index]` without a bounds check; for an
index outside the array only the push on the free-slot list is modelled. -/
def ecs_world_manager_destroy (world_manager : ecs_world_manager) (world_id : Nat) :
    ecs_world_manager :=
  match ecs_map_get world_manager.id_to_index world_id with
  | none => world_manager
  | some world_index =>
    { world_manager with
      free_slots := da_push world_manager.free_slots world_index
      worlds :=
        match world_manager.worlds[world_index]? with
        | none => world_manager.worlds
        | some world => world_manager.worlds.set world_index (ecs_world_teardown world) }

/-- A pointer to a world is returned as the slot index together with the
record stored there. The bound tested is `cap`; a slot below `cap` that lies
outside the array is not modelled and reads as null. -/
def ecs_world_manager_get_at (world_manager : ecs_world_manager) (world_index : Nat) :
    Option (Nat × ecs_world) :=
  if world_index ≥ world_manager.cap then none
  else
    match world_manager.worlds[world_index]? with
    | none => none
    | some world => some (world_index, world)

def ecs_world_manager_get (world_manager : ecs_world_manager) (world_id : Nat) :
    Option (Nat × ecs_world) :=
  match ecs_map_get world_manager.id_to_index world_id with
  | none => none
  | some world_index => ecs_world_manager_get_at world_manager world_index

/-- The process-wide state `ecs_instance`. -/
structure ecs where
  world_manager : ecs_world_manager
  current_world_id : Nat
deriving DecidableEq

/-- The initial value `ecs ecs_instance = {0}`. -/
def ecs_instance_zero : ecs :=
  { world_manager :=
      { id_to_index := [], index_to_id := [], worlds := [], cap := 0, current_id := 0,
        free_slots := [] }
    current_world_id := 0 }

/-- The store `*world = w` through a world pointer obtained from
`ecs_world_manager_get`. -/
def ecs_world_put (inst : ecs) (world_index : Nat) (w : ecs_world) : ecs :=
  { inst with
    world_manager :=
      { inst.world_manager with worlds := inst.world_manager.worlds.set world_index w } }

/-- The pushed world is `{0}`: its `id` field is not assigned. -/
def ecs_world_create (inst : ecs) : Nat × ecs :=
  let world_id := (inst.world_manager.current_id + 1) % 2 ^ 64
  let world_index := da_len inst.world_manager.worlds
  (world_id,
    { world_manager :=
        { id_to_index := ecs_map_set inst.world_manager.id_to_index world_id world_index
          index_to_id := ecs_map_set inst.world_manager.index_to_id world_index world_id
          worlds := da_push inst.world_manager.worlds ecs_world_zero
          cap := inst.world_manager.cap + 1
          current_id := world_id
          free_slots := inst.world_manager.free_slots }
      current_world_id := world_id })

/-- The source indexes `worlds[world_index]` without a bounds check; an index
outside the array is not modelled and leaves the instance as it is. -/
def ecs_world_destroy (inst : ecs) (world_id : Nat) : ecs :=
  match ecs_map_get inst.world_manager.id_to_index world_id with
  | none => inst
  | some world_index =>
    match inst.world_manager.worlds[world_index]? with
    | none => inst
    | some world => ecs_world_put inst world_index { world with dead := true }

def ecs_world_current_set (inst : ecs) (world_id : Nat) : ecs :=
  { inst with current_world_id := world_id }

def ecs_world_current_get (inst : ecs) : Nat :=
  inst.current_world_id

def ecs_entity_create (inst : ecs) : Nat × ecs :=
  match ecs_world_manager_get inst.world_manager inst.current_world_id with
  | none => (0, inst)
  | some (world_index, world) =>
    let r := ecs_entity_manager_create world.entity_manager
    (r.1, ecs_world_put inst world_index { world with entity_manager := r.2 })

def ecs_entity_destroy (inst : ecs) (entity_id : Nat) : ecs :=
  match ecs_world_manager_get inst.world_manager inst.current_world_id with
  | none => inst
  | some (world_index, world) =>
    ecs_world_put inst world_index (ecs_entity_destroy_in world entity_id)

def ecs_component_register (inst : ecs) (component_size : Nat) : Nat × ecs :=
  match ecs_world_manager_get inst.world_manager inst.current_world_id with
  | none => (0, inst)
  | some (world_index, world) =>
    let r := ecs_component_manager_register world.component_manager component_size
    (r.1, ecs_world_put inst world_index { world with component_manager := r.2 })

def ecs_entity_component_attach (inst : ecs) (entity_id component_id : Nat)
    (alloc : Option (Nat → Nat)) : ecs :=
  match ecs_world_manager_get inst.world_manager inst.current_world_id with
  | none => inst
  | some (world_index, world) =>
    ecs_world_put inst world_index
      (ecs_world_entity_component_attach world entity_id component_id alloc)

def ecs_entity_component_detach (inst : ecs) (entity_id component_id : Nat) : ecs :=
  match ecs_world_manager_get inst.world_manager inst.current_world_id with
  | none => inst
  | some (world_index, world) =>
    ecs_world_put inst world_index
      (ecs_world_entity_component_detach world entity_id component_id)

/-- The second loop of `ecs_update`: every slot below the world manager's `cap`
whose world is dead and not destroyed is passed, by its `id` field, to
`ecs_world_manager_destroy`. -/
def ecs_update_worlds (inst : ecs) : ecs :=
  (List.range inst.world_manager.cap).foldl
    (fun i world_index =>
      match i.world_manager.worlds[world_index]? with
      | none => i
      | some world =>
        if world.dead && !world.destroyed then
          { i with world_manager := ecs_world_manager_destroy i.world_manager world.id }
        else i)
    inst

def ecs_update (inst : ecs) : ecs :=
  match ecs_world_manager_get inst.world_manager inst.current_world_id with
  | none => inst
  | some (world_index, world) =>
    ecs_update_worlds (ecs_world_put inst world_index (ecs_update_entities world))

/-! ## Sequences of calls -/

/-- A call on an entity manager: `ecs_entity_manager_create` or
`ecs_entity_manager_destroy` with the given id. -/
inductive ecs_entity_call where
  | create : ecs_entity_call
  | destroy (entity_id : Nat) : ecs_entity_call
deriving DecidableEq

/-- Runs the calls in order; returns the ids returned by the `create` calls,
in call order, and the final manager. -/
def ecs_entity_manager_run :
    ecs_entity_manager → List ecs_entity_call → List Nat × ecs_entity_manager
  | em, [] => ([], em)
  | em, ecs_entity_call.create :: calls =>
    let r := ecs_entity_manager_create em
    let rest := ecs_entity_manager_run r.2 calls
    (r.1 :: rest.1, rest.2)
  | em, ecs_entity_call.destroy entity_id :: calls =>
    ecs_entity_manager_run (ecs_entity_manager_destroy em entity_id) calls

/-- The number of `create` calls in a sequence. -/
def ecs_entity_calls_creations : List ecs_entity_call → Nat
  | [] => 0
  | ecs_entity_call.create :: calls => ecs_entity_calls_creations calls + 1
  | ecs_entity_call.destroy _ :: calls => ecs_entity_calls_creations calls

/-- The maps reachable from the empty map by `ecs_map_set` and `ecs_map_unset`. -/
inductive ecs_map_reachable : ecs_map → Prop
  | empty : ecs_map_reachable []
  | set {m : ecs_map} (k v : Nat) : ecs_map_reachable m → ecs_map_reachable (ecs_map_set m k v)
  | unset {m : ecs_map} (k : Nat) : ecs_map_reachable m → ecs_map_reachable (ecs_map_unset m k)

/-- A map with a tombstoned first entry and one live entry. -/
def ecs_scenario_map : ecs_map :=
  [{ key := 1, value := 10, free := true }, { key := 2, value := 20, free := false }]

/-- The component managers reachable from a zero-initialised one by register
(with the id counter not exhausted), unregister, add (whether its allocation
succeeds or fails), remove and entity-destroyed calls. -/
inductive ecs_component_manager_reachable : ecs_component_manager → Prop
  | zero : ecs_component_manager_reachable ecs_world_zero.component_manager
  | register {cm : ecs_component_manager} (component_size : Nat)
      (h : cm.current_id + 1 < 2 ^ 64) :
      ecs_component_manager_reachable cm →
      ecs_component_manager_reachable (ecs_component_manager_register cm component_size).2
  | unregister {cm : ecs_component_manager} (component_id : Nat) :
      ecs_component_manager_reachable cm →
      ecs_component_manager_reachable (ecs_component_manager_unregister cm component_id)
  | add {cm : ecs_component_manager} (entity_id component_id : Nat)
      (alloc : Option (Nat → Nat)) :
      ecs_component_manager_reachable cm →
      ecs_component_manager_reachable
        (ecs_component_manager_add cm entity_id component_id alloc)
  | remove {cm : ecs_component_manager} (entity_id component_id : Nat) :
      ecs_component_manager_reachable cm →
      ecs_component_manager_reachable (ecs_component_manager_remove cm entity_id component_id)
  | entity_destroyed {cm : ecs_component_manager} (entity_id : Nat) :
      ecs_component_manager_reachable cm →
      ecs_component_manager_reachable (ecs_component_manager_entity_destroyed cm entity_id)

/-- Every registered id and every free slot designates a slot of `lists`. -/
def ecs_component_manager_slots_ok (cm : ecs_component_manager) : Prop :=
  ecs_map_values (fun list_index => list_index < cm.lists.length) cm.id_to_index ∧
  ∀ f ∈ cm.free_slots, f < cm.lists.length

/-- Scenario: a registry in which component type 1 (size 4) was registered
and unregistered. -/
def ecs_scenario_unregistered : ecs_component_manager :=
  ecs_component_manager_unregister
    (ecs_component_manager_register ecs_world_zero.component_manager 4).2 1

/-- Scenario: after `ecs_scenario_unregistered`, a second component type
(id 2, size 2) is registered and takes the freed slot. -/
def ecs_scenario_reregistered : ecs_component_manager :=
  (ecs_component_manager_register ecs_scenario_unregistered 2).2

/-- Scenario: a world with one entity and no component type. -/
def ecs_scenario_bare : ecs_world :=
  (ecs_world_entity_create ecs_world_zero).2

/-- Scenario: one component type of size 1, entities 1 and 2 both attached,
then both detached (entity 1 first). -/
def ecs_scenario_disagree : ecs_world :=
  ecs_world_entity_component_detach
    (ecs_world_entity_component_detach
      (ecs_world_entity_component_attach
        (ecs_world_entity_component_attach
          (ecs_world_entity_create
            (ecs_world_entity_create
              (ecs_world_component_register ecs_world_zero 1).2).2).2
          1 1 (some ecs_junk))
        2 1 (some ecs_junk))
      1 1)
    2 1

/-- Scenario: the instance after `ecs_world_create()` and `ecs_world_destroy(1)`. -/
def ecs_scenario_dead_world : ecs :=
  ecs_world_destroy (ecs_world_create ecs_instance_zero).2 1

/-- Scenario: a world manager after one `ecs_world_manager_create`. -/
def ecs_scenario_manager : ecs_world_manager :=
  (ecs_world_manager_create ecs_instance_zero.world_manager).2

/-- Scenario: the instance after `ecs_world_create()` and two
`ecs_entity_create()` calls. -/
def ecs_scenario_instance : ecs :=
  (ecs_entity_create (ecs_entity_create (ecs_world_create ecs_instance_zero).2).2).2

/-- Agreement of the entity records with the id map: a mapped id designates a
slot holding a non-destroyed entity with that id, and a slot holding a
non-destroyed entity is the slot its id is mapped to. -/
def ecs_entity_manager_slots_ok (em : ecs_entity_manager) : Prop :=
  (∀ e idx, ecs_map_get em.id_to_index e = some idx →
    ∃ ent, em.entities[idx]? = some ent ∧ ent.id = e ∧ ent.destroyed = false) ∧
  (∀ idx ent, em.entities[idx]? = some ent → ent.destroyed = false →
    ecs_map_get em.id_to_index ent.id = some idx)

/-- One iteration of the first loop of `ecs_update`, on the entity table alone. -/
def ecs_update_entity_at (em : ecs_entity_manager) (entity_index : Nat) :
    ecs_entity_manager :=
  match em.entities[entity_index]? with
  | none => em
  | some entity =>
    if entity.dead && !entity.destroyed then ecs_entity_manager_destroy em entity.id
    else em

/-- The entity `e` of slot `idx` has been swept: its id no longer resolves,
the record in its slot is flagged destroyed and the slot is on the free list. -/
def ecs_entity_swept (em : ecs_entity_manager) (e idx : Nat) : Prop :=
  ecs_map_get em.id_to_index e = none ∧
  (∃ ent, em.entities[idx]? = some ent ∧ ent.destroyed = true) ∧
  idx ∈ em.free_slots

/-- State of the sweep of `ecs_update` over the entity table `em0` when the
slots below `k` have been visited: the table is well-formed, the entities not
marked dead and the entities of the slots not yet visited are as they were,
and the dead entities of the visited slots are swept. -/
def ecs_sweep_inv (em0 em : ecs_entity_manager) (k : Nat) : Prop :=
  ecs_entity_manager_ok em ∧ ecs_entity_manager_slots_ok em ∧
  (∀ e idx ent, ecs_entity_manager_get em0 e = some (idx, ent) →
    (ent.dead = false ∨ k ≤ idx) → ecs_entity_manager_get em e = some (idx, ent)) ∧
  (∀ e idx ent, ecs_entity_manager_get em0 e = some (idx, ent) →
    ent.dead = true → idx < k → ecs_entity_swept em e idx)

/-- One call of the public interface on the process-wide instance: creating a
world, requesting the destruction of a world, selecting the current world,
`ecs_update`, or any call that acts on the resolved current world (a step of
`ecs_step` written back through the world pointer). -/
inductive ecs_instance_step : ecs → ecs → Prop
  | world_create (i : ecs) (h : i.world_manager.current_id + 1 < 2 ^ 64) :
      ecs_instance_step i (ecs_world_create i).2
  | world_destroy (i : ecs) (world_id : Nat) :
      ecs_instance_step i (ecs_world_destroy i world_id)
  | world_current_set (i : ecs) (world_id : Nat) :
      ecs_instance_step i (ecs_world_current_set i world_id)
  | world (i : ecs) (world_index : Nat) (w w2 : ecs_world)
      (h : ecs_world_manager_get i.world_manager i.current_world_id = some (world_index, w))
      (hs : ecs_step w w2) :
      ecs_instance_step i (ecs_world_put i world_index w2)
  | update (i : ecs) :
      ecs_instance_step i (ecs_update i)

/-- The instances reachable from the zero-initialised `ecs_instance` by calls
of the public interface. -/
inductive ecs_instance_reachable : ecs → Prop
  | zero : ecs_instance_reachable ecs_instance_zero
  | step {i i2 : ecs} : ecs_instance_reachable i → ecs_instance_step i i2 →
      ecs_instance_reachable i2

/-- Well-formedness of a reachable instance: `cap` counts the world slots, the
id 0 is not a key of the world map, and every world has the `id` field 0, a
well-formed entity table and well-formed stores. -/
def ecs_instance_ok (i : ecs) : Prop :=
  i.world_manager.cap = i.world_manager.worlds.length ∧
  ecs_map_get i.world_manager.id_to_index 0 = none ∧
  ∀ w ∈ i.world_manager.worlds,
    w.id = 0 ∧ ecs_world_ok w ∧ ecs_entity_manager_slots_ok w.entity_manager

/-- Scenario: the instance after `ecs_world_create()`, two
`ecs_entity_create()` calls and `ecs_entity_destroy(1)`. -/
def ecs_scenario_instance_dead : ecs :=
  ecs_entity_destroy ecs_scenario_instance 1

/-- The stores reachable from an empty store of the given unit size by
`ecs_component_list_add` (with a null source and no allocation failing) and
`ecs_component_list_remove`. -/
inductive ecs_component_list_reachable : ecs_component_list → Prop
  | empty (id unit_size : Nat) :
      ecs_component_list_reachable
        { id := id, entity_to_index := [], index_to_entity := [], destroyed := false,
          unit_size := unit_size, count := 0, cap := 0, data := [] }
  | add {l : ecs_component_list} (entity_id : Nat) (junk : Nat → Nat) :
      ecs_component_list_reachable l →
      ecs_component_list_reachable (ecs_component_list_add l entity_id none (some junk))
  | remove {l : ecs_component_list} (entity_id : Nat) :
      ecs_component_list_reachable l →
      ecs_component_list_reachable (ecs_component_list_remove l entity_id)

/-- The two maps of a store have unique keys, are inverse to each other, and
record only slot indices below `count`. -/
def ecs_component_list_inverse (l : ecs_component_list) : Prop :=
  ecs_map_unique l.entity_to_index ∧
  ecs_map_unique l.index_to_entity ∧
  (∀ e i, ecs_map_get l.entity_to_index e = some i ↔
    ecs_map_get l.index_to_entity i = some e) ∧
  (∀ e i, ecs_map_get l.entity_to_index e = some i → i < l.count)

/-! ## The public query -/

/-- The returned pointer `&world->query_result` is modelled as the slot index
of the world whose buffer it designates (`none` for null); the second
component is the instance after the call. -/
def ecs_query (inst : ecs) (args : List Nat) : Option Nat × ecs :=
  match ecs_world_manager_get inst.world_manager inst.current_world_id with
  | none => (none, inst)
  | some (world_index, world) =>
    if world.dead then (none, inst)
    else (some world_index, ecs_world_put inst world_index (ecs_world_query world args))

/-! ## The map as a finite partial map -/

/-- Follows the spec's words: the IndexMap is an association from one numeric
key to one numeric value, a finite partial map. -/
abbrev ecs_partial_map := Nat → Option Nat

/-- Follows the spec's words: `set(key, value)` is insert-or-update. -/
def ecs_partial_map_set (f : ecs_partial_map) (key value : Nat) : ecs_partial_map :=
  fun k => if k = key then some value else f k

/-- Follows the spec's words: `unset(key)` removes the key. -/
def ecs_partial_map_unset (f : ecs_partial_map) (key : Nat) : ecs_partial_map :=
  fun k => if k = key then none else f k

/-- The abstraction of a map: the function sending a key to `ecs_map_get`. -/
def ecs_map_abs (m : ecs_map) : ecs_partial_map :=
  fun k => ecs_map_get m k

/-- A map with two live entries carrying the same key. -/
def ecs_scenario_map_dup : ecs_map :=
  [{ key := 5, value := 1, free := false }, { key := 5, value := 2, free := false }]

/-! ## Reachable entity tables -/

/-- The entity managers reachable from the zero-initialised one by
`ecs_entity_manager_create` (with the id counter not exhausted) and
`ecs_entity_manager_destroy`. -/
inductive ecs_entity_manager_reachable : ecs_entity_manager → Prop
  | zero : ecs_entity_manager_reachable ecs_world_zero.entity_manager
  | create {em : ecs_entity_manager} (h : em.current_id + 1 < 2 ^ 64) :
      ecs_entity_manager_reachable em →
      ecs_entity_manager_reachable (ecs_entity_manager_create em).2
  | destroy {em : ecs_entity_manager} (entity_id : Nat) :
      ecs_entity_manager_reachable em →
      ecs_entity_manager_reachable (ecs_entity_manager_destroy em entity_id)

/-- Every slot below `cap` that is not mapped in `index_to_id` is on the
free-slot list. -/
def ecs_entity_manager_free_complete (em : ecs_entity_manager) : Prop :=
  ∀ f, f < em.cap → ecs_map_get em.index_to_id f = none → f ∈ em.free_slots

/-- Scenario: 33 component types, entity 1 with components 1, 32 and 33. -/
def ecs_scenario_bits : ecs_world :=
  ecs_world_entity_component_attach
    (ecs_world_entity_component_attach ecs_scenario_wide 1 32 (some ecs_junk)) 1 1 (some ecs_junk)

/-- Scenario: the entity manager after create, create, destroy 1. -/
def ecs_scenario_table : ecs_entity_manager :=
  ecs_entity_manager_destroy
    (ecs_entity_manager_create
      (ecs_entity_manager_create ecs_world_zero.entity_manager).2).2 1

/-! # Theorems -/

set_option maxRecDepth 100000

/-! ## The allocation made by `ecs_component_list_add` -/

/-- When its allocation succeeds, `ecs_component_list_add` leaves an entity
that has a slot alone and gives a new entity the slot `count` of the created,
grown or kept buffer. -/
theorem ecs_component_list_add_some (l : ecs_component_list) (e : Nat)
    (src : Option (List Nat)) (j : Nat → Nat) :
    ecs_component_list_add l e src (some j) =
      match ecs_map_get l.entity_to_index e with
      | some _ => l
      | none =>
        let grown : Nat × List Nat :=
          if l.cap = 0 then (1, (List.range (1 * l.unit_size)).map j)
          else if l.cap ≤ l.count then
            (l.cap * 2 + 1,
              l.data.take ((l.cap * 2 + 1) * l.unit_size) ++
                (List.range ((l.cap * 2 + 1) * l.unit_size - l.data.length)).map j)
          else (l.cap, l.data)
        { l with
          cap := grown.1
          entity_to_index := ecs_map_set l.entity_to_index e l.count
          index_to_entity := ecs_map_set l.index_to_entity l.count e
          count := l.count + 1
          data :=
            match src with
            | some src => ecs_mem_copy_ext src grown.2 0 (l.count * l.unit_size) l.unit_size
            | none => ecs_mem_zero grown.2 (l.count * l.unit_size) l.unit_size } := by
  unfold ecs_component_list_add
  cases ecs_map_get l.entity_to_index e with
  | some x => rfl
  | none =>
    by_cases h0 : l.cap = 0
    · simp [h0, ecs_malloc]
    · by_cases h1 : l.cap ≤ l.count
      · simp [h0, h1, ecs_realloc]
      · simp [h0, h1]

/-- An entity that has a slot is left alone by `ecs_component_list_add`,
whatever the outcome of an allocation would be. -/
theorem ecs_component_list_add_present (l : ecs_component_list) (e i : Nat)
    (src : Option (List Nat)) (a : Option (Nat → Nat))
    (h : ecs_map_get l.entity_to_index e = some i) :
    ecs_component_list_add l e src a = l := by
  unfold ecs_component_list_add; rw [h]

/-- When the allocation fails, `ecs_component_list_add` on a new entity of a
full (or empty) buffer resets `cap`, drops the buffer and adds nothing. -/
theorem ecs_component_list_add_fail (l : ecs_component_list) (e : Nat)
    (src : Option (List Nat)) (h : ecs_map_get l.entity_to_index e = none)
    (hfull : l.cap ≤ l.count) :
    ecs_component_list_add l e src none = { l with cap := 0, data := [] } := by
  unfold ecs_component_list_add; rw [h]
  by_cases h0 : l.cap = 0
  · simp [h0, ecs_malloc]
  · simp [h0, hfull, ecs_realloc]

/-- When the buffer has a spare slot, `ecs_component_list_add` makes no
allocation: the outcome of one does not matter. -/
theorem ecs_component_list_add_spare (l : ecs_component_list) (e : Nat)
    (src : Option (List Nat)) (a : Option (Nat → Nat)) (hspare : l.count < l.cap) :
    ecs_component_list_add l e src a = ecs_component_list_add l e src (some (fun _ => 0)) := by
  unfold ecs_component_list_add
  cases ecs_map_get l.entity_to_index e with
  | some x => rfl
  | none =>
    have h0 : ¬ l.cap = 0 := by omega
    have h1 : ¬ l.cap ≤ l.count := by omega
    simp [h0, h1]

/-! ## Facts about the map -/

theorem ecs_map_get_put (m : ecs_map) (k v k2 : Nat) :
    ecs_map_get (ecs_map_put m k v) k2 =
      if k2 = k then (ecs_map_get m k).map (fun _ => v) else ecs_map_get m k2 := by
  induction m with
  | nil => simp [ecs_map_put, ecs_map_get]
  | cons e es ih =>
    by_cases hf : e.free = true
    · simp [ecs_map_put, ecs_map_get, hf, ih]
    · by_cases hk : e.key = k
      · by_cases hk2 : k2 = k
        · simp [ecs_map_put, ecs_map_get, hf, hk, hk2]
        · have : ¬ k = k2 := fun h => hk2 h.symm
          simp [ecs_map_put, ecs_map_get, hf, hk, hk2, this]
      · by_cases hk2 : k2 = k
        · subst hk2
          simp [ecs_map_put, ecs_map_get, hf, hk, ih]
        · by_cases hk3 : e.key = k2
          · simp [ecs_map_put, ecs_map_get, hf, hk, hk2, hk3]
          · simp [ecs_map_put, ecs_map_get, hf, hk, hk2, hk3, ih]

theorem ecs_map_get_add (m : ecs_map) (k v k2 : Nat) (h : ecs_map_get m k = none) :
    ecs_map_get (ecs_map_add m k v) k2 = if k2 = k then some v else ecs_map_get m k2 := by
  induction m with
  | nil =>
    by_cases hk2 : k2 = k
    · simp [ecs_map_add, ecs_map_get, hk2]
    · have : ¬ k = k2 := fun h => hk2 h.symm
      simp [ecs_map_add, ecs_map_get, hk2, this]
  | cons e es ih =>
    by_cases hf : e.free = true
    · by_cases hk2 : k2 = k
      · simp [ecs_map_add, ecs_map_get, hf, hk2]
      · have : ¬ k = k2 := fun h => hk2 h.symm
        simp [ecs_map_add, ecs_map_get, hf, hk2, this]
    · by_cases hk : e.key = k
      · simp [ecs_map_get, hf, hk] at h
      · simp only [ecs_map_get, hf, hk] at h
        simp at h
        have ih2 := ih h
        by_cases hk2 : k2 = k
        · subst hk2
          simp [ecs_map_add, ecs_map_get, hf, hk, ih2]
        · simp [ecs_map_add, ecs_map_get, hf, hk, hk2, ih2]

theorem ecs_map_get_set (m : ecs_map) (k v k2 : Nat) :
    ecs_map_get (ecs_map_set m k v) k2 = if k2 = k then some v else ecs_map_get m k2 := by
  unfold ecs_map_set
  cases h : ecs_map_get m k with
  | none => simp [ecs_map_get_add m k v k2 h]
  | some x => simp [ecs_map_get_put, h]

theorem ecs_map_get_set_self (m : ecs_map) (k v : Nat) :
    ecs_map_get (ecs_map_set m k v) k = some v := by
  simp [ecs_map_get_set]

theorem ecs_map_get_none_iff (m : ecs_map) (k : Nat) :
    ecs_map_get m k = none ↔ k ∉ ecs_map_keys m := by
  induction m with
  | nil => simp [ecs_map_get, ecs_map_keys]
  | cons e es ih =>
    by_cases hf : e.free = true
    · simp [ecs_map_get, ecs_map_keys, hf, ih]
    · by_cases hk : e.key = k
      · simp [ecs_map_get, ecs_map_keys, hf, hk]
      · have : ¬ k = e.key := fun h => hk h.symm
        simp [ecs_map_get, ecs_map_keys, hf, hk, ih, this]

theorem ecs_map_keys_put (m : ecs_map) (k v : Nat) :
    ecs_map_keys (ecs_map_put m k v) = ecs_map_keys m := by
  induction m with
  | nil => simp [ecs_map_put]
  | cons e es ih =>
    by_cases hf : e.free = true
    · simp [ecs_map_put, ecs_map_keys, hf, ih]
    · by_cases hk : e.key = k
      · simp [ecs_map_put, ecs_map_keys, hf, hk]
      · simp [ecs_map_put, ecs_map_keys, hf, hk, ih]

theorem ecs_map_keys_add_perm (m : ecs_map) (k v : Nat) :
    (ecs_map_keys (ecs_map_add m k v)).Perm (k :: ecs_map_keys m) := by
  induction m with
  | nil => simp [ecs_map_add, ecs_map_keys]
  | cons e es ih =>
    by_cases hf : e.free = true
    · simp [ecs_map_add, ecs_map_keys, hf]
    · simp only [ecs_map_add, ecs_map_keys, hf]
      simp only [Bool.false_eq_true, if_false]
      exact (List.Perm.cons e.key ih).trans (List.Perm.swap _ _ _)

theorem ecs_map_unique_set (m : ecs_map) (k v : Nat) (h : ecs_map_unique m) :
    ecs_map_unique (ecs_map_set m k v) := by
  unfold ecs_map_set
  cases hg : ecs_map_get m k with
  | none =>
    have hk : k ∉ ecs_map_keys m := (ecs_map_get_none_iff m k).1 hg
    have hp := ecs_map_keys_add_perm m k v
    show (ecs_map_keys (ecs_map_add m k v)).Nodup
    exact (hp.nodup_iff).2 (List.nodup_cons.2 ⟨hk, h⟩)
  | some x =>
    show (ecs_map_keys (ecs_map_put m k v)).Nodup
    rw [ecs_map_keys_put]; exact h

theorem ecs_map_keys_unset (m : ecs_map) (k : Nat) :
    ecs_map_keys (ecs_map_unset m k) = (ecs_map_keys m).erase k := by
  induction m with
  | nil => simp [ecs_map_unset, ecs_map_keys]
  | cons e es ih =>
    by_cases hf : e.free = true
    · simp [ecs_map_unset, ecs_map_keys, hf, ih]
    · by_cases hk : e.key = k
      · simp [ecs_map_unset, ecs_map_keys, hf, hk]
      · simp [ecs_map_unset, ecs_map_keys, hf, hk, ih, List.erase_cons_tail]

theorem ecs_map_unique_unset (m : ecs_map) (k : Nat) (h : ecs_map_unique m) :
    ecs_map_unique (ecs_map_unset m k) := by
  unfold ecs_map_unique
  rw [ecs_map_keys_unset]
  exact h.erase k

theorem ecs_map_get_unset_ne (m : ecs_map) (k k2 : Nat) (hne : k2 ≠ k) :
    ecs_map_get (ecs_map_unset m k) k2 = ecs_map_get m k2 := by
  induction m with
  | nil => simp [ecs_map_unset]
  | cons e es ih =>
    by_cases hf : e.free = true
    · simp [ecs_map_unset, ecs_map_get, hf, ih]
    · by_cases hk : e.key = k
      · have : ¬ k = k2 := fun h => hne h.symm
        simp [ecs_map_unset, ecs_map_get, hf, hk, this]
      · simp [ecs_map_unset, ecs_map_get, hf, hk, ih]

theorem ecs_map_get_unset_self (m : ecs_map) (k : Nat) (h : ecs_map_unique m) :
    ecs_map_get (ecs_map_unset m k) k = none := by
  rw [ecs_map_get_none_iff, ecs_map_keys_unset]
  exact fun hm => (List.Nodup.mem_erase_iff h).1 hm |>.1 rfl

theorem ecs_map_get_unset (m : ecs_map) (k k2 : Nat) (h : ecs_map_unique m) :
    ecs_map_get (ecs_map_unset m k) k2 = if k2 = k then none else ecs_map_get m k2 := by
  by_cases hk : k2 = k
  · subst hk; simp [ecs_map_get_unset_self _ _ h]
  · simp [hk, ecs_map_get_unset_ne _ _ _ hk]

theorem ecs_map_values_get {P : Nat → Prop} {m : ecs_map} (h : ecs_map_values P m)
    {k v : Nat} (hg : ecs_map_get m k = some v) : P v := by
  induction m with
  | nil => simp [ecs_map_get] at hg
  | cons e es ih =>
    have hes : ecs_map_values P es := fun x hx hfx => h x (List.mem_cons_of_mem _ hx) hfx
    by_cases hf : e.free = true
    · simp only [ecs_map_get, hf, if_true] at hg
      exact ih hes hg
    · by_cases hk : e.key = k
      · simp [ecs_map_get, hf, hk] at hg
        have := h e (List.mem_cons_self _ _) (by simpa using hf)
        rw [hg] at this; exact this
      · simp only [ecs_map_get, hf, hk] at hg
        simp at hg
        exact ih hes hg

theorem ecs_map_values_put {P : Nat → Prop} (m : ecs_map) (k v : Nat)
    (h : ecs_map_values P m) (hv : P v) : ecs_map_values P (ecs_map_put m k v) := by
  induction m with
  | nil => simpa [ecs_map_put] using h
  | cons e es ih =>
    have hes : ecs_map_values P es := fun x hx hfx => h x (List.mem_cons_of_mem _ hx) hfx
    by_cases hf : e.free = true
    · simp only [ecs_map_put, hf, if_true]
      intro x hx hfx
      rcases List.mem_cons.1 hx with rfl | hx
      · exact h _ (List.mem_cons_self _ _) hfx
      · exact ih hes x hx hfx
    · by_cases hk : e.key = k
      · simp only [ecs_map_put, hf, hk]
        intro x hx hfx
        simp at hx
        rcases hx with rfl | hx
        · exact hv
        · exact hes x hx hfx
      · simp only [ecs_map_put, hf, hk]
        intro x hx hfx
        simp at hx
        rcases hx with rfl | hx
        · exact h _ (List.mem_cons_self _ _) hfx
        · exact ih hes x hx hfx

theorem ecs_map_values_add {P : Nat → Prop} (m : ecs_map) (k v : Nat)
    (h : ecs_map_values P m) (hv : P v) : ecs_map_values P (ecs_map_add m k v) := by
  induction m with
  | nil =>
    intro x hx _
    simp [ecs_map_add] at hx
    subst hx; exact hv
  | cons e es ih =>
    have hes : ecs_map_values P es := fun x hx hfx => h x (List.mem_cons_of_mem _ hx) hfx
    by_cases hf : e.free = true
    · simp only [ecs_map_add, hf, if_true]
      intro x hx hfx
      rcases List.mem_cons.1 hx with rfl | hx
      · exact hv
      · exact hes x hx hfx
    · simp only [ecs_map_add, hf]
      intro x hx hfx
      simp at hx
      rcases hx with rfl | hx
      · exact h _ (List.mem_cons_self _ _) hfx
      · exact ih hes x hx hfx

theorem ecs_map_values_set {P : Nat → Prop} (m : ecs_map) (k v : Nat)
    (h : ecs_map_values P m) (hv : P v) : ecs_map_values P (ecs_map_set m k v) := by
  unfold ecs_map_set
  cases ecs_map_get m k with
  | none => exact ecs_map_values_add m k v h hv
  | some x => exact ecs_map_values_put m k v h hv

theorem ecs_map_values_unset {P : Nat → Prop} (m : ecs_map) (k : Nat)
    (h : ecs_map_values P m) : ecs_map_values P (ecs_map_unset m k) := by
  induction m with
  | nil => simpa [ecs_map_unset] using h
  | cons e es ih =>
    have hes : ecs_map_values P es := fun x hx hfx => h x (List.mem_cons_of_mem _ hx) hfx
    by_cases hf : e.free = true
    · simp only [ecs_map_unset, hf, if_true]
      intro x hx hfx
      rcases List.mem_cons.1 hx with rfl | hx
      · exact h _ (List.mem_cons_self _ _) hfx
      · exact ih hes x hx hfx
    · by_cases hk : e.key = k
      · simp only [ecs_map_unset, hf, hk]
        intro x hx hfx
        simp at hx
        rcases hx with rfl | hx
        · simp at hfx
        · exact hes x hx hfx
      · simp only [ecs_map_unset, hf, hk]
        intro x hx hfx
        simp at hx
        rcases hx with rfl | hx
        · exact h _ (List.mem_cons_self _ _) hfx
        · exact ih hes x hx hfx

theorem ecs_map_values_mono {P Q : Nat → Prop} {m : ecs_map} (h : ecs_map_values P m)
    (hpq : ∀ v, P v → Q v) : ecs_map_values Q m :=
  fun e he hf => hpq _ (h e he hf)

/-! ## Stores: count and idempotence of add -/

theorem ecs_component_list_remove_count (l : ecs_component_list) (e : Nat) :
    (ecs_component_list_remove l e).count = l.count := by
  unfold ecs_component_list_remove
  by_cases h0 : l.count = 0
  · simp [h0]
  · simp only [h0, if_false]
    cases ecs_map_get l.entity_to_index e with
    | none => rfl
    | some index =>
      have hc : ∀ (a b : Option Nat),
          (match a, b with
            | some src, some dst =>
              ({ l with data := ecs_mem_copy l.data src dst l.unit_size } : ecs_component_list)
            | _, _ => l).count = l.count := by
        intro a b; cases a <;> cases b <;> rfl
      cases ecs_map_get l.index_to_entity (l.count - 1) with
      | none => exact hc _ _
      | some last => exact hc _ _

/-- Once `ecs_component_list_add` has run with a successful allocation the
entity has a slot. -/
theorem ecs_component_list_add_some_slot (l : ecs_component_list) (e : Nat)
    (j : Nat → Nat) (h : ecs_map_get l.entity_to_index e = none) :
    ecs_map_get (ecs_component_list_add l e none (some j)).entity_to_index e
      = some l.count := by
  rw [ecs_component_list_add_some]; rw [h]
  simp [ecs_map_get_set_self]

/-- A second `ecs_component_list_add` for the same entity changes nothing,
unless the allocation of the first call failed and that of the second succeeds. -/
theorem ecs_component_list_add_idem (l : ecs_component_list) (e : Nat)
    (a a2 : Option (Nat → Nat)) (ha : a.isNone = true → a2.isNone = true) :
    ecs_component_list_add (ecs_component_list_add l e none a) e none a2
      = ecs_component_list_add l e none a := by
  cases h : ecs_map_get l.entity_to_index e with
  | some x =>
    rw [ecs_component_list_add_present l e x none a h]
    exact ecs_component_list_add_present l e x none a2 h
  | none =>
    have hsome : ∀ j : Nat → Nat,
        ecs_component_list_add (ecs_component_list_add l e none (some j)) e none a2
          = ecs_component_list_add l e none (some j) := by
      intro j
      exact ecs_component_list_add_present _ e l.count none a2
        (ecs_component_list_add_some_slot l e j h)
    cases a with
    | some j => exact hsome j
    | none =>
      by_cases hfull : l.cap ≤ l.count
      · have ha2 : a2 = none := by
          cases a2 with
          | none => rfl
          | some j2 => exact absurd (ha rfl) (by simp)
        subst ha2
        rw [ecs_component_list_add_fail l e none h hfull]
        exact ecs_component_list_add_fail _ e none h (Nat.zero_le _)
      · rw [ecs_component_list_add_spare l e none none (Nat.lt_of_not_le hfull)]
        exact hsome _

theorem ecs_component_manager_add_idem (cm : ecs_component_manager) (e c : Nat)
    (a a2 : Option (Nat → Nat)) (ha : a.isNone = true → a2.isNone = true) :
    ecs_component_manager_add (ecs_component_manager_add cm e c a) e c a2
      = ecs_component_manager_add cm e c a := by
  cases h : ecs_map_get cm.id_to_index c with
  | none =>
    have h1 : ecs_component_manager_add cm e c a = cm := by
      unfold ecs_component_manager_add; rw [h]
    rw [h1]; unfold ecs_component_manager_add; rw [h]
  | some li =>
    cases hl : cm.lists[li]? with
    | none =>
      have h1 : ecs_component_manager_add cm e c a = cm := by
        unfold ecs_component_manager_add; rw [h]; simp only [hl]
      rw [h1]; unfold ecs_component_manager_add; rw [h]; simp only [hl]
    | some l =>
      have hlt : li < cm.lists.length := by
        rcases List.getElem?_eq_some_iff.1 hl with ⟨hlt, _⟩; exact hlt
      have h1 : ecs_component_manager_add cm e c a =
          { cm with lists := cm.lists.set li (ecs_component_list_add l e none a) } := by
        unfold ecs_component_manager_add; rw [h]; simp only [hl]
      rw [h1]
      unfold ecs_component_manager_add
      simp only [h]
      have : (cm.lists.set li (ecs_component_list_add l e none a))[li]?
          = some (ecs_component_list_add l e none a) := by
        simp [List.getElem?_set, hlt]
      simp only [this, ecs_component_list_add_idem l e a a2 ha, List.set_set]

/-! ## Attach is idempotent -/

theorem ecs_entity_manager_get_eq_some (em : ecs_entity_manager) (e idx : Nat)
    (ent : ecs_entity) :
    ecs_entity_manager_get em e = some (idx, ent) ↔
      ecs_map_get em.id_to_index e = some idx ∧ em.entities[idx]? = some ent := by
  unfold ecs_entity_manager_get ecs_entity_manager_get_at
  cases h : ecs_map_get em.id_to_index e with
  | none => simp
  | some i =>
    by_cases hlt : i < em.entities.length
    · simp only [hlt, dite_true, Option.some.injEq, Prod.mk.injEq]
      constructor
      · rintro ⟨rfl, rfl⟩
        exact ⟨rfl, List.getElem?_eq_getElem hlt⟩
      · rintro ⟨rfl, h2⟩
        rw [List.getElem?_eq_getElem hlt] at h2
        exact ⟨rfl, Option.some.inj h2⟩
    · simp only [hlt, dite_false]
      constructor
      · intro h0; cases h0
      · rintro ⟨h1, h2⟩
        have h1 := Option.some.inj h1
        subst h1
        rw [List.getElem?_eq_none (Nat.le_of_not_lt hlt)] at h2
        cases h2

theorem ecs_mask_grow_length (m : List Nat) (mi : Nat) :
    mi < (ecs_mask_grow m mi).length := by
  simp only [ecs_mask_grow, da_len, List.length_append, List.length_replicate]; omega

theorem ecs_mask_grow_of_lt (m : List Nat) (mi : Nat) (h : mi < m.length) :
    ecs_mask_grow m mi = m := by
  have : mi + 1 - m.length = 0 := by omega
  simp [ecs_mask_grow, da_len, this]

/-- Claim C4, amended: attaching a component to an entity a second time changes
nothing, unless the allocation of the first call failed and that of the second
call succeeds. For every world, entity and component id, and for all outcomes
`a` and `a2` of the two allocations such that `a2` fails whenever `a` does (in
particular for every `a` that succeeds), the world after two calls of
`ecs_world_entity_component_attach` is the world after one call, so the
store's `count` and the instance bytes are those left by the first call. -/
theorem ecs_world_entity_component_attach_idempotent (w : ecs_world) (e c : Nat)
    (a a2 : Option (Nat → Nat)) (ha : a.isNone = true → a2.isNone = true) :
    ecs_world_entity_component_attach (ecs_world_entity_component_attach w e c a) e c a2
      = ecs_world_entity_component_attach w e c a := by
  cases h : ecs_entity_manager_get w.entity_manager e with
  | none =>
    have h1 : ecs_world_entity_component_attach w e c a = w := by
      unfold ecs_world_entity_component_attach; rw [h]
    rw [h1]; unfold ecs_world_entity_component_attach; rw [h]
  | some p =>
    obtain ⟨idx, ent⟩ := p
    have hh := (ecs_entity_manager_get_eq_some _ _ _ _).1 h
    have hlt : idx < w.entity_manager.entities.length := by
      rcases List.getElem?_eq_some_iff.1 hh.2 with ⟨hlt, _⟩; exact hlt
    have h1 : ecs_world_entity_component_attach w e c a =
        { w with
          component_manager := ecs_component_manager_add w.component_manager e c a
          entity_manager :=
            { w.entity_manager with
              entities := w.entity_manager.entities.set idx
                { ent with
                  component_mask :=
                    (ecs_mask_grow ent.component_mask (ecs_mask_index c)).set
                      (ecs_mask_index c)
                      ((ecs_mask_grow ent.component_mask (ecs_mask_index c)).getD
                        (ecs_mask_index c) 0 ||| (1 <<< ecs_mask_shift c)) } } } := by
      unfold ecs_world_entity_component_attach; rw [h]
    rw [h1]
    generalize hm : ecs_mask_grow ent.component_mask (ecs_mask_index c) = m
    have hml : ecs_mask_index c < m.length := by
      rw [← hm]; exact ecs_mask_grow_length _ _
    generalize hb : (1 <<< ecs_mask_shift c : Nat) = b
    generalize hmi : ecs_mask_index c = mi at hml
    have h2 : ecs_entity_manager_get
        ({ w.entity_manager with
            entities := w.entity_manager.entities.set idx
              { ent with component_mask := m.set mi (m.getD mi 0 ||| b) } } :
          ecs_entity_manager) e
        = some (idx, { ent with component_mask := m.set mi (m.getD mi 0 ||| b) }) := by
      rw [ecs_entity_manager_get_eq_some]
      refine ⟨hh.1, ?_⟩
      simp [List.getElem?_set, hlt]
    unfold ecs_world_entity_component_attach
    simp only [h2, ecs_component_manager_add_idem w.component_manager e c a a2 ha]
    have hg : ecs_mask_grow (m.set mi (m.getD mi 0 ||| b)) mi
        = m.set mi (m.getD mi 0 ||| b) :=
      ecs_mask_grow_of_lt _ _ (by simpa using hml)
    simp only [hmi, hg, hb]
    have hw : (m.set mi (m.getD mi 0 ||| b)).getD mi 0 ||| b = m.getD mi 0 ||| b := by
      simp [List.getD_eq_getElem?_getD, List.getElem?_set, hml, Nat.lor_assoc]
    simp only [hw, List.set_set]

/-! ## A freshly created entity has no component -/

theorem ecs_world_entity_component_has_fresh (w : ecs_world) (e c idx : Nat)
    (hmap : ecs_map_get w.entity_manager.id_to_index e = some idx)
    (hent : ∀ ent, w.entity_manager.entities[idx]? = some ent → ent.component_mask = []) :
    ecs_world_entity_component_has w e c = 0 := by
  unfold ecs_world_entity_component_has
  cases h : ecs_entity_manager_get w.entity_manager e with
  | none => rfl
  | some p =>
    obtain ⟨i, ent⟩ := p
    have hh := (ecs_entity_manager_get_eq_some _ _ _ _).1 h
    have hi : i = idx := by
      have := hh.1; rw [hmap] at this; exact (Option.some.inj this).symm
    subst hi
    have hm := hent ent hh.2
    simp [hm]

/-- Claim C3: whatever the state of the world (in particular of its entity
manager, free-slot list empty or not), the entity id returned by
`ecs_entity_manager_create` (through `ecs_world_entity_create`) has no
component: `ecs_world_entity_component_has` returns 0 for every component id. -/
theorem ecs_world_entity_create_has_none (w : ecs_world) (c : Nat) :
    ecs_world_entity_component_has (ecs_world_entity_create w).2
      (ecs_world_entity_create w).1 c = 0 := by
  by_cases hfree : da_len w.entity_manager.free_slots > 0
  · apply ecs_world_entity_component_has_fresh _ _ _
      (w.entity_manager.free_slots.getD (da_len w.entity_manager.free_slots - 1) 0)
    · simp [ecs_world_entity_create, ecs_entity_manager_create, hfree, ecs_map_get_set_self]
    · intro ent hent
      simp only [ecs_world_entity_create, ecs_entity_manager_create, hfree, if_true] at hent
      rw [List.getElem?_set] at hent
      simp only [if_true] at hent
      split at hent
      · cases hent; rfl
      · cases hent
  · apply ecs_world_entity_component_has_fresh _ _ _ (da_len w.entity_manager.entities)
    · simp [ecs_world_entity_create, ecs_entity_manager_create, hfree, ecs_map_get_set_self]
    · intro ent hent
      simp only [ecs_world_entity_create, ecs_entity_manager_create, hfree, if_false] at hent
      simp at hent
      rw [← hent]

/-! ## Well-formedness of the stores is preserved -/

theorem ecs_component_list_add_ok (l : ecs_component_list) (e : Nat)
    (src : Option (List Nat)) (j : Nat → Nat) (h : ecs_component_list_ok l) :
    ecs_component_list_ok (ecs_component_list_add l e src (some j)) := by
  rw [ecs_component_list_add_some]
  cases hg : ecs_map_get l.entity_to_index e with
  | some x => exact h
  | none =>
    show ecs_map_values (fun index => index < l.count + 1)
      (ecs_map_set l.entity_to_index e l.count)
    apply ecs_map_values_set
    · exact ecs_map_values_mono h (fun v hv => Nat.lt_succ_of_lt hv)
    · exact Nat.lt_succ_self _

theorem ecs_component_list_remove_ok (l : ecs_component_list) (e : Nat)
    (h : ecs_component_list_ok l) :
    ecs_component_list_ok (ecs_component_list_remove l e) := by
  unfold ecs_component_list_ok
  rw [ecs_component_list_remove_count]
  unfold ecs_component_list_remove
  by_cases h0 : l.count = 0
  · rw [if_pos h0]; exact h
  · simp only [h0, if_false]
    cases hg : ecs_map_get l.entity_to_index e with
    | none => exact h
    | some index =>
      have hidx : index < l.count := ecs_map_values_get h hg
      have hc : ∀ (a b : Option Nat),
          (match a, b with
            | some src, some dst =>
              ({ l with data := ecs_mem_copy l.data src dst l.unit_size } : ecs_component_list)
            | _, _ => l).entity_to_index = l.entity_to_index := by
        intro a b; cases a <;> cases b <;> rfl
      cases ecs_map_get l.index_to_entity (l.count - 1) with
      | none =>
        show ecs_map_values _ (_ : ecs_component_list).entity_to_index
        rw [hc]; exact h
      | some last =>
        show ecs_map_values _
          (ecs_map_unset (ecs_map_set l.entity_to_index last index) e)
        exact ecs_map_values_unset _ _ (ecs_map_values_set _ _ _ h hidx)

theorem ecs_component_manager_slots_ok_set (cm : ecs_component_manager) (li : Nat)
    (l2 : ecs_component_list) (h : ecs_component_manager_slots_ok cm) :
    ecs_component_manager_slots_ok { cm with lists := cm.lists.set li l2 } := by
  obtain ⟨h1, h2⟩ := h
  exact ⟨by simpa using h1, by simpa using h2⟩

theorem ecs_component_manager_register_slots_ok (cm : ecs_component_manager) (size : Nat)
    (h : ecs_component_manager_slots_ok cm) :
    ecs_component_manager_slots_ok (ecs_component_manager_register cm size).2 := by
  obtain ⟨h1, h2⟩ := h
  unfold ecs_component_manager_register
  split
  · exact ⟨h1, h2⟩
  · dsimp only
    split
    · rename_i hlen
      have hne : cm.free_slots ≠ [] := by
        intro h0; rw [h0] at hlen; simp at hlen
      have hlast : cm.free_slots.getD (da_len cm.free_slots - 1) 0
          = cm.free_slots.getLast hne := by
        rw [List.getLast_eq_getElem, List.getD_eq_getElem?_getD,
          List.getElem?_eq_getElem (by simp [da_len]; exact List.length_pos.2 hne)]
        rfl
      have hidx : cm.free_slots.getD (da_len cm.free_slots - 1) 0 < cm.lists.length := by
        rw [hlast]; exact h2 _ (List.getLast_mem hne)
      refine ⟨?_, ?_⟩
      · show ecs_map_values _ (ecs_map_set cm.id_to_index _ _)
        apply ecs_map_values_set
        · simpa using h1
        · simpa using hidx
      · intro f hf
        have := h2 f (List.mem_of_mem_dropLast hf)
        simpa using this
    · refine ⟨?_, ?_⟩
      · show ecs_map_values _ (ecs_map_set cm.id_to_index _ _)
        apply ecs_map_values_set
        · exact ecs_map_values_mono h1 (fun v hv => by simp; omega)
        · simp
      · intro f hf
        have := h2 f hf
        simp; omega

theorem ecs_component_manager_unregister_slots_ok (cm : ecs_component_manager) (c : Nat)
    (h : ecs_component_manager_slots_ok cm) :
    ecs_component_manager_slots_ok (ecs_component_manager_unregister cm c) := by
  obtain ⟨h1, h2⟩ := h
  unfold ecs_component_manager_unregister
  split
  · exact ⟨h1, h2⟩
  · rename_i idx hg
    have hidx : idx < cm.lists.length := ecs_map_values_get h1 hg
    have hlen : (match cm.lists[idx]? with
        | none => cm.lists
        | some list => cm.lists.set idx { list with destroyed := true }).length
        = cm.lists.length := by
      cases cm.lists[idx]? <;> simp
    refine ⟨?_, ?_⟩
    · show ecs_map_values _ cm.id_to_index
      simp only [hlen]; exact h1
    · intro f hf
      simp only [da_push, List.mem_append, List.mem_singleton] at hf
      simp only [hlen]
      rcases hf with hf | rfl
      · exact h2 f hf
      · exact hidx

theorem ecs_component_manager_register_ok (cm : ecs_component_manager) (size : Nat)
    (h : ecs_component_manager_ok cm) :
    ecs_component_manager_ok (ecs_component_manager_register cm size).2 := by
  obtain ⟨hfree, hmap, hlists⟩ := h
  obtain ⟨hmap2, hfree2⟩ := ecs_component_manager_register_slots_ok cm size ⟨hmap, hfree⟩
  refine ⟨hfree2, hmap2, ?_⟩
  have hnew : ∀ id : Nat, ecs_component_list_ok
      { id := id, entity_to_index := [], index_to_entity := [], destroyed := false,
        unit_size := size, count := 0, cap := 0, data := [] } := by
    intro id x hx _; simp at hx
  unfold ecs_component_manager_register
  split
  · exact hlists
  · dsimp only
    split
    · intro l hl
      rcases List.mem_or_eq_of_mem_set hl with hl | rfl
      · exact hlists l hl
      · exact hnew _
    · intro l hl
      simp only [da_push, List.mem_append, List.mem_singleton] at hl
      rcases hl with hl | rfl
      · exact hlists l hl
      · exact hnew _

theorem ecs_component_manager_unregister_ok (cm : ecs_component_manager) (c : Nat)
    (h : ecs_component_manager_ok cm) :
    ecs_component_manager_ok (ecs_component_manager_unregister cm c) := by
  obtain ⟨hfree, hmap, hlists⟩ := h
  obtain ⟨hmap2, hfree2⟩ := ecs_component_manager_unregister_slots_ok cm c ⟨hmap, hfree⟩
  refine ⟨hfree2, hmap2, ?_⟩
  unfold ecs_component_manager_unregister
  split
  · exact hlists
  · rename_i idx hg
    intro l hl
    dsimp only at hl
    cases hli : cm.lists[idx]? with
    | none => rw [hli] at hl; exact hlists l hl
    | some l0 =>
      rw [hli] at hl
      rcases List.mem_or_eq_of_mem_set hl with hl | rfl
      · exact hlists l hl
      · exact hlists l0 (List.getElem?_mem hli)

theorem ecs_component_manager_ok_set (cm : ecs_component_manager) (li : Nat)
    (l2 : ecs_component_list) (h : ecs_component_manager_ok cm)
    (h2 : ecs_component_list_ok l2) :
    ecs_component_manager_ok { cm with lists := cm.lists.set li l2 } := by
  obtain ⟨hfree, hmap, hlists⟩ := h
  refine ⟨?_, ?_, ?_⟩
  · simpa using hfree
  · simpa using hmap
  · intro l hl
    rcases List.mem_or_eq_of_mem_set hl with hl | rfl
    · exact hlists l hl
    · exact h2

theorem ecs_component_manager_add_ok (cm : ecs_component_manager) (e c : Nat)
    (j : Nat → Nat) (h : ecs_component_manager_ok cm) :
    ecs_component_manager_ok (ecs_component_manager_add cm e c (some j)) := by
  unfold ecs_component_manager_add
  split
  · exact h
  · split
    · exact h
    · rename_i li _ _ l hl
      exact ecs_component_manager_ok_set cm li _ h
        (ecs_component_list_add_ok l e none j (h.2.2 l (List.getElem?_mem hl)))

theorem ecs_component_manager_remove_ok (cm : ecs_component_manager) (e c : Nat)
    (h : ecs_component_manager_ok cm) :
    ecs_component_manager_ok (ecs_component_manager_remove cm e c) := by
  unfold ecs_component_manager_remove
  split
  · exact h
  · split
    · exact h
    · rename_i li _ _ l hl
      exact ecs_component_manager_ok_set cm li _ h
        (ecs_component_list_remove_ok l e (h.2.2 l (List.getElem?_mem hl)))

theorem ecs_component_manager_entity_destroyed_ok (cm : ecs_component_manager) (e : Nat)
    (h : ecs_component_manager_ok cm) :
    ecs_component_manager_ok (ecs_component_manager_entity_destroyed cm e) := by
  obtain ⟨hfree, hmap, hlists⟩ := h
  refine ⟨?_, ?_, ?_⟩
  · simpa [ecs_component_manager_entity_destroyed] using hfree
  · simpa [ecs_component_manager_entity_destroyed] using hmap
  · intro l hl
    simp only [ecs_component_manager_entity_destroyed, List.mem_map] at hl
    obtain ⟨l0, hl0, rfl⟩ := hl
    exact ecs_component_list_remove_ok l0 e (hlists l0 hl0)

/-! ## Well-formedness of the entity table is preserved -/

theorem ecs_entity_manager_create_ok (em : ecs_entity_manager)
    (hid : em.current_id + 1 < 2 ^ 64) (h : ecs_entity_manager_ok em) :
    ecs_entity_manager_ok (ecs_entity_manager_create em).2 := by
  obtain ⟨hcap, hu1, hu2, hinv, hbnd, hnd, hfree⟩ := h
  have hmod : (em.current_id + 1) % 2 ^ 64 = em.current_id + 1 := Nat.mod_eq_of_lt hid
  have hfresh : ∀ i, ecs_map_get em.id_to_index (em.current_id + 1) ≠ some i := by
    intro i hi
    have := (hbnd _ _ hi).2
    omega
  unfold ecs_entity_manager_create
  rw [hmod]
  by_cases hlen : da_len em.free_slots > 0
  · simp only [hlen, if_true]
    have hne : em.free_slots ≠ [] := by
      intro h0; rw [h0] at hlen; simp at hlen
    have hlast : em.free_slots.getD (da_len em.free_slots - 1) 0
        = em.free_slots.getLast hne := by
      rw [List.getLast_eq_getElem, List.getD_eq_getElem?_getD,
        List.getElem?_eq_getElem (by simp [da_len]; exact List.length_pos.2 hne)]
      rfl
    rw [hlast]
    generalize hidx : em.free_slots.getLast hne = idx
    have hmem : idx ∈ em.free_slots := by rw [← hidx]; exact List.getLast_mem hne
    have hsplit : em.free_slots = em.free_slots.dropLast ++ [idx] := by
      rw [← hidx]; exact (List.dropLast_append_getLast hne).symm
    have hidxfree := hfree idx hmem
    refine ⟨by simpa using hcap, ecs_map_unique_set _ _ _ hu1, ecs_map_unique_set _ _ _ hu2,
      ?_, ?_, ?_, ?_⟩
    · intro e i
      simp only [ecs_map_get_set]
      by_cases he : e = em.current_id + 1
      · by_cases hi : i = idx
        · simp [he, hi]
        · have h1 : ¬ idx = i := fun h => hi h.symm
          have h2 : ecs_map_get em.index_to_id i ≠ some (em.current_id + 1) :=
            fun h => hfresh i ((hinv _ _).2 h)
          simp [he, hi, h1, h2]
      · by_cases hi : i = idx
        · have h1 : ecs_map_get em.id_to_index e ≠ some idx := by
            intro h; rw [(hinv _ _).1 h] at hidxfree; exact absurd hidxfree.2 (by simp)
          have h2 : ¬ em.current_id + 1 = e := fun h => he h.symm
          simp [he, hi, h1, h2]
        · simp [he, hi, hinv]
    · intro e i hg
      simp only [ecs_map_get_set] at hg
      by_cases he : e = em.current_id + 1
      · simp only [he, if_true, Option.some.injEq] at hg
        subst hg; subst he
        exact ⟨hidxfree.1, Nat.le_refl _⟩
      · simp only [he, if_false] at hg
        exact ⟨(hbnd _ _ hg).1, Nat.le_succ_of_le (hbnd _ _ hg).2⟩
    · rw [hsplit] at hnd
      exact (List.nodup_append.1 hnd).1
    · intro f hf
      have hfm : f ∈ em.free_slots := List.mem_of_mem_dropLast hf
      have hne2 : f ≠ idx := by
        rintro rfl
        rw [hsplit] at hnd
        have := (List.nodup_append.1 hnd).2.2
        exact this hf (List.mem_singleton_self _)
      refine ⟨(hfree f hfm).1, ?_⟩
      simp only [ecs_map_get_set, hne2, if_false]
      exact (hfree f hfm).2
  · simp only [hlen, if_false]
    have hnil : em.free_slots = [] := by
      cases hfs : em.free_slots with
      | nil => rfl
      | cons a as => rw [hfs] at hlen; simp at hlen
    have hcapfree : ∀ e, ecs_map_get em.index_to_id em.entities.length ≠ some e := by
      intro e he
      have := (hbnd _ _ ((hinv _ _).2 he)).1
      omega
    refine ⟨by simp [hcap], ecs_map_unique_set _ _ _ hu1, ecs_map_unique_set _ _ _ hu2,
      ?_, ?_, hnd, ?_⟩
    · intro e i
      simp only [ecs_map_get_set, da_len]
      by_cases he : e = em.current_id + 1
      · by_cases hi : i = em.entities.length
        · simp [he, hi]
        · have h1 : ¬ em.entities.length = i := fun h => hi h.symm
          have h2 : ecs_map_get em.index_to_id i ≠ some (em.current_id + 1) :=
            fun h => hfresh i ((hinv _ _).2 h)
          simp [he, hi, h1, h2]
      · by_cases hi : i = em.entities.length
        · have h1 : ecs_map_get em.id_to_index e ≠ some em.entities.length :=
            fun h => hcapfree e ((hinv _ _).1 h)
          have h2 : ¬ em.current_id + 1 = e := fun h => he h.symm
          simp [he, hi, h1, h2]
        · simp [he, hi, hinv]
    · intro e i hg
      simp only [ecs_map_get_set, da_len] at hg
      by_cases he : e = em.current_id + 1
      · simp only [he, if_true, Option.some.injEq] at hg
        subst hg; subst he
        exact ⟨by show em.entities.length < em.cap + 1; omega, Nat.le_refl _⟩
      · simp only [he, if_false] at hg
        exact ⟨Nat.lt_succ_of_lt (hbnd _ _ hg).1, Nat.le_succ_of_le (hbnd _ _ hg).2⟩
    · intro f hf; rw [hnil] at hf; cases hf

theorem ecs_entity_manager_destroy_ok (em : ecs_entity_manager) (e : Nat)
    (h : ecs_entity_manager_ok em) :
    ecs_entity_manager_ok (ecs_entity_manager_destroy em e) := by
  have h0 := h
  obtain ⟨hcap, hu1, hu2, hinv, hbnd, hnd, hfree⟩ := h
  unfold ecs_entity_manager_destroy
  cases hg : ecs_map_get em.id_to_index e with
  | none => exact h0
  | some idx =>
    have hidx : ecs_map_get em.index_to_id idx = some e := (hinv _ _).1 hg
    have hlen : (match em.entities[idx]? with
        | none => em.entities
        | some entity => em.entities.set idx { entity with destroyed := true }).length
        = em.entities.length := by
      cases em.entities[idx]? <;> simp
    refine ⟨by simpa [hlen] using hcap, ecs_map_unique_unset _ _ hu1,
      ecs_map_unique_unset _ _ hu2, ?_, ?_, ?_, ?_⟩
    · intro e2 i
      simp only [ecs_map_get_unset _ _ _ hu1, ecs_map_get_unset _ _ _ hu2]
      by_cases he : e2 = e
      · by_cases hi : i = idx
        · simp [he, hi]
        · have h2 : ecs_map_get em.index_to_id i ≠ some e := by
            intro h
            have := (hinv _ _).2 h
            rw [hg] at this
            exact hi (Option.some.inj this).symm
          simp [he, hi, h2]
      · by_cases hi : i = idx
        · have h1 : ecs_map_get em.id_to_index e2 ≠ some idx := by
            intro h
            have := (hinv _ _).1 h
            rw [hidx] at this
            exact he (Option.some.inj this).symm
          simp [he, hi, h1]
        · simp [he, hi, hinv]
    · intro e2 i hg2
      simp only [ecs_map_get_unset _ _ _ hu1] at hg2
      by_cases he : e2 = e
      · simp [he] at hg2
      · simp only [he, if_false] at hg2
        exact hbnd _ _ hg2
    · show (em.free_slots ++ [idx]).Nodup
      rw [List.nodup_append]
      refine ⟨hnd, List.nodup_singleton _, ?_⟩
      intro a ha hb
      rw [List.mem_singleton] at hb
      subst hb
      have := (hfree a ha).2
      rw [hidx] at this; cases this
    · intro f hf
      simp only [da_push, List.mem_append, List.mem_singleton] at hf
      simp only [ecs_map_get_unset _ _ _ hu2]
      rcases hf with hf | rfl
      · have hne : f ≠ idx := by
          rintro rfl
          have := (hfree _ hf).2
          rw [hidx] at this; cases this
        simp only [hne, if_false]
        exact hfree f hf
      · exact ⟨(hbnd _ _ hg).1, by simp⟩

/-! ## Reachable worlds are well-formed -/

theorem ecs_entity_manager_ok_set (em : ecs_entity_manager) (i : Nat) (x : ecs_entity)
    (h : ecs_entity_manager_ok em) :
    ecs_entity_manager_ok { em with entities := em.entities.set i x } := by
  obtain ⟨hcap, hrest⟩ := h
  exact ⟨by simpa using hcap, hrest⟩

theorem ecs_world_zero_ok : ecs_world_ok ecs_world_zero := by
  refine ⟨⟨rfl, ?_, ?_, ?_, ?_, ?_, ?_⟩, ?_, ?_, ?_⟩
  · exact List.nodup_nil
  · exact List.nodup_nil
  · intro e i; simp [ecs_world_zero, ecs_map_get]
  · intro e i h; simp [ecs_world_zero, ecs_map_get] at h
  · exact List.nodup_nil
  · intro f hf; simp [ecs_world_zero] at hf
  · intro f hf; simp [ecs_world_zero] at hf
  · intro x hx; simp [ecs_world_zero] at hx
  · intro l hl; simp [ecs_world_zero] at hl

theorem ecs_world_entity_component_attach_ok (w : ecs_world) (e c : Nat) (j : Nat → Nat)
    (h : ecs_world_ok w) : ecs_world_ok (ecs_world_entity_component_attach w e c (some j)) := by
  unfold ecs_world_entity_component_attach
  split
  · exact h
  · exact ⟨ecs_entity_manager_ok_set _ _ _ h.1, ecs_component_manager_add_ok _ _ _ _ h.2⟩

theorem ecs_world_entity_component_detach_ok (w : ecs_world) (e c : Nat)
    (h : ecs_world_ok w) : ecs_world_ok (ecs_world_entity_component_detach w e c) := by
  unfold ecs_world_entity_component_detach
  split
  · exact h
  · exact ⟨ecs_entity_manager_ok_set _ _ _ h.1, ecs_component_manager_remove_ok _ _ _ h.2⟩

theorem ecs_entity_destroy_in_ok (w : ecs_world) (e : Nat)
    (h : ecs_world_ok w) : ecs_world_ok (ecs_entity_destroy_in w e) := by
  unfold ecs_entity_destroy_in
  split
  · exact h
  · exact ⟨ecs_entity_manager_ok_set _ _ _ h.1, h.2⟩

theorem ecs_world_entity_destroy_ok (w : ecs_world) (e : Nat)
    (h : ecs_world_ok w) : ecs_world_ok (ecs_world_entity_destroy w e) :=
  ⟨ecs_entity_manager_destroy_ok _ _ h.1,
    ecs_component_manager_entity_destroyed_ok _ _ h.2⟩

theorem ecs_update_entities_ok (w : ecs_world)
    (h : ecs_world_ok w) : ecs_world_ok (ecs_update_entities w) := by
  unfold ecs_update_entities
  generalize List.range w.entity_manager.cap = xs
  induction xs generalizing w with
  | nil => exact h
  | cons x xs ih =>
    rw [List.foldl_cons]
    apply ih
    split
    · exact h
    · split
      · exact ecs_world_entity_destroy_ok _ _ h
      · exact h

theorem ecs_component_write_ok (w : ecs_world) (e c : Nat) (bytes : List Nat)
    (h : ecs_world_ok w) : ecs_world_ok (ecs_component_write w e c bytes) := by
  unfold ecs_component_write
  split
  · exact h
  · split
    · exact h
    · rename_i l hl
      refine ⟨h.1, ecs_component_manager_ok_set _ _ _ h.2 ?_⟩
      exact h.2.2.2 l (List.getElem?_mem hl)

theorem ecs_step_ok {w w2 : ecs_world} (hs : ecs_step w w2) (h : ecs_world_ok w) :
    ecs_world_ok w2 := by
  cases hs with
  | register size hid => exact ⟨h.1, ecs_component_manager_register_ok _ _ h.2⟩
  | unregister c => exact ⟨h.1, ecs_component_manager_unregister_ok _ _ h.2⟩
  | create hid => exact ⟨ecs_entity_manager_create_ok _ hid h.1, h.2⟩
  | destroy e => exact ecs_entity_destroy_in_ok _ _ h
  | attach e c j => exact ecs_world_entity_component_attach_ok _ _ _ _ h
  | detach e c => exact ecs_world_entity_component_detach_ok _ _ _ h
  | write e c bytes => exact ecs_component_write_ok _ _ _ _ h
  | query args => exact h
  | update => exact ecs_update_entities_ok _ h

theorem ecs_reachable_ok {w : ecs_world} (hr : ecs_reachable w) : ecs_world_ok w := by
  induction hr with
  | zero => exact ecs_world_zero_ok
  | step _ hs ih => exact ecs_step_ok hs ih

/-! ## Attach, then has and get -/

theorem ecs_bit_set_test (x s : Nat) : (x ||| 1 <<< s) &&& 1 <<< s ≠ 0 := by
  intro h
  have h1 : ((x ||| 1 <<< s) &&& 1 <<< s).testBit s = true := by
    simp [Nat.testBit_and, Nat.testBit_or, Nat.one_shiftLeft, Nat.testBit_two_pow_self]
  rw [h] at h1
  simp at h1

theorem ecs_component_list_add_has (l : ecs_component_list) (e : Nat) (j : Nat → Nat) :
    ∃ i, ecs_map_get (ecs_component_list_add l e none (some j)).entity_to_index e = some i := by
  cases h : ecs_map_get l.entity_to_index e with
  | some x =>
    refine ⟨x, ?_⟩
    rw [ecs_component_list_add_some]; rw [h]; exact h
  | none =>
    refine ⟨l.count, ?_⟩
    rw [ecs_component_list_add_some]; rw [h]
    exact ecs_map_get_set_self _ _ _

theorem ecs_attach_entity (w : ecs_world) (e c idx : Nat) (ent : ecs_entity)
    (j : Nat → Nat)
    (hlive : ecs_entity_manager_get w.entity_manager e = some (idx, ent)) :
    ∃ m : List Nat, ecs_mask_index c < m.length ∧
      m.getD (ecs_mask_index c) 0 &&& 1 <<< ecs_mask_shift c ≠ 0 ∧
      ecs_entity_manager_get (ecs_world_entity_component_attach w e c (some j)).entity_manager e
        = some (idx, { ent with component_mask := m }) ∧
      (ecs_world_entity_component_attach w e c (some j)).component_manager
        = ecs_component_manager_add w.component_manager e c (some j) := by
  have hh := (ecs_entity_manager_get_eq_some _ _ _ _).1 hlive
  have hlt : idx < w.entity_manager.entities.length := by
    rcases List.getElem?_eq_some_iff.1 hh.2 with ⟨hlt, _⟩; exact hlt
  have hml := ecs_mask_grow_length ent.component_mask (ecs_mask_index c)
  refine ⟨(ecs_mask_grow ent.component_mask (ecs_mask_index c)).set (ecs_mask_index c)
    ((ecs_mask_grow ent.component_mask (ecs_mask_index c)).getD (ecs_mask_index c) 0
      ||| 1 <<< ecs_mask_shift c), by simpa using hml, ?_, ?_, ?_⟩
  · have : ((ecs_mask_grow ent.component_mask (ecs_mask_index c)).set (ecs_mask_index c)
        ((ecs_mask_grow ent.component_mask (ecs_mask_index c)).getD (ecs_mask_index c) 0
          ||| 1 <<< ecs_mask_shift c)).getD (ecs_mask_index c) 0
        = ((ecs_mask_grow ent.component_mask (ecs_mask_index c)).getD (ecs_mask_index c) 0
          ||| 1 <<< ecs_mask_shift c) := by
      simp [List.getD_eq_getElem?_getD, List.getElem?_set, hml]
    rw [this]
    exact ecs_bit_set_test _ _
  · unfold ecs_world_entity_component_attach
    rw [hlive]
    rw [ecs_entity_manager_get_eq_some]
    refine ⟨hh.1, ?_⟩
    simp [List.getElem?_set, hlt]
  · unfold ecs_world_entity_component_attach
    rw [hlive]

theorem ecs_attach_has (w : ecs_world) (e c idx : Nat) (ent : ecs_entity)
    (j : Nat → Nat)
    (hlive : ecs_entity_manager_get w.entity_manager e = some (idx, ent))
    (hdead : ent.dead = false) :
    ecs_world_entity_component_has (ecs_world_entity_component_attach w e c (some j)) e c = 1 := by
  obtain ⟨m, hml, hbit, hget, _⟩ := ecs_attach_entity w e c idx ent j hlive
  unfold ecs_world_entity_component_has
  rw [hget]
  simp only [hdead, da_len]
  have : ¬ m.length ≤ ecs_mask_index c := by omega
  simp only [this, if_false, Bool.false_eq_true]
  rw [if_pos hbit]

theorem ecs_component_manager_add_get (cm : ecs_component_manager) (e c : Nat)
    (j : Nat → Nat) (hok : ecs_component_manager_ok cm)
    (hreg : ecs_map_get cm.id_to_index c ≠ none) :
    ecs_component_manager_get (ecs_component_manager_add cm e c (some j)) e c ≠ none := by
  have hok2 := ecs_component_manager_add_ok cm e c j hok
  cases hg : ecs_map_get cm.id_to_index c with
  | none => exact absurd hg hreg
  | some li =>
    have hli : li < cm.lists.length := ecs_map_values_get hok.2.1 hg
    have hl : cm.lists[li]? = some cm.lists[li] := List.getElem?_eq_getElem hli
    have hadd : ecs_component_manager_add cm e c (some j) =
        { cm with lists := cm.lists.set li (ecs_component_list_add cm.lists[li] e none (some j)) } := by
      unfold ecs_component_manager_add; rw [hg]; simp only [hl]
    rw [hadd] at hok2 ⊢
    have hl2 : (cm.lists.set li (ecs_component_list_add cm.lists[li] e none (some j)))[li]?
        = some (ecs_component_list_add cm.lists[li] e none (some j)) := by
      simp [List.getElem?_set, hli]
    obtain ⟨i, hi⟩ := ecs_component_list_add_has cm.lists[li] e j
    have hlok : ecs_component_list_ok (ecs_component_list_add cm.lists[li] e none (some j)) :=
      hok2.2.2 _ (List.getElem?_mem hl2)
    have hic : i < (ecs_component_list_add cm.lists[li] e none (some j)).count :=
      ecs_map_values_get hlok hi
    unfold ecs_component_manager_get
    simp only [hg, hl2, ecs_component_list_get, hi, ecs_component_list_get_at]
    have : ¬ i ≥ (ecs_component_list_add cm.lists[li] e none (some j)).count := by omega
    simp [this]

theorem ecs_entity_live_iff (w : ecs_world) (e : Nat) :
    ecs_entity_live w e = true ↔
      ∃ idx ent, ecs_entity_manager_get w.entity_manager e = some (idx, ent) ∧
        ent.dead = false := by
  unfold ecs_entity_live
  cases h : ecs_entity_manager_get w.entity_manager e with
  | none => simp
  | some p =>
    obtain ⟨idx, ent⟩ := p
    simp only [Bool.not_eq_true', Option.some.injEq, Prod.mk.injEq]
    constructor
    · intro hd; exact ⟨idx, ent, ⟨rfl, rfl⟩, hd⟩
    · rintro ⟨_, _, ⟨_, rfl⟩, hd⟩; exact hd

/-- Claim C1, amended: in every world reachable through the public operations
with no allocation failing, for every live entity and every registered
component id (every id that resolves in the registry), after an
`ecs_world_entity_component_attach` whose allocation does not fail the call
`ecs_world_entity_component_has` returns 1 and
`ecs_world_entity_component_get` returns a non-null pointer. -/
theorem ecs_attach_then_has_and_get (w : ecs_world) (e c : Nat) (j : Nat → Nat)
    (hr : ecs_reachable w) (hlive : ecs_entity_live w e = true)
    (hreg : ecs_component_registered w c = true) :
    ecs_world_entity_component_has (ecs_world_entity_component_attach w e c (some j)) e c = 1 ∧
    ecs_world_entity_component_get (ecs_world_entity_component_attach w e c (some j)) e c ≠ none := by
  obtain ⟨idx, ent, hget, hdead⟩ := (ecs_entity_live_iff w e).1 hlive
  have hreg2 : ecs_map_get w.component_manager.id_to_index c ≠ none := by
    intro h0
    simp [ecs_component_registered, h0] at hreg
  have hhas := ecs_attach_has w e c idx ent j hget hdead
  refine ⟨hhas, ?_⟩
  unfold ecs_world_entity_component_get
  rw [hhas]
  simp only [Nat.one_ne_zero, if_false]
  obtain ⟨_, _, _, _, hcm⟩ := ecs_attach_entity w e c idx ent j hget
  rw [hcm]
  exact ecs_component_manager_add_get _ e c j (ecs_reachable_ok hr).2 hreg2

/-! ## Query -/

theorem ecs_world_entity_component_has_le (w : ecs_world) (e c : Nat) :
    ecs_world_entity_component_has w e c = 0 ∨ ecs_world_entity_component_has w e c = 1 := by
  unfold ecs_world_entity_component_has
  split
  · exact Or.inl rfl
  · split
    · exact Or.inl rfl
    · simp only
      split
      · exact Or.inl rfl
      · split
        · exact Or.inr rfl
        · exact Or.inl rfl

theorem ecs_query_has_required_iff (w : ecs_world) (e : Nat) (args : List Nat) :
    ecs_query_has_required w e (ecs_query_components args) = true ↔
      ∀ c ∈ args, c ≠ 0 → ecs_world_entity_component_has w e c = 1 := by
  unfold ecs_query_has_required ecs_query_components
  simp only [List.all_eq_true, List.mem_filter, decide_eq_true_eq, bne_iff_ne, ne_eq, and_imp]
  constructor
  · intro h c hc h0
    rcases ecs_world_entity_component_has_le w e c with h1 | h1
    · exact absurd h1 (h c hc h0)
    · exact h1
  · intro h c hc h0
    rw [h c hc h0]; exact Nat.one_ne_zero

theorem ecs_world_query_entities_slot (w : ecs_world) (cs : List Nat) (i e : Nat) :
    (match ecs_map_get w.entity_manager.index_to_id i with
      | none => none
      | some entity_id =>
        if ecs_query_has_required w entity_id cs then some entity_id else none) = some e ↔
      ecs_map_get w.entity_manager.index_to_id i = some e ∧
        ecs_query_has_required w e cs = true := by
  cases h : ecs_map_get w.entity_manager.index_to_id i with
  | none => simp
  | some x =>
    by_cases hx : ecs_query_has_required w x cs = true
    · simp only [hx, if_true, Option.some.injEq]
      constructor
      · rintro rfl; exact ⟨rfl, hx⟩
      · rintro ⟨h1, _⟩; exact h1
    · simp only [hx, Bool.false_eq_true, if_false, Option.some.injEq]
      constructor
      · intro h0; cases h0
      · rintro ⟨rfl, h2⟩; exact absurd h2 hx

theorem ecs_world_query_entities_mem (w : ecs_world) (cs : List Nat) (e : Nat) :
    e ∈ ecs_world_query_entities w cs ↔
      ∃ i, i < w.entity_manager.cap ∧
        ecs_map_get w.entity_manager.index_to_id i = some e ∧
        ecs_query_has_required w e cs = true := by
  unfold ecs_world_query_entities
  simp only [List.mem_filterMap, List.mem_range, ecs_world_query_entities_slot]

theorem ecs_entity_manager_get_ne_none (em : ecs_entity_manager)
    (hok : ecs_entity_manager_ok em) (e : Nat) :
    ecs_entity_manager_get em e ≠ none ↔
      ∃ i, i < em.cap ∧ ecs_map_get em.index_to_id i = some e := by
  obtain ⟨hcap, _, _, hinv, hbnd, _, _⟩ := hok
  constructor
  · intro h
    cases hg : ecs_map_get em.id_to_index e with
    | none => simp [ecs_entity_manager_get, hg] at h
    | some i => exact ⟨i, (hbnd _ _ hg).1, (hinv _ _).1 hg⟩
  · rintro ⟨i, hi, hg⟩
    have hg2 := (hinv _ _).2 hg
    have hlt : i < em.entities.length := by omega
    simp [ecs_entity_manager_get, hg2, ecs_entity_manager_get_at, hlt]

/-- Claim C8: in every reachable world and for every request list, the entity
ids collected by `ecs_world_query` (one per result row) are pairwise distinct,
an id is collected exactly when it resolves to an entity of the world and
`ecs_world_entity_component_has` returns 1 for every non-zero requested id, and
the result's `count` is the number of collected ids. -/
theorem ecs_world_query_correct (w : ecs_world) (args : List Nat)
    (hr : ecs_reachable w) :
    (ecs_world_query_entities w (ecs_query_components args)).Nodup ∧
    (∀ e, e ∈ ecs_world_query_entities w (ecs_query_components args) ↔
      (ecs_entity_manager_get w.entity_manager e ≠ none ∧
        ∀ c ∈ args, c ≠ 0 → ecs_world_entity_component_has w e c = 1)) ∧
    (ecs_world_query w args).query_result.count
      = (ecs_world_query_entities w (ecs_query_components args)).length := by
  have hok := (ecs_reachable_ok hr).1
  refine ⟨?_, ?_, rfl⟩
  · unfold ecs_world_query_entities
    apply List.Nodup.filterMap _ (List.nodup_range _)
    intro a a2 b hb hb2
    have h1 := ((ecs_world_query_entities_slot w _ a b).1 hb).1
    have h2 := ((ecs_world_query_entities_slot w _ a2 b).1 hb2).1
    have h3 := (hok.2.2.2.1 _ _).2 h1
    have h4 := (hok.2.2.2.1 _ _).2 h2
    rw [h3] at h4
    exact Option.some.inj h4
  · intro e
    rw [ecs_world_query_entities_mem, ecs_entity_manager_get_ne_none _ hok,
      ← ecs_query_has_required_iff]
    constructor
    · rintro ⟨i, hi, hg, hq⟩; exact ⟨⟨i, hi, hg⟩, hq⟩
    · rintro ⟨⟨i, hi, hg⟩, hq⟩; exact ⟨i, hi, hg, hq⟩

theorem ecs_query_fill_row_get (w : ecs_world) (cs : List Nat) (e : Nat)
    (row : List (Option ecs_ptr)) (k c : Nat) (hc : cs[k]? = some c) :
    (ecs_query_fill_row w cs e row)[k]? = some (ecs_world_entity_component_get w e c) := by
  have hk : k < cs.length := by
    rcases List.getElem?_eq_some_iff.1 hc with ⟨hk, _⟩; exact hk
  unfold ecs_query_fill_row
  simp only
  rw [List.getElem?_append_left (by simpa using hk)]
  simp [hc]

theorem ecs_query_fill_get (w : ecs_world) (cs : List Nat) (es : List Nat)
    (rows : List (List (Option ecs_ptr))) (hlen : es.length ≤ rows.length)
    (r e : Nat) (he : es[r]? = some e) :
    ∃ row, rows[r]? = some row ∧
      (ecs_query_fill w cs es rows)[r]? = some (ecs_query_fill_row w cs e row) := by
  induction es generalizing rows r with
  | nil => simp at he
  | cons x xs ih =>
    cases rows with
    | nil => simp at hlen
    | cons row rows =>
      cases r with
      | zero =>
        simp only [List.getElem?_cons_zero, Option.some.injEq] at he
        subst he
        exact ⟨row, by simp, by simp [ecs_query_fill]⟩
      | succ r =>
        simp only [List.getElem?_cons_succ] at he
        simp only [List.length_cons, Nat.add_le_add_iff_right] at hlen
        obtain ⟨row2, h1, h2⟩ := ih rows hlen r he
        exact ⟨row2, by simpa using h1, by simpa [ecs_query_fill] using h2⟩

/-- Claim C10: in every reachable world the entities collected by
`ecs_world_query` are in strictly ascending order of their slot index in the
entity table, and in the result cell `k` of row `r` is the pointer
`ecs_world_entity_component_get` returns for the entity of row `r` and the
`k`-th non-zero requested id. -/
theorem ecs_world_query_layout (w : ecs_world) (args : List Nat)
    (hr : ecs_reachable w) :
    (ecs_world_query_entities w (ecs_query_components args)).Pairwise
      (fun a b => ∃ i j, ecs_map_get w.entity_manager.id_to_index a = some i ∧
        ecs_map_get w.entity_manager.id_to_index b = some j ∧ i < j) ∧
    ∀ (r k e c : Nat), (ecs_world_query_entities w (ecs_query_components args))[r]? = some e →
      (ecs_query_components args)[k]? = some c →
      ∃ row : List (Option ecs_ptr),
        (ecs_world_query w args).query_result.list[r]? = some row ∧
        row[k]? = some (ecs_world_entity_component_get w e c) := by
  have hok := (ecs_reachable_ok hr).1
  constructor
  · unfold ecs_world_query_entities
    apply List.Pairwise.filterMap _ _ (List.pairwise_lt_range _)
    intro a a2 hlt b hb b2 hb2
    have h1 := ((ecs_world_query_entities_slot w _ a b).1 hb).1
    have h2 := ((ecs_world_query_entities_slot w _ a2 b2).1 hb2).1
    exact ⟨a, a2, (hok.2.2.2.1 _ _).2 h1, (hok.2.2.2.1 _ _).2 h2, hlt⟩
  · intro r k e c he hc
    obtain ⟨row, _, h2⟩ := ecs_query_fill_get w (ecs_query_components args)
      (ecs_world_query_entities w (ecs_query_components args))
      (w.query_result.list ++ List.replicate
        ((ecs_world_query_entities w (ecs_query_components args)).length
          - w.query_result.list.length) [])
      (by simp only [List.length_append, List.length_replicate]; omega) r e he
    exact ⟨_, h2, ecs_query_fill_row_get w _ e row k c hc⟩

/-! ## Detach and the mask bit -/

theorem ecs_detach_operand_low (s : Nat) (hs : s < 31) :
    ecs_detach_operand s = 2 ^ 64 - (2 ^ s + 1) := by
  have h1 : s % 32 = s := Nat.mod_eq_of_lt (by omega)
  have h2 : ¬ s % 32 = 31 := by omega
  have h3 : (2 : Nat) ^ s < 2 ^ 31 := Nat.pow_lt_pow_right (by decide) hs
  unfold ecs_detach_operand ecs_int_shl_one
  rw [if_neg h2, h1]
  have h4 : ((2 : Int) ^ s) = (((2 : Nat) ^ s : Nat) : Int) := by push_cast; rfl
  rw [h4]
  generalize (2 : Nat) ^ s = p at h3 ⊢
  omega

theorem ecs_bit_clear_test (x s : Nat) (hs : s < 31) :
    (x &&& ecs_detach_operand s) &&& 1 <<< s = 0 := by
  rw [ecs_detach_operand_low s hs]
  apply Nat.eq_of_testBit_eq
  intro i
  simp only [Nat.testBit_and, Nat.zero_testBit, Nat.one_shiftLeft]
  by_cases hi : i = s
  · subst hi
    have hlt : (2 : Nat) ^ i < 2 ^ 64 := Nat.pow_lt_pow_right (by decide) (by omega)
    rw [Nat.testBit_two_pow_sub_succ hlt]
    simp [Nat.testBit_two_pow_self]
  · have : (2 ^ s).testBit i = false := by
      rw [Nat.testBit_two_pow]
      simp; omega
    simp [this]

theorem ecs_detach_has_low (w : ecs_world) (e c : Nat) (hs : ecs_mask_shift c < 31) :
    ecs_world_entity_component_has (ecs_world_entity_component_detach w e c) e c = 0 ∧
    ecs_world_entity_component_get (ecs_world_entity_component_detach w e c) e c = none := by
  have hget : ∀ w2 : ecs_world, ecs_world_entity_component_has w2 e c = 0 →
      ecs_world_entity_component_get w2 e c = none := by
    intro w2 h0
    unfold ecs_world_entity_component_get
    rw [if_pos h0]
  suffices h : ecs_world_entity_component_has
      (ecs_world_entity_component_detach w e c) e c = 0 from ⟨h, hget _ h⟩
  cases hlive : ecs_entity_manager_get w.entity_manager e with
  | none =>
    have h1 : ecs_world_entity_component_detach w e c = w := by
      unfold ecs_world_entity_component_detach; rw [hlive]
    rw [h1]
    unfold ecs_world_entity_component_has; rw [hlive]
  | some p =>
    obtain ⟨idx, ent⟩ := p
    have hh := (ecs_entity_manager_get_eq_some _ _ _ _).1 hlive
    have hlt : idx < w.entity_manager.entities.length := by
      rcases List.getElem?_eq_some_iff.1 hh.2 with ⟨hlt, _⟩; exact hlt
    have hml := ecs_mask_grow_length ent.component_mask (ecs_mask_index c)
    generalize hm : ecs_mask_grow ent.component_mask (ecs_mask_index c) = m at hml
    generalize hword : m.getD (ecs_mask_index c) 0 = x
    have h2 : ecs_entity_manager_get
        (ecs_world_entity_component_detach w e c).entity_manager e
        = some (idx, { ent with
            component_mask := List.set m (ecs_mask_index c)
              (x &&& ecs_detach_operand (ecs_mask_shift c)) }) := by
      unfold ecs_world_entity_component_detach
      rw [hlive, ecs_entity_manager_get_eq_some]
      refine ⟨hh.1, ?_⟩
      simp only [hm, hword]
      simp [List.getElem?_set, hlt]
    unfold ecs_world_entity_component_has
    rw [h2]
    simp only [da_len]
    split
    · rfl
    · split
      · rfl
      · have hw : (m.set (ecs_mask_index c)
            (x &&& ecs_detach_operand (ecs_mask_shift c))).getD (ecs_mask_index c) 0
            = x &&& ecs_detach_operand (ecs_mask_shift c) := by
          simp [List.getD_eq_getElem?_getD, List.getElem?_set, hml]
        rw [hw, ecs_bit_clear_test _ _ hs]
        simp

/-! ## Zero-initialisation of a new instance -/

theorem ecs_mem_zero_length (mem : List Nat) (d n : Nat) :
    (ecs_mem_zero mem d n).length = mem.length := by
  induction n generalizing mem d with
  | zero => rfl
  | succ n ih => simp [ecs_mem_zero, ih]

theorem ecs_mem_copy_length (mem : List Nat) (s d n : Nat) :
    (ecs_mem_copy mem s d n).length = mem.length := by
  induction n generalizing mem s d with
  | zero => rfl
  | succ n ih => simp [ecs_mem_copy, ih]

theorem ecs_mem_write_length (mem : List Nat) (d : Nat) (bytes : List Nat) :
    (ecs_mem_write mem d bytes).length = mem.length := by
  induction bytes generalizing mem d with
  | nil => rfl
  | cons b bs ih => simp [ecs_mem_write, ih]

theorem ecs_mem_zero_getElem? (mem : List Nat) (d n i : Nat) :
    (ecs_mem_zero mem d n)[i]? =
      if d ≤ i ∧ i < d + n ∧ i < mem.length then some 0 else mem[i]? := by
  induction n generalizing mem d with
  | zero =>
    have : ¬ (d ≤ i ∧ i < d + 0 ∧ i < mem.length) := by omega
    rw [if_neg this]; rfl
  | succ n ih =>
    simp only [ecs_mem_zero, ih, List.length_set, List.getElem?_set]
    by_cases h1 : d = i
    · subst h1
      by_cases h2 : d < mem.length
      · have : ¬ (d + 1 ≤ d ∧ d < d + 1 + n ∧ d < mem.length) := by omega
        have h3 : d ≤ d ∧ d < d + (n + 1) ∧ d < mem.length := by omega
        simp [this, h2, h3]
      · have : ¬ (d + 1 ≤ d ∧ d < d + 1 + n ∧ d < mem.length) := by omega
        have h3 : ¬ (d ≤ d ∧ d < d + (n + 1) ∧ d < mem.length) := by omega
        simp [h2]
        omega
    · by_cases h2 : d + 1 ≤ i ∧ i < d + 1 + n ∧ i < mem.length
      · have h3 : d ≤ i ∧ i < d + (n + 1) ∧ i < mem.length := by omega
        simp [h2, h3]
      · have h3 : ¬ (d ≤ i ∧ i < d + (n + 1) ∧ i < mem.length) := by omega
        simp [h1, h2, h3]

theorem ecs_mem_zero_read (mem : List Nat) (d n : Nat) (h : d + n ≤ mem.length) :
    ((ecs_mem_zero mem d n).drop d).take n = List.replicate n 0 := by
  apply List.ext_getElem?
  intro i
  rw [List.getElem?_take, List.getElem?_drop, ecs_mem_zero_getElem?, List.getElem?_replicate]
  by_cases hi : i < n
  · have : d ≤ d + i ∧ d + i < d + n ∧ d + i < mem.length := by omega
    simp [hi, this]
  · simp [hi]

theorem ecs_component_list_add_sized (l : ecs_component_list) (e : Nat)
    (j : Nat → Nat) (h : ecs_component_list_sized l) :
    ecs_component_list_sized (ecs_component_list_add l e none (some j)) := by
  obtain ⟨hc, hd⟩ := h
  rw [ecs_component_list_add_some]
  cases ecs_map_get l.entity_to_index e with
  | some x => exact ⟨hc, hd⟩
  | none =>
    by_cases h0 : l.cap = 0
    · have hcount : l.count = 0 := by omega
      refine ⟨?_, ?_⟩
      · simp [h0, hcount]
      · simp [h0, ecs_mem_zero_length]
    · by_cases h1 : l.cap ≤ l.count
      · refine ⟨?_, ?_⟩
        · simp only [h0, h1, if_false, if_true]; omega
        · simp only [h0, h1, if_false, if_true, ecs_mem_zero_length,
            List.length_append, List.length_take, List.length_map, List.length_range, hd]
          have : l.cap * l.unit_size ≤ (l.cap * 2 + 1) * l.unit_size :=
            Nat.mul_le_mul_right _ (by omega)
          omega
      · refine ⟨?_, ?_⟩
        · simp only [h0, h1, if_false]; omega
        · simp only [h0, h1, if_false, ecs_mem_zero_length]; exact hd

/-- When the entity has no slot in the store yet, the instance designated by
`ecs_component_list_get` after `ecs_component_list_add` with a null source is
`unit_size` zero bytes. -/
theorem ecs_component_list_add_zeroed (l : ecs_component_list) (e : Nat)
    (j : Nat → Nat) (h : ecs_component_list_sized l)
    (hnew : ecs_map_get l.entity_to_index e = none) :
    ecs_component_list_get (ecs_component_list_add l e none (some j)) e
      = some (l.count * l.unit_size) ∧
    (ecs_component_list_add l e none (some j)).unit_size = l.unit_size ∧
    (((ecs_component_list_add l e none (some j)).data.drop (l.count * l.unit_size)).take
      l.unit_size) = List.replicate l.unit_size 0 := by
  have hs := ecs_component_list_add_sized l e j h
  have hcount : (ecs_component_list_add l e none (some j)).count = l.count + 1 := by
    rw [ecs_component_list_add_some]; rw [hnew]
  have hcap : (ecs_component_list_add l e none (some j)).cap
      = (if l.cap = 0 then (1, (List.range (1 * l.unit_size)).map j)
          else if l.cap ≤ l.count then
            (l.cap * 2 + 1,
              l.data.take ((l.cap * 2 + 1) * l.unit_size) ++
                (List.range ((l.cap * 2 + 1) * l.unit_size - l.data.length)).map j)
          else (l.cap, l.data)).1 := by
    rw [ecs_component_list_add_some]; rw [hnew]
  have hunit : (ecs_component_list_add l e none (some j)).unit_size = l.unit_size := by
    rw [ecs_component_list_add_some]; rw [hnew]
  have hdata : (ecs_component_list_add l e none (some j)).data
      = ecs_mem_zero (if l.cap = 0 then (1, (List.range (1 * l.unit_size)).map j)
          else if l.cap ≤ l.count then
            (l.cap * 2 + 1,
              l.data.take ((l.cap * 2 + 1) * l.unit_size) ++
                (List.range ((l.cap * 2 + 1) * l.unit_size - l.data.length)).map j)
          else (l.cap, l.data)).2 (l.count * l.unit_size) l.unit_size := by
    rw [ecs_component_list_add_some]; rw [hnew]
  have hmap : ecs_map_get (ecs_component_list_add l e none (some j)).entity_to_index e
      = some l.count := by
    rw [ecs_component_list_add_some]; rw [hnew]
    exact ecs_map_get_set_self _ _ _
  refine ⟨?_, hunit, ?_⟩
  · unfold ecs_component_list_get
    rw [hmap]
    simp only [ecs_component_list_get_at, hcount, hunit]
    have : ¬ l.count ≥ l.count + 1 := by omega
    simp [this]
  · rw [hdata]
    apply ecs_mem_zero_read
    have hlen := hs.2
    rw [hdata, ecs_mem_zero_length, hunit] at hlen
    rw [hlen]
    have hle := hs.1
    rw [hcount] at hle
    calc l.count * l.unit_size + l.unit_size = (l.count + 1) * l.unit_size := by ring
      _ ≤ (ecs_component_list_add l e none (some j)).cap * l.unit_size :=
        Nat.mul_le_mul_right _ hle

theorem ecs_component_list_remove_sized (l : ecs_component_list) (e : Nat)
    (h : ecs_component_list_sized l) :
    ecs_component_list_sized (ecs_component_list_remove l e) := by
  have hc : ∀ (a b : Option Nat),
      ecs_component_list_sized (match a, b with
        | some src, some dst =>
          ({ l with data := ecs_mem_copy l.data src dst l.unit_size } : ecs_component_list)
        | _, _ => l) := by
    intro a b
    cases a <;> cases b <;> first | exact h | exact ⟨h.1, by simpa [ecs_mem_copy_length] using h.2⟩
  unfold ecs_component_list_remove
  split
  · exact h
  · split
    · exact h
    · dsimp only
      split
      · exact hc _ _
      · exact ⟨(hc _ _).1, (hc _ _).2⟩

theorem ecs_component_manager_sized_set (cm : ecs_component_manager) (li : Nat)
    (l2 : ecs_component_list) (h : ecs_component_manager_sized cm)
    (h2 : ecs_component_list_sized l2) :
    ecs_component_manager_sized { cm with lists := cm.lists.set li l2 } := by
  intro l hl
  rcases List.mem_or_eq_of_mem_set hl with hl | rfl
  · exact h l hl
  · exact h2

theorem ecs_step_sized {w w2 : ecs_world} (hs : ecs_step w w2)
    (h : ecs_component_manager_sized w.component_manager) :
    ecs_component_manager_sized w2.component_manager := by
  cases hs with
  | register size hid =>
    show ecs_component_manager_sized (ecs_component_manager_register _ size).2
    unfold ecs_component_manager_register
    split
    · exact h
    · dsimp only
      split
      · exact ecs_component_manager_sized_set _ _ _ h ⟨Nat.le_refl _, by simp⟩
      · intro l hl
        simp only [da_push, List.mem_append, List.mem_singleton] at hl
        rcases hl with hl | rfl
        · exact h l hl
        · exact ⟨Nat.le_refl _, by simp⟩
  | unregister c =>
    show ecs_component_manager_sized (ecs_component_manager_unregister _ c)
    unfold ecs_component_manager_unregister
    split
    · exact h
    · rename_i idx hg
      intro l hl
      dsimp only at hl
      cases hli : w.component_manager.lists[idx]? with
      | none => rw [hli] at hl; exact h l hl
      | some l0 =>
        rw [hli] at hl
        rcases List.mem_or_eq_of_mem_set hl with hl | rfl
        · exact h l hl
        · exact h l0 (List.getElem?_mem hli)
  | create hid => exact h
  | destroy e =>
    unfold ecs_entity_destroy_in
    split <;> exact h
  | attach e c j =>
    unfold ecs_world_entity_component_attach
    split
    · exact h
    · show ecs_component_manager_sized (ecs_component_manager_add _ e c (some j))
      unfold ecs_component_manager_add
      split
      · exact h
      · split
        · exact h
        · rename_i l hl
          exact ecs_component_manager_sized_set _ _ _ h
            (ecs_component_list_add_sized l e j (h l (List.getElem?_mem hl)))
  | detach e c =>
    unfold ecs_world_entity_component_detach
    split
    · exact h
    · show ecs_component_manager_sized (ecs_component_manager_remove _ e c)
      unfold ecs_component_manager_remove
      split
      · exact h
      · split
        · exact h
        · rename_i l hl
          exact ecs_component_manager_sized_set _ _ _ h
            (ecs_component_list_remove_sized l e (h l (List.getElem?_mem hl)))
  | write e c bytes =>
    unfold ecs_component_write
    split
    · exact h
    · split
      · exact h
      · rename_i l hl
        have hl2 := h l (List.getElem?_mem hl)
        exact ecs_component_manager_sized_set _ _ _ h
          ⟨hl2.1, by simpa [ecs_mem_write_length] using hl2.2⟩
  | query args => exact h
  | update =>
    unfold ecs_update_entities
    generalize List.range w.entity_manager.cap = xs
    induction xs generalizing w with
    | nil => exact h
    | cons x xs ih =>
      rw [List.foldl_cons]
      apply ih
      split
      · exact h
      · split
        · intro l hl
          simp only [ecs_world_entity_destroy, ecs_component_manager_entity_destroyed,
            List.mem_map] at hl
          obtain ⟨l0, hl0, rfl⟩ := hl
          exact ecs_component_list_remove_sized l0 _ (h l0 hl0)
        · exact h

theorem ecs_reachable_sized {w : ecs_world} (hr : ecs_reachable w) :
    ecs_component_manager_sized w.component_manager := by
  induction hr with
  | zero => intro l hl; simp [ecs_world_zero] at hl
  | step _ hs ih => exact ecs_step_sized hs ih

/-- In a reachable world, attaching a registered component to a live entity
that has no slot in the component's store yields an instance of `unit_size`
zero bytes. -/
theorem ecs_attach_new_zeroed (w : ecs_world) (e c li : Nat) (l : ecs_component_list)
    (j : Nat → Nat) (hr : ecs_reachable w) (hlive : ecs_entity_live w e = true)
    (hreg : ecs_map_get w.component_manager.id_to_index c = some li)
    (hl : w.component_manager.lists[li]? = some l)
    (hnew : ecs_map_get l.entity_to_index e = none) :
    ecs_component_bytes (ecs_world_entity_component_attach w e c (some j)) e c
      = some (List.replicate l.unit_size 0) := by
  obtain ⟨idx, ent, hget, hdead⟩ := (ecs_entity_live_iff w e).1 hlive
  have hhas := ecs_attach_has w e c idx ent j hget hdead
  obtain ⟨_, _, _, _, hcm⟩ := ecs_attach_entity w e c idx ent j hget
  have hli : li < w.component_manager.lists.length := by
    rcases List.getElem?_eq_some_iff.1 hl with ⟨hlt, _⟩; exact hlt
  have hadd : ecs_component_manager_add w.component_manager e c (some j) =
      { w.component_manager with
        lists := w.component_manager.lists.set li (ecs_component_list_add l e none (some j)) } := by
    unfold ecs_component_manager_add; rw [hreg]; simp only [hl]
  have hl2 : (w.component_manager.lists.set li (ecs_component_list_add l e none (some j)))[li]?
      = some (ecs_component_list_add l e none (some j)) := by
    simp [List.getElem?_set, hli]
  obtain ⟨hg, hunit, hz⟩ := ecs_component_list_add_zeroed l e j
    (ecs_reachable_sized hr l (List.getElem?_mem hl)) hnew
  have hptr : ecs_world_entity_component_get (ecs_world_entity_component_attach w e c (some j)) e c
      = some { list := li, offset := l.count * l.unit_size } := by
    unfold ecs_world_entity_component_get
    rw [hhas, hcm, hadd]
    simp only [Nat.one_ne_zero, if_false]
    unfold ecs_component_manager_get
    simp only [hreg, hl2, hg]
  unfold ecs_component_bytes
  rw [hptr]
  simp only [hcm, hadd, hl2, ecs_ptr_read, hunit, hz]

/-! ## Scenarios -/

theorem ecs_scenario_detached_reachable : ecs_reachable ecs_scenario_detached := by
  have h1 := ecs_reachable.zero.step (.register _ 1 (by decide))
  have h2 := h1.step (.create _ (by decide))
  have h3 := h2.step (.create _ (by decide))
  have h4 := h3.step (.attach _ 1 1 ecs_junk)
  have h5 := h4.step (.attach _ 2 1 ecs_junk)
  have h6 := h5.step (.write _ 2 1 [7])
  have h7 := h6.step (.detach _ 1 1)
  exact h7.step (.detach _ 2 1)

theorem ecs_register_n_reachable (n : Nat) (w : ecs_world) (hr : ecs_reachable w)
    (h : w.component_manager.current_id + n < 2 ^ 64) :
    ecs_reachable (ecs_register_n n w) := by
  induction n generalizing w with
  | zero => exact hr
  | succ n ih =>
    apply ih _ (hr.step (.register _ 1 (by omega)))
    have hmod : (w.component_manager.current_id + 1) % 2 ^ 64
        = w.component_manager.current_id + 1 := Nat.mod_eq_of_lt (by omega)
    simp [ecs_world_component_register, ecs_component_manager_register]
    split <;> simp [hmod] <;> omega

theorem ecs_scenario_wide_reachable : ecs_reachable ecs_scenario_wide := by
  have h1 := ecs_register_n_reachable 33 ecs_world_zero .zero (by decide)
  have h2 := h1.step (.create _ (by decide))
  exact h2.step (.attach _ 1 33 ecs_junk)

theorem ecs_scenario_one_reachable : ecs_reachable ecs_scenario_one := by
  have h1 := ecs_reachable.zero.step (.register _ 4 (by decide))
  exact h1.step (.create _ (by decide))

theorem ecs_scenario_stale_reachable : ecs_reachable ecs_scenario_stale := by
  have h0 := ecs_register_n_reachable 33 ecs_world_zero .zero (by decide)
  have h1 := h0.step (.create _ (by decide))
  have h2 := h1.step (.create _ (by decide))
  have h3 := h2.step (.create _ (by decide))
  have h4 := h3.step (.attach _ 1 33 ecs_junk)
  have h5 := h4.step (.attach _ 2 33 ecs_junk)
  have h6 := h5.step (.attach _ 3 33 ecs_junk)
  exact h6.step (.detach _ 3 33)

theorem ecs_scenario_dead_reachable : ecs_reachable ecs_scenario_dead := by
  have h1 := ecs_reachable.zero.step (.create _ (by decide))
  have h2 := h1.step (.create _ (by decide))
  exact h2.step (.destroy _ 1)

theorem ecs_scenario_query_reachable : ecs_reachable ecs_scenario_query := by
  have h1 := ecs_reachable.zero.step (.register _ 4 (by decide))
  have h2 := h1.step (.register _ 2 (by decide))
  have h3 := h2.step (.create _ (by decide))
  have h4 := h3.step (.create _ (by decide))
  have h5 := h4.step (.create _ (by decide))
  have h6 := h5.step (.attach _ 1 1 ecs_junk)
  have h7 := h6.step (.attach _ 2 1 ecs_junk)
  have h8 := h7.step (.attach _ 2 2 ecs_junk)
  exact h8.step (.attach _ 3 2 ecs_junk)

theorem ecs_scenario_huge_reachable : ecs_reachable ecs_scenario_huge := by
  have h1 := ecs_reachable.zero.step (.register _ (2 ^ 62) (by decide))
  exact h1.step (.create _ (by decide))

/-- Claim C1 fails as stated: in the reachable world `ecs_scenario_huge`
entity 1 is live and component 1 is registered, the allocation of the store's
buffer (`2 ^ 62` bytes) fails inside `ecs_world_entity_component_attach`, and
afterwards `ecs_world_entity_component_has` returns 1 while
`ecs_world_entity_component_get` returns a null pointer and the store holds no
instance. -/
theorem ecs_attach_failed_alloc_has_without_instance :
    ecs_reachable ecs_scenario_huge ∧ ecs_entity_live ecs_scenario_huge 1 = true ∧
    ecs_component_registered ecs_scenario_huge 1 = true ∧
    ecs_world_entity_component_has
      (ecs_world_entity_component_attach ecs_scenario_huge 1 1 none) 1 1 = 1 ∧
    ecs_world_entity_component_get
      (ecs_world_entity_component_attach ecs_scenario_huge 1 1 none) 1 1 = none ∧
    (ecs_world_entity_component_attach ecs_scenario_huge 1 1 none).component_manager.lists.map
      (fun l => (l.count, l.cap, l.entity_to_index)) = [(0, 0, [])] :=
  ⟨ecs_scenario_huge_reachable, by decide, by decide, by decide, by decide, by decide⟩

/-- Claim C4 fails as stated: in the reachable world `ecs_scenario_one`, with
entity 1 live and component 1 registered, a first
`ecs_world_entity_component_attach` whose allocation fails adds no instance,
and a second one whose allocation succeeds changes the world: the store's
`count` is 0 after the first call and 1 after the second. -/
theorem ecs_attach_after_failed_alloc_differs :
    ecs_reachable ecs_scenario_one ∧ ecs_entity_live ecs_scenario_one 1 = true ∧
    ecs_component_registered ecs_scenario_one 1 = true ∧
    ecs_world_entity_component_attach
        (ecs_world_entity_component_attach ecs_scenario_one 1 1 none) 1 1 (some ecs_junk)
      ≠ ecs_world_entity_component_attach ecs_scenario_one 1 1 none ∧
    (ecs_world_entity_component_attach ecs_scenario_one 1 1 none).component_manager.lists.map
      (fun l => l.count) = [0] ∧
    (ecs_world_entity_component_attach
        (ecs_world_entity_component_attach ecs_scenario_one 1 1 none) 1 1
        (some ecs_junk)).component_manager.lists.map
      (fun l => l.count) = [1] := by
  refine ⟨ecs_scenario_one_reachable, by decide, by decide, ?_, by decide, by decide⟩
  intro h
  have hc := congrArg (fun w => w.component_manager.lists.map (fun l => l.count)) h
  revert hc
  decide

/-- Witness of C4: in the world with one component type and one entity, two
attaches whose allocations both succeed. -/
theorem ecs_world_entity_component_attach_idempotent_witness :
    ((some ecs_junk).isNone = true → (some ecs_junk).isNone = true) ∧
    ecs_world_entity_component_attach
        (ecs_world_entity_component_attach ecs_scenario_one 1 1 (some ecs_junk)) 1 1
        (some ecs_junk)
      = ecs_world_entity_component_attach ecs_scenario_one 1 1 (some ecs_junk) :=
  ⟨fun h => h,
    ecs_world_entity_component_attach_idempotent ecs_scenario_one 1 1 (some ecs_junk)
      (some ecs_junk) (fun h => h)⟩

/-- Witness of C1: the world with one component type and one entity. -/
theorem ecs_attach_then_has_and_get_witness :
    ecs_reachable ecs_scenario_one ∧ ecs_entity_live ecs_scenario_one 1 = true ∧
    ecs_component_registered ecs_scenario_one 1 = true ∧
    ecs_world_entity_component_has
      (ecs_world_entity_component_attach ecs_scenario_one 1 1 (some ecs_junk)) 1 1 = 1 ∧
    ecs_world_entity_component_get
      (ecs_world_entity_component_attach ecs_scenario_one 1 1 (some ecs_junk)) 1 1 ≠ none :=
  ⟨ecs_scenario_one_reachable, by decide, by decide,
    ecs_attach_then_has_and_get ecs_scenario_one 1 1 ecs_junk ecs_scenario_one_reachable
      (by decide) (by decide)⟩

/-- Claim C2, evaluated at a failing input: in the reachable world
`ecs_scenario_detached` entity 2 is live, component 1 is registered and
`has(2, 1)` is 0, yet after attaching component 1 to entity 2 again the
instance returned by `get(2, 1)` still holds the byte 7 written before the
detach instead of 0. -/
theorem ecs_reattach_keeps_old_bytes :
    ecs_reachable ecs_scenario_detached ∧
    ecs_entity_live ecs_scenario_detached 2 = true ∧
    ecs_component_registered ecs_scenario_detached 1 = true ∧
    ecs_world_entity_component_has ecs_scenario_detached 2 1 = 0 ∧
    ecs_component_bytes
      (ecs_world_entity_component_attach ecs_scenario_detached 2 1 (some ecs_junk)) 2 1
      = some [7] :=
  ⟨ecs_scenario_detached_reachable, by decide, by decide, by decide, by decide⟩

/-- Claim C5, evaluated at a failing input: in the reachable world
`ecs_scenario_wide` the live entity 1 has the registered component 33, and
after `ecs_world_entity_component_detach(world, 1, 33)` the call
`ecs_world_entity_component_has(world, 1, 33)` still returns 1. -/
theorem ecs_detach_leaves_bit_set :
    ecs_reachable ecs_scenario_wide ∧
    ecs_entity_live ecs_scenario_wide 1 = true ∧
    ecs_component_registered ecs_scenario_wide 33 = true ∧
    ecs_world_entity_component_has ecs_scenario_wide 1 33 = 1 ∧
    ecs_world_entity_component_has
      (ecs_world_entity_component_detach ecs_scenario_wide 1 33) 1 33 = 1 :=
  ⟨ecs_scenario_wide_reachable, by decide, by decide, by decide, by decide⟩

/-- Claim C6, evaluated on the code: `ecs_component_list_remove` never changes
`count`; in particular the store `ecs_scenario_store`, in which entity 1 has
slot 0 and `count` is 1, still has `count` 1 after entity 1 is removed. -/
theorem ecs_component_list_remove_keeps_count :
    (∀ (l : ecs_component_list) (e : Nat),
      (ecs_component_list_remove l e).count = l.count) ∧
    ecs_component_list_get ecs_scenario_store 1 = some 0 ∧
    ecs_scenario_store.count = 1 ∧
    (ecs_component_list_remove ecs_scenario_store 1).count = 1 ∧
    ecs_component_list_get (ecs_component_list_remove ecs_scenario_store 1) 1 = none :=
  ⟨ecs_component_list_remove_count, by decide, by decide, by decide, by decide⟩

/-- Claim C7, evaluated at a failing input: in the reachable world
`ecs_scenario_stale` the live entities 1 and 2 both hold component 33; after
`ecs_world_entity_component_detach(world, 1, 33)` the bytes of entity 2 are
unchanged, but `ecs_world_entity_component_get(world, 1, 33)` still returns
the pointer to slot 0 of the store instead of null. -/
theorem ecs_detach_leaves_instance :
    ecs_reachable ecs_scenario_stale ∧
    ecs_entity_live ecs_scenario_stale 1 = true ∧
    ecs_entity_live ecs_scenario_stale 2 = true ∧
    ecs_world_entity_component_has ecs_scenario_stale 1 33 = 1 ∧
    ecs_world_entity_component_has ecs_scenario_stale 2 33 = 1 ∧
    ecs_component_bytes (ecs_world_entity_component_detach ecs_scenario_stale 1 33) 2 33
      = ecs_component_bytes ecs_scenario_stale 2 33 ∧
    ecs_world_entity_component_get
      (ecs_world_entity_component_detach ecs_scenario_stale 1 33) 1 33
      = some { list := 32, offset := 0 } :=
  ⟨ecs_scenario_stale_reachable, by decide, by decide, by decide, by decide, by decide,
    by decide⟩

/-- Witness of C8: the world of the spec's example, where `query([A,B])`
collects exactly `e2` and `query([A])` collects `e1` and `e2`. -/
theorem ecs_world_query_correct_witness :
    ecs_reachable ecs_scenario_query ∧
    ecs_world_query_entities ecs_scenario_query (ecs_query_components [1, 2]) = [2] ∧
    ecs_world_query_entities ecs_scenario_query (ecs_query_components [1]) = [1, 2] ∧
    ((ecs_world_query_entities ecs_scenario_query (ecs_query_components [1, 2])).Nodup ∧
    (∀ e, e ∈ ecs_world_query_entities ecs_scenario_query (ecs_query_components [1, 2]) ↔
      (ecs_entity_manager_get ecs_scenario_query.entity_manager e ≠ none ∧
        ∀ c ∈ [1, 2], c ≠ 0 → ecs_world_entity_component_has ecs_scenario_query e c = 1)) ∧
    (ecs_world_query ecs_scenario_query [1, 2]).query_result.count
      = (ecs_world_query_entities ecs_scenario_query (ecs_query_components [1, 2])).length) :=
  ⟨ecs_scenario_query_reachable, by decide, by decide,
    ecs_world_query_correct ecs_scenario_query [1, 2] ecs_scenario_query_reachable⟩

/-- Claim C9, evaluated at a failing input: in the reachable world
`ecs_scenario_dead` entity 1 is marked dead (not live) and entity 2 is live,
yet `ecs_world_query` with no component id collects both entities and returns
`count` 2. -/
theorem ecs_world_query_empty_returns_dead :
    ecs_reachable ecs_scenario_dead ∧
    ecs_entity_live ecs_scenario_dead 1 = false ∧
    ecs_entity_live ecs_scenario_dead 2 = true ∧
    ecs_world_query_entities ecs_scenario_dead (ecs_query_components []) = [1, 2] ∧
    (ecs_world_query ecs_scenario_dead []).query_result.count = 2 :=
  ⟨ecs_scenario_dead_reachable, by decide, by decide, by decide, by decide⟩

/-- Witness of C10: the world of the spec's example with the request `[B, 0, A]`. -/
theorem ecs_world_query_layout_witness :
    ecs_reachable ecs_scenario_query ∧
    ((ecs_world_query_entities ecs_scenario_query (ecs_query_components [2, 0, 1])).Pairwise
      (fun a b => ∃ i j,
        ecs_map_get ecs_scenario_query.entity_manager.id_to_index a = some i ∧
        ecs_map_get ecs_scenario_query.entity_manager.id_to_index b = some j ∧ i < j) ∧
    ∀ (r k e c : Nat),
      (ecs_world_query_entities ecs_scenario_query (ecs_query_components [2, 0, 1]))[r]?
        = some e →
      (ecs_query_components [2, 0, 1])[k]? = some c →
      ∃ row : List (Option ecs_ptr),
        (ecs_world_query ecs_scenario_query [2, 0, 1]).query_result.list[r]? = some row ∧
        row[k]? = some (ecs_world_entity_component_get ecs_scenario_query e c)) :=
  ⟨ecs_scenario_query_reachable,
    ecs_world_query_layout ecs_scenario_query [2, 0, 1] ecs_scenario_query_reachable⟩

/-! ## Key uniqueness of the map -/

/-- Claim C20: key uniqueness among the non-tombstoned entries is preserved by
`ecs_map_set` (update in place, fill of a tombstoned slot, or append) and by
`ecs_map_unset`, for every key and value; hence it holds in every map reachable
from the empty map by these two operations. -/
theorem ecs_map_unique_preserved :
    (∀ (m : ecs_map) (k v : Nat), ecs_map_unique m → ecs_map_unique (ecs_map_set m k v)) ∧
    (∀ (m : ecs_map) (k : Nat), ecs_map_unique m → ecs_map_unique (ecs_map_unset m k)) ∧
    (∀ m : ecs_map, ecs_map_reachable m → ecs_map_unique m) := by
  refine ⟨ecs_map_unique_set, ecs_map_unique_unset, ?_⟩
  intro m hm
  induction hm with
  | empty => exact List.nodup_nil
  | set k v _ ih => exact ecs_map_unique_set _ k v ih
  | unset k _ ih => exact ecs_map_unique_unset _ k ih

/-- Witness of C20: a map whose first slot is tombstoned; setting a new key
fills that slot and the keys stay unique, also after unsetting a key. -/
theorem ecs_map_unique_preserved_witness :
    ecs_map_unique ecs_scenario_map ∧
    ecs_map_set ecs_scenario_map 3 30
      = [{ key := 3, value := 30, free := false }, { key := 2, value := 20, free := false }] ∧
    ecs_map_unique (ecs_map_set ecs_scenario_map 3 30) ∧
    ecs_map_unique (ecs_map_unset ecs_scenario_map 2) ∧
    ecs_map_reachable (ecs_map_unset (ecs_map_set [] 2 20) 2) ∧
    ecs_map_unique (ecs_map_unset (ecs_map_set [] 2 20) 2) :=
  ⟨by unfold ecs_map_unique; decide, by decide,
    ecs_map_unique_preserved.1 ecs_scenario_map 3 30 (by unfold ecs_map_unique; decide),
    ecs_map_unique_preserved.2.1 ecs_scenario_map 2 (by unfold ecs_map_unique; decide),
    .unset 2 (.set 2 20 .empty),
    ecs_map_unique_preserved.2.2 _ (.unset 2 (.set 2 20 .empty))⟩

/-! ## Entity ids -/

theorem ecs_entity_manager_create_id (em : ecs_entity_manager) :
    (ecs_entity_manager_create em).1 = (em.current_id + 1) % 2 ^ 64 ∧
    (ecs_entity_manager_create em).2.current_id = (em.current_id + 1) % 2 ^ 64 := by
  unfold ecs_entity_manager_create
  dsimp only
  split <;> exact ⟨rfl, rfl⟩

theorem ecs_entity_manager_destroy_current_id (em : ecs_entity_manager) (e : Nat) :
    (ecs_entity_manager_destroy em e).current_id = em.current_id := by
  unfold ecs_entity_manager_destroy
  split <;> rfl

theorem ecs_entity_manager_run_ids (calls : List ecs_entity_call) (em : ecs_entity_manager)
    (h : em.current_id + ecs_entity_calls_creations calls < 2 ^ 64) :
    (∀ id ∈ (ecs_entity_manager_run em calls).1, em.current_id < id) ∧
    (ecs_entity_manager_run em calls).1.Pairwise (fun a b => a < b) := by
  induction calls generalizing em with
  | nil => simp [ecs_entity_manager_run]
  | cons call calls ih =>
    cases call with
    | create =>
      simp only [ecs_entity_calls_creations] at h
      obtain ⟨h1, h2⟩ := ecs_entity_manager_create_id em
      have hmod : (em.current_id + 1) % 2 ^ 64 = em.current_id + 1 :=
        Nat.mod_eq_of_lt (by omega)
      rw [hmod] at h1 h2
      obtain ⟨ih1, ih2⟩ := ih (ecs_entity_manager_create em).2 (by rw [h2]; omega)
      rw [h2] at ih1
      simp only [ecs_entity_manager_run, List.mem_cons, List.pairwise_cons]
      refine ⟨?_, ?_, ih2⟩
      · rintro id (rfl | hid)
        · omega
        · exact Nat.lt_of_succ_lt (ih1 id hid)
      · intro b hb
        rw [h1]
        exact ih1 b hb
    | destroy e =>
      simp only [ecs_entity_calls_creations] at h
      have hc := ecs_entity_manager_destroy_current_id em e
      obtain ⟨ih1, ih2⟩ := ih (ecs_entity_manager_destroy em e) (by rw [hc]; exact h)
      rw [hc] at ih1
      exact ⟨ih1, ih2⟩

/-- Claim C11: in every sequence of `ecs_entity_manager_create` and
`ecs_entity_manager_destroy` calls on a zero-initialised entity manager with
fewer than 2^64 - 1 creations, every id returned by create is non-zero and
strictly greater than every id returned before it, whether the new entity
takes a fresh or a recycled slot. -/
theorem ecs_entity_ids_increase (calls : List ecs_entity_call)
    (h : ecs_entity_calls_creations calls < 2 ^ 64 - 1) :
    (∀ id ∈ (ecs_entity_manager_run ecs_world_zero.entity_manager calls).1, id ≠ 0) ∧
    (ecs_entity_manager_run ecs_world_zero.entity_manager calls).1.Pairwise
      (fun earlier later => earlier < later) := by
  have h0 : ecs_world_zero.entity_manager.current_id = 0 := rfl
  obtain ⟨h1, h2⟩ := ecs_entity_manager_run_ids calls ecs_world_zero.entity_manager
    (by rw [h0]; omega)
  refine ⟨?_, h2⟩
  intro id hid
  have := h1 id hid
  omega

/-- Witness of C11: create, create, destroy 1, create (recycles slot 0),
destroy 3, destroy 2, create, create returns the ids 1, 2, 3, 4, 5. -/
theorem ecs_entity_ids_increase_witness :
    (ecs_entity_manager_run ecs_world_zero.entity_manager
      [.create, .create, .destroy 1, .create, .destroy 3, .destroy 2, .create, .create]).1
      = [1, 2, 3, 4, 5] ∧
    ((∀ id ∈ (ecs_entity_manager_run ecs_world_zero.entity_manager
      [.create, .create, .destroy 1, .create, .destroy 3, .destroy 2, .create, .create]).1,
        id ≠ 0) ∧
    (ecs_entity_manager_run ecs_world_zero.entity_manager
      [.create, .create, .destroy 1, .create, .destroy 3, .destroy 2, .create, .create]).1.Pairwise
      (fun earlier later => earlier < later)) :=
  ⟨by decide, ecs_entity_ids_increase _ (by decide)⟩
/-! ## Deferred destruction -/

theorem ecs_entity_destroy_in_frame (w : ecs_world) (e : Nat) :
    (ecs_entity_destroy_in w e).entity_manager.id_to_index = w.entity_manager.id_to_index ∧
    (ecs_entity_destroy_in w e).entity_manager.index_to_id = w.entity_manager.index_to_id ∧
    (ecs_entity_destroy_in w e).entity_manager.free_slots = w.entity_manager.free_slots ∧
    (ecs_entity_destroy_in w e).component_manager = w.component_manager := by
  unfold ecs_entity_destroy_in
  split <;> exact ⟨rfl, rfl, rfl, rfl⟩

theorem ecs_entity_destroy_in_has (w : ecs_world) (e c : Nat) :
    ecs_world_entity_component_has (ecs_entity_destroy_in w e) e c = 0 := by
  cases hget : ecs_entity_manager_get w.entity_manager e with
  | none =>
    have h1 : ecs_entity_destroy_in w e = w := by
      unfold ecs_entity_destroy_in; rw [hget]
    rw [h1]
    unfold ecs_world_entity_component_has; rw [hget]
  | some p =>
    obtain ⟨idx, ent⟩ := p
    have hh := (ecs_entity_manager_get_eq_some _ _ _ _).1 hget
    have hlt : idx < w.entity_manager.entities.length := by
      rcases List.getElem?_eq_some_iff.1 hh.2 with ⟨hlt, _⟩; exact hlt
    have h2 : ecs_entity_manager_get (ecs_entity_destroy_in w e).entity_manager e
        = some (idx, { ent with dead := true }) := by
      unfold ecs_entity_destroy_in
      rw [hget, ecs_entity_manager_get_eq_some]
      refine ⟨hh.1, ?_⟩
      simp [List.getElem?_set, hlt]
    unfold ecs_world_entity_component_has
    rw [h2]
    simp

theorem ecs_world_manager_get_put (inst : ecs) (wid wp : Nat) (w w2 : ecs_world)
    (h : ecs_world_manager_get inst.world_manager wid = some (wp, w)) :
    ecs_world_manager_get (ecs_world_put inst wp w2).world_manager wid = some (wp, w2) := by
  unfold ecs_world_manager_get at h ⊢
  cases hg : ecs_map_get inst.world_manager.id_to_index wid with
  | none => rw [hg] at h; cases h
  | some i =>
    rw [hg] at h
    have hg2 : ecs_map_get (ecs_world_put inst wp w2).world_manager.id_to_index wid
        = some i := hg
    rw [hg2]
    unfold ecs_world_manager_get_at at h ⊢
    have hcap : (ecs_world_put inst wp w2).world_manager.cap = inst.world_manager.cap := rfl
    rw [hcap]
    by_cases hi : i ≥ inst.world_manager.cap
    · simp only [hi, if_true] at h; cases h
    · simp only [hi, if_false] at h ⊢
      cases hw : inst.world_manager.worlds[i]? with
      | none => rw [hw] at h; cases h
      | some x =>
        rw [hw] at h
        simp only [Option.some.injEq, Prod.mk.injEq] at h
        obtain ⟨rfl, rfl⟩ := h
        have hlt : i < inst.world_manager.worlds.length := by
          rcases List.getElem?_eq_some_iff.1 hw with ⟨hlt, _⟩; exact hlt
        have : (ecs_world_put inst i w2).world_manager.worlds[i]? = some w2 := by
          simp [ecs_world_put, List.getElem?_set, hlt]
        rw [this]

/-- Claim C12: when the current world resolves, after `ecs_entity_destroy(e)`
(and before any `ecs_update`) the current world still resolves at the same
slot, `ecs_world_entity_component_has` returns 0 and
`ecs_world_entity_component_get` returns null for `e` and every component id,
and the entity table's `id_to_index`, `index_to_id` and free-slot list and the
whole component registry (every store) are unchanged. -/
theorem ecs_entity_destroy_deferred (inst : ecs) (wp : Nat) (w : ecs_world) (e : Nat)
    (h : ecs_world_manager_get inst.world_manager inst.current_world_id = some (wp, w)) :
    ∃ w2 : ecs_world,
      ecs_world_manager_get (ecs_entity_destroy inst e).world_manager
        (ecs_entity_destroy inst e).current_world_id = some (wp, w2) ∧
      (∀ c, ecs_world_entity_component_has w2 e c = 0 ∧
        ecs_world_entity_component_get w2 e c = none) ∧
      w2.entity_manager.id_to_index = w.entity_manager.id_to_index ∧
      w2.entity_manager.index_to_id = w.entity_manager.index_to_id ∧
      w2.entity_manager.free_slots = w.entity_manager.free_slots ∧
      w2.component_manager = w.component_manager := by
  refine ⟨ecs_entity_destroy_in w e, ?_, ?_, ecs_entity_destroy_in_frame w e⟩
  · have h1 : ecs_entity_destroy inst e = ecs_world_put inst wp (ecs_entity_destroy_in w e) := by
      unfold ecs_entity_destroy; rw [h]
    rw [h1]
    exact ecs_world_manager_get_put inst _ wp w _ h
  · intro c
    have h0 := ecs_entity_destroy_in_has w e c
    refine ⟨h0, ?_⟩
    unfold ecs_world_entity_component_get
    rw [if_pos h0]

/-- Witness of C12: the instance with one world and two entities; entity 1 is
destroyed and stays resolvable at slot 0 of the entity table. -/
theorem ecs_entity_destroy_deferred_witness :
    ecs_world_manager_get ecs_scenario_instance.world_manager
      ecs_scenario_instance.current_world_id
      = some (0, (ecs_world_entity_create (ecs_world_entity_create ecs_world_zero).2).2) ∧
    ∃ w2 : ecs_world,
      ecs_world_manager_get (ecs_entity_destroy ecs_scenario_instance 1).world_manager
        (ecs_entity_destroy ecs_scenario_instance 1).current_world_id = some (0, w2) ∧
      (∀ c, ecs_world_entity_component_has w2 1 c = 0 ∧
        ecs_world_entity_component_get w2 1 c = none) ∧
      w2.entity_manager.id_to_index
        = (ecs_world_entity_create (ecs_world_entity_create ecs_world_zero).2).2.entity_manager.id_to_index ∧
      w2.entity_manager.index_to_id
        = (ecs_world_entity_create (ecs_world_entity_create ecs_world_zero).2).2.entity_manager.index_to_id ∧
      w2.entity_manager.free_slots
        = (ecs_world_entity_create (ecs_world_entity_create ecs_world_zero).2).2.entity_manager.free_slots ∧
      w2.component_manager
        = (ecs_world_entity_create (ecs_world_entity_create ecs_world_zero).2).2.component_manager :=
  ⟨by decide, ecs_entity_destroy_deferred ecs_scenario_instance 0 _ 1 (by decide)⟩
/-! ## Registering and unregistering component types -/

theorem ecs_component_manager_reachable_slots_ok {cm : ecs_component_manager}
    (hr : ecs_component_manager_reachable cm) : ecs_component_manager_slots_ok cm := by
  induction hr with
  | zero =>
    refine ⟨?_, ?_⟩
    · intro x hx; simp [ecs_world_zero] at hx
    · intro f hf; simp [ecs_world_zero] at hf
  | register size _ _ ih => exact ecs_component_manager_register_slots_ok _ size ih
  | unregister c _ ih => exact ecs_component_manager_unregister_slots_ok _ c ih
  | add e c j _ ih =>
    unfold ecs_component_manager_add
    split
    · exact ih
    · split
      · exact ih
      · exact ecs_component_manager_slots_ok_set _ _ _ ih
  | remove e c _ ih =>
    unfold ecs_component_manager_remove
    split
    · exact ih
    · split
      · exact ih
      · exact ecs_component_manager_slots_ok_set _ _ _ ih
  | entity_destroyed e _ ih =>
    obtain ⟨h1, h2⟩ := ih
    exact ⟨by simpa [ecs_component_manager_entity_destroyed] using h1,
      by simpa [ecs_component_manager_entity_destroyed] using h2⟩

/-- Claim C15: `ecs_component_manager_register(manager, 0)` returns 0 and
leaves every manager unchanged; in every reachable manager whose id counter is
not exhausted, a registration with a size above 0 returns a non-zero id that
resolves, through `id_to_index` and `lists`, to a store with that `unit_size`
and `count` 0. -/
theorem ecs_component_manager_register_spec :
    (∀ cm : ecs_component_manager, ecs_component_manager_register cm 0 = (0, cm)) ∧
    ∀ (cm : ecs_component_manager) (size : Nat),
      ecs_component_manager_reachable cm → cm.current_id + 1 < 2 ^ 64 → 0 < size →
      (ecs_component_manager_register cm size).1 ≠ 0 ∧
      ∃ (idx : Nat) (l : ecs_component_list),
        ecs_map_get (ecs_component_manager_register cm size).2.id_to_index
          (ecs_component_manager_register cm size).1 = some idx ∧
        (ecs_component_manager_register cm size).2.lists[idx]? = some l ∧
        l.unit_size = size ∧ l.count = 0 := by
  refine ⟨fun cm => by simp [ecs_component_manager_register], ?_⟩
  intro cm size hr hid hsize
  obtain ⟨_, h2⟩ := ecs_component_manager_reachable_slots_ok hr
  have hmod : (cm.current_id + 1) % 2 ^ 64 = cm.current_id + 1 := Nat.mod_eq_of_lt hid
  have hs : ¬ size = 0 := by omega
  unfold ecs_component_manager_register
  simp only [hs, if_false, hmod]
  by_cases hlen : da_len cm.free_slots > 0
  · simp only [hlen, if_true]
    have hne : cm.free_slots ≠ [] := by
      intro h0; rw [h0] at hlen; simp at hlen
    have hlast : cm.free_slots.getD (da_len cm.free_slots - 1) 0
        = cm.free_slots.getLast hne := by
      rw [List.getLast_eq_getElem, List.getD_eq_getElem?_getD,
        List.getElem?_eq_getElem (by simp [da_len]; exact List.length_pos.2 hne)]
      rfl
    have hidx : cm.free_slots.getD (da_len cm.free_slots - 1) 0 < cm.lists.length := by
      rw [hlast]; exact h2 _ (List.getLast_mem hne)
    refine ⟨Nat.succ_ne_zero _, _, ⟨cm.current_id + 1, [], [], false, size, 0, 0, []⟩,
      ecs_map_get_set_self _ _ _, ?_, rfl, rfl⟩
    rw [List.getElem?_set_self hidx]
  · simp only [hlen, if_false]
    refine ⟨Nat.succ_ne_zero _, _, ⟨cm.current_id + 1, [], [], false, size, 0, 0, []⟩,
      ecs_map_get_set_self _ _ _, ?_, rfl, rfl⟩
    simp

/-- Witness of C15: registering size 2 in the manager where component type 1
was registered and unregistered reuses slot 0 and returns id 2. -/
theorem ecs_component_manager_register_spec_witness :
    ecs_component_manager_reachable ecs_scenario_unregistered ∧
    (ecs_component_manager_register ecs_scenario_unregistered 2).1 = 2 ∧
    ((ecs_component_manager_register ecs_scenario_unregistered 2).1 ≠ 0 ∧
      ∃ (idx : Nat) (l : ecs_component_list),
        ecs_map_get (ecs_component_manager_register ecs_scenario_unregistered 2).2.id_to_index
          (ecs_component_manager_register ecs_scenario_unregistered 2).1 = some idx ∧
        (ecs_component_manager_register ecs_scenario_unregistered 2).2.lists[idx]? = some l ∧
        l.unit_size = 2 ∧ l.count = 0) :=
  ⟨.unregister 1 (.register 4 (by decide) .zero), by decide,
    ecs_component_manager_register_spec.2 ecs_scenario_unregistered 2
      (.unregister 1 (.register 4 (by decide) .zero)) (by decide) (by decide)⟩

theorem ecs_component_manager_unregister_id_to_index (cm : ecs_component_manager)
    (c : Nat) :
    (ecs_component_manager_unregister cm c).id_to_index = cm.id_to_index := by
  unfold ecs_component_manager_unregister
  split <;> rfl

/-- Claim C17, evaluated on the code: `ecs_component_manager_unregister` never
touches `id_to_index`, so an unregistered id resolves as before. In the
registry where type 1 was registered and unregistered, a second
`unregister(1)` pushes slot 0 on the free list again; after a later register
has reused slot 0 for id 2, `ecs_component_manager_add(manager, 7, 1)` adds
entity 7 to the store of id 2 and `ecs_component_manager_get(manager, 7, 1)`
returns a pointer. -/
theorem ecs_component_manager_unregister_still_resolves :
    (∀ (cm : ecs_component_manager) (c : Nat),
      ecs_map_get (ecs_component_manager_unregister cm c).id_to_index c
        = ecs_map_get cm.id_to_index c) ∧
    ecs_map_get ecs_scenario_unregistered.id_to_index 1 = some 0 ∧
    ecs_scenario_unregistered.free_slots = [0] ∧
    (ecs_component_manager_unregister ecs_scenario_unregistered 1).free_slots = [0, 0] ∧
    (ecs_component_manager_register ecs_scenario_unregistered 2).1 = 2 ∧
    ecs_component_manager_add ecs_scenario_reregistered 7 1 (some ecs_junk)
      ≠ ecs_scenario_reregistered ∧
    ecs_component_manager_get
      (ecs_component_manager_add ecs_scenario_reregistered 7 1 (some ecs_junk)) 7 1
      = some { list := 0, offset := 0 } ∧
    ecs_component_manager_get
      (ecs_component_manager_add ecs_scenario_reregistered 7 1 (some ecs_junk)) 7 2
      = some { list := 0, offset := 0 } :=
  ⟨fun cm c => by rw [ecs_component_manager_unregister_id_to_index],
    by decide, by decide, by decide, by decide, by decide, by decide, by decide⟩

/-! ## Attaching an unknown component type -/

theorem ecs_scenario_bare_reachable : ecs_reachable ecs_scenario_bare :=
  ecs_reachable.zero.step (.create _ (by decide))

/-- Claim C16, evaluated at a failing input: in the reachable world with one
live entity and no component type, component id 1 is not registered and
`has(1, 1)` is 0; `ecs_world_entity_component_attach(world, 1, 1)` changes the
world (the mask of entity 1 becomes `[1]`) and `has(1, 1)` returns 1, while
`get(1, 1)` is null. -/
theorem ecs_attach_unknown_sets_bit :
    ecs_reachable ecs_scenario_bare ∧
    ecs_entity_live ecs_scenario_bare 1 = true ∧
    ecs_component_registered ecs_scenario_bare 1 = false ∧
    ecs_world_entity_component_has ecs_scenario_bare 1 1 = 0 ∧
    ecs_world_entity_component_attach ecs_scenario_bare 1 1 (some ecs_junk) ≠ ecs_scenario_bare ∧
    ecs_world_entity_component_has
      (ecs_world_entity_component_attach ecs_scenario_bare 1 1 (some ecs_junk)) 1 1 = 1 ∧
    ecs_world_entity_component_get
      (ecs_world_entity_component_attach ecs_scenario_bare 1 1 (some ecs_junk)) 1 1 = none :=
  ⟨ecs_scenario_bare_reachable, by decide, by decide, by decide, by decide, by decide,
    by decide⟩

/-! ## Mask and store agreement, dense slots -/

theorem ecs_scenario_disagree_reachable : ecs_reachable ecs_scenario_disagree := by
  have h1 := ecs_reachable.zero.step (.register _ 1 (by decide))
  have h2 := h1.step (.create _ (by decide))
  have h3 := h2.step (.create _ (by decide))
  have h4 := h3.step (.attach _ 1 1 ecs_junk)
  have h5 := h4.step (.attach _ 2 1 ecs_junk)
  have h6 := h5.step (.detach _ 1 1)
  exact h6.step (.detach _ 2 1)

/-- Claim C18, evaluated at a failing input: in the world reached by register,
create, create, attach(1,1), attach(2,1), detach(1,1), detach(2,1) the store of
the registered component 1 still has a slot for entity 2
(`ecs_component_manager_get` returns a pointer), while entity 2 is resolvable,
not dead, not destroyed, and its mask bit for component 1 is clear
(`ecs_world_entity_component_has` returns 0). -/
theorem ecs_mask_store_disagree :
    ecs_reachable ecs_scenario_disagree ∧
    ecs_component_registered ecs_scenario_disagree 1 = true ∧
    ecs_component_manager_get ecs_scenario_disagree.component_manager 2 1
      = some { list := 0, offset := 0 } ∧
    ecs_entity_manager_get ecs_scenario_disagree.entity_manager 2
      = some (1, { id := 2, component_mask := [0], dead := false, destroyed := false }) ∧
    ecs_world_entity_component_has ecs_scenario_disagree 2 1 = 0 :=
  ⟨ecs_scenario_disagree_reachable, by decide, by decide, by decide, by decide⟩

/-- Claim C19, evaluated at a failing input: after `ecs_component_list_add`
of entity 1 to an empty store and `ecs_component_list_remove` of entity 1,
`count` is 1 but slot 0 has no owner in `index_to_entity` (and entity 1 has no
slot in `entity_to_index`): the owned slots are not `0 .. count-1`. -/
theorem ecs_component_list_slots_not_dense :
    ecs_component_list_reachable (ecs_component_list_remove ecs_scenario_store 1) ∧
    (ecs_component_list_remove ecs_scenario_store 1).count = 1 ∧
    ecs_map_get (ecs_component_list_remove ecs_scenario_store 1).index_to_entity 0 = none ∧
    ecs_map_get (ecs_component_list_remove ecs_scenario_store 1).entity_to_index 1 = none :=
  ⟨.remove 1 (.add 1 ecs_junk (.empty 1 1)), by decide, by decide, by decide⟩

/-! ## Tearing down dead worlds -/

/-- Claim C14, evaluated on the code. In the instance after `ecs_world_create()`
and `ecs_world_destroy(1)` the world's `id` field is 0, so `ecs_update` calls
`ecs_world_manager_destroy` with id 0, which does not resolve: the dead world
is not torn down (the instance is unchanged, the free list stays empty, and
a second `ecs_update` changes nothing either). On a
world manager built by `ecs_world_manager_create`, `ecs_world_manager_destroy`
leaves `destroyed` false and the id resolvable, and a second call pushes
slot 0 on the free list a second time. -/
theorem ecs_update_dead_world_teardown :
    ecs_instance_reachable ecs_scenario_dead_world ∧
    ecs_scenario_dead_world.world_manager.worlds.map (fun w => (w.id, w.dead, w.destroyed))
      = [(0, true, false)] ∧
    ecs_update ecs_scenario_dead_world = ecs_scenario_dead_world ∧
    ecs_update (ecs_update ecs_scenario_dead_world) = ecs_update ecs_scenario_dead_world ∧
    (ecs_update ecs_scenario_dead_world).world_manager.free_slots = [] ∧
    (ecs_world_manager_destroy ecs_scenario_manager 1).free_slots = [0] ∧
    (ecs_world_manager_destroy ecs_scenario_manager 1).worlds.map (fun w => w.destroyed)
      = [false] ∧
    ecs_map_get (ecs_world_manager_destroy ecs_scenario_manager 1).id_to_index 1 = some 0 ∧
    (ecs_world_manager_destroy (ecs_world_manager_destroy ecs_scenario_manager 1) 1).free_slots
      = [0, 0] :=
  ⟨(ecs_instance_reachable.zero.step (.world_create _ (by decide))).step
      (.world_destroy _ 1),
    by decide, by decide, by decide, by decide, by decide, by decide, by decide, by decide⟩
/-! ## The update sweep -/

theorem ecs_entity_manager_slots_ok_set (em : ecs_entity_manager) (idx : Nat)
    (ent ent2 : ecs_entity) (h : ecs_entity_manager_slots_ok em)
    (hent : em.entities[idx]? = some ent) (hid : ent2.id = ent.id)
    (hd : ent2.destroyed = ent.destroyed) :
    ecs_entity_manager_slots_ok { em with entities := em.entities.set idx ent2 } := by
  obtain ⟨hL, hJ⟩ := h
  have hlt : idx < em.entities.length := by
    rcases List.getElem?_eq_some_iff.1 hent with ⟨hlt, _⟩; exact hlt
  constructor
  · intro e i hg
    obtain ⟨x, hx, hxid, hxd⟩ := hL e i hg
    by_cases hi : i = idx
    · subst hi
      rw [hent] at hx
      have hx := Option.some.inj hx
      subst hx
      exact ⟨ent2, by simp [List.getElem?_set, hlt], by rw [hid, hxid], by rw [hd, hxd]⟩
    · have hne : ¬ idx = i := fun h => hi h.symm
      exact ⟨x, by simp [List.getElem?_set, hne, hx], hxid, hxd⟩
  · intro i x hx hxd
    by_cases hi : i = idx
    · subst hi
      have hx2 : x = ent2 := by
        simp [List.getElem?_set, hlt] at hx
        exact hx.symm
      subst hx2
      rw [hid]
      exact hJ i ent hent (by rw [← hd]; exact hxd)
    · have hne : ¬ idx = i := fun h => hi h.symm
      have hx3 : em.entities[i]? = some x := by
        simpa [List.getElem?_set, hne] using hx
      exact hJ i x hx3 hxd

theorem ecs_entity_manager_create_slots_ok (em : ecs_entity_manager)
    (hid : em.current_id + 1 < 2 ^ 64) (hok : ecs_entity_manager_ok em)
    (h : ecs_entity_manager_slots_ok em) :
    ecs_entity_manager_slots_ok (ecs_entity_manager_create em).2 := by
  obtain ⟨hcap, hu1, hu2, hinv, hbnd, hnd, hfree⟩ := hok
  obtain ⟨hL, hJ⟩ := h
  have hmod : (em.current_id + 1) % 2 ^ 64 = em.current_id + 1 := Nat.mod_eq_of_lt hid
  have hfresh : ∀ (x : Nat) (ent : ecs_entity), em.entities[x]? = some ent →
      ent.destroyed = false → ent.id ≠ em.current_id + 1 := by
    intro x ent hx hd hc
    have := (hbnd _ _ (hJ x ent hx hd)).2
    omega
  unfold ecs_entity_manager_create
  rw [hmod]
  by_cases hlen : da_len em.free_slots > 0
  · simp only [hlen, if_true]
    have hne : em.free_slots ≠ [] := by
      intro h0; rw [h0] at hlen; simp at hlen
    have hlast : em.free_slots.getD (da_len em.free_slots - 1) 0
        = em.free_slots.getLast hne := by
      rw [List.getLast_eq_getElem, List.getD_eq_getElem?_getD,
        List.getElem?_eq_getElem (by simp [da_len]; exact List.length_pos.2 hne)]
      rfl
    rw [hlast]
    generalize hidx : em.free_slots.getLast hne = idx
    have hmem : idx ∈ em.free_slots := by rw [← hidx]; exact List.getLast_mem hne
    obtain ⟨hidxlt, hidxfree⟩ := hfree idx hmem
    have hlt : idx < em.entities.length := by omega
    constructor
    · intro e i hg
      simp only [ecs_map_get_set] at hg
      by_cases he : e = em.current_id + 1
      · simp only [he, if_true, Option.some.injEq] at hg
        subst hg
        exact ⟨⟨em.current_id + 1, [], false, false⟩, by simp [List.getElem?_set, hlt],
          he.symm, rfl⟩
      · simp only [he, if_false] at hg
        obtain ⟨x, hx, hxid, hxd⟩ := hL e i hg
        have hne2 : ¬ idx = i := by
          rintro rfl
          rw [(hinv _ _).1 hg] at hidxfree
          cases hidxfree
        exact ⟨x, by simp [List.getElem?_set, hne2, hx], hxid, hxd⟩
    · intro i x hx hxd
      simp only [ecs_map_get_set]
      by_cases hi : idx = i
      · subst hi
        have hx2 : x = ⟨em.current_id + 1, [], false, false⟩ := by
          simp [List.getElem?_set, hlt] at hx
          exact hx.symm
        subst hx2
        simp
      · have hx3 : em.entities[i]? = some x := by
          simpa [List.getElem?_set, hi] using hx
        have hne3 := hfresh i x hx3 hxd
        simp only [hne3, if_false]
        exact hJ i x hx3 hxd
  · simp only [hlen, if_false, da_len, da_push]
    constructor
    · intro e i hg
      simp only [ecs_map_get_set] at hg
      by_cases he : e = em.current_id + 1
      · simp only [he, if_true, Option.some.injEq] at hg
        subst hg
        exact ⟨⟨em.current_id + 1, [], false, false⟩, by simp, he.symm, rfl⟩
      · simp only [he, if_false] at hg
        obtain ⟨x, hx, hxid, hxd⟩ := hL e i hg
        have hilt : i < em.entities.length := by
          rcases List.getElem?_eq_some_iff.1 hx with ⟨hlt, _⟩; exact hlt
        exact ⟨x, by rw [List.getElem?_append_left hilt]; exact hx, hxid, hxd⟩
    · intro i x hx hxd
      simp only [ecs_map_get_set]
      by_cases hi : i < em.entities.length
      · rw [List.getElem?_append_left hi] at hx
        have hne3 := hfresh i x hx hxd
        simp only [hne3, if_false]
        exact hJ i x hx hxd
      · rw [List.getElem?_append_right (by omega)] at hx
        have hi0 : i - em.entities.length = 0 := by
          by_contra hc
          rw [List.getElem?_eq_none (by simp; omega)] at hx
          cases hx
        rw [hi0] at hx
        simp at hx
        subst hx
        have : i = em.entities.length := by omega
        simp [this]

theorem ecs_entity_manager_destroy_slots_ok (em : ecs_entity_manager) (e0 : Nat)
    (hok : ecs_entity_manager_ok em) (h : ecs_entity_manager_slots_ok em) :
    ecs_entity_manager_slots_ok (ecs_entity_manager_destroy em e0) := by
  have h0 := h
  obtain ⟨hcap, hu1, hu2, hinv, hbnd, hnd, hfree⟩ := hok
  obtain ⟨hL, hJ⟩ := h
  unfold ecs_entity_manager_destroy
  cases hg0 : ecs_map_get em.id_to_index e0 with
  | none => exact h0
  | some idx0 =>
    obtain ⟨ent0, hent0, hid0, hd0⟩ := hL e0 idx0 hg0
    have hlt : idx0 < em.entities.length := by
      rcases List.getElem?_eq_some_iff.1 hent0 with ⟨hlt, _⟩; exact hlt
    simp only [hent0]
    constructor
    · intro e i hg
      simp only [ecs_map_get_unset _ _ _ hu1] at hg
      by_cases he : e = e0
      · simp [he] at hg
      · simp only [he, if_false] at hg
        obtain ⟨x, hx, hxid, hxd⟩ := hL e i hg
        have hne : ¬ idx0 = i := by
          rintro rfl
          have h1 := (hinv _ _).1 hg
          rw [(hinv _ _).1 hg0] at h1
          exact he (Option.some.inj h1).symm
        exact ⟨x, by simp [List.getElem?_set, hne, hx], hxid, hxd⟩
    · intro i x hx hxd
      by_cases hi : idx0 = i
      · subst hi
        simp [List.getElem?_set, hlt] at hx
        subst hx
        simp at hxd
      · have hx3 : em.entities[i]? = some x := by
          simpa [List.getElem?_set, hi] using hx
        have hgx := hJ i x hx3 hxd
        have hne : x.id ≠ e0 := by
          intro hc
          rw [hc, hg0] at hgx
          exact hi (Option.some.inj hgx)
        rw [ecs_map_get_unset _ _ _ hu1]
        simp only [hne, if_false]
        exact hgx
theorem ecs_entity_manager_destroy_get_other (em : ecs_entity_manager) (e0 e idx : Nat)
    (ent : ecs_entity) (hok : ecs_entity_manager_ok em)
    (hget : ecs_entity_manager_get em e = some (idx, ent)) (hne : e ≠ e0) :
    ecs_entity_manager_get (ecs_entity_manager_destroy em e0) e = some (idx, ent) := by
  obtain ⟨hcap, hu1, hu2, hinv, hbnd, hnd, hfree⟩ := hok
  have hh := (ecs_entity_manager_get_eq_some _ _ _ _).1 hget
  unfold ecs_entity_manager_destroy
  cases hg0 : ecs_map_get em.id_to_index e0 with
  | none => exact hget
  | some idx0 =>
    rw [ecs_entity_manager_get_eq_some]
    refine ⟨?_, ?_⟩
    · show ecs_map_get (ecs_map_unset em.id_to_index e0) e = some idx
      rw [ecs_map_get_unset _ _ _ hu1]
      simp only [hne, if_false]
      exact hh.1
    · have hidx : ¬ idx0 = idx := by
        rintro rfl
        have h1 := (hinv _ _).1 hh.1
        rw [(hinv _ _).1 hg0] at h1
        exact hne (Option.some.inj h1).symm
      show (match em.entities[idx0]? with
        | none => em.entities
        | some entity => em.entities.set idx0 { entity with destroyed := true })[idx]?
        = some ent
      cases em.entities[idx0]? with
      | none => exact hh.2
      | some x => simp [List.getElem?_set, hidx, hh.2]

theorem ecs_entity_manager_destroy_swept_keep (em : ecs_entity_manager) (e0 e idx : Nat)
    (hok : ecs_entity_manager_ok em) (h : ecs_entity_swept em e idx) :
    ecs_entity_swept (ecs_entity_manager_destroy em e0) e idx := by
  obtain ⟨hcap, hu1, hu2, hinv, hbnd, hnd, hfree⟩ := hok
  obtain ⟨h1, ⟨x, hx, hxd⟩, h3⟩ := h
  unfold ecs_entity_manager_destroy
  cases hg0 : ecs_map_get em.id_to_index e0 with
  | none => exact ⟨h1, ⟨x, hx, hxd⟩, h3⟩
  | some idx0 =>
    refine ⟨?_, ?_, ?_⟩
    · show ecs_map_get (ecs_map_unset em.id_to_index e0) e = none
      rw [ecs_map_get_unset _ _ _ hu1]
      split
      · rfl
      · exact h1
    · show ∃ ent, (match em.entities[idx0]? with
          | none => em.entities
          | some entity => em.entities.set idx0 { entity with destroyed := true })[idx]?
            = some ent ∧ ent.destroyed = true
      cases hx0 : em.entities[idx0]? with
      | none => exact ⟨x, hx, hxd⟩
      | some y =>
        by_cases hi : idx0 = idx
        · subst hi
          have hlt : idx0 < em.entities.length := by
            rcases List.getElem?_eq_some_iff.1 hx0 with ⟨hlt, _⟩; exact hlt
          exact ⟨{ y with destroyed := true }, by simp [List.getElem?_set, hlt], rfl⟩
        · exact ⟨x, by simp [List.getElem?_set, hi, hx], hxd⟩
    · show idx ∈ em.free_slots ++ [idx0]
      exact List.mem_append_left _ h3

theorem ecs_entity_manager_destroy_swept (em : ecs_entity_manager) (e0 idx0 : Nat)
    (hok : ecs_entity_manager_ok em) (hslots : ecs_entity_manager_slots_ok em)
    (hg0 : ecs_map_get em.id_to_index e0 = some idx0) :
    ecs_entity_swept (ecs_entity_manager_destroy em e0) e0 idx0 := by
  obtain ⟨hcap, hu1, hu2, hinv, hbnd, hnd, hfree⟩ := hok
  obtain ⟨x, hx, _, _⟩ := hslots.1 e0 idx0 hg0
  have hlt : idx0 < em.entities.length := by
    rcases List.getElem?_eq_some_iff.1 hx with ⟨hlt, _⟩; exact hlt
  unfold ecs_entity_manager_destroy
  rw [hg0]
  refine ⟨?_, ?_, ?_⟩
  · show ecs_map_get (ecs_map_unset em.id_to_index e0) e0 = none
    exact ecs_map_get_unset_self _ _ hu1
  · simp only [hx]
    exact ⟨{ x with destroyed := true }, by simp [List.getElem?_set, hlt], rfl⟩
  · show idx0 ∈ em.free_slots ++ [idx0]
    simp

theorem ecs_sweep_inv_step (em0 em : ecs_entity_manager) (k : Nat)
    (h : ecs_sweep_inv em0 em k) :
    ecs_sweep_inv em0 (ecs_update_entity_at em k) (k + 1) := by
  obtain ⟨hok, hslots, hU, hD⟩ := h
  have hU2 : ∀ e idx ent, ecs_entity_manager_get em0 e = some (idx, ent) →
      (ent.dead = false ∨ k + 1 ≤ idx) → ecs_entity_manager_get em e = some (idx, ent) := by
    intro e idx ent hg hc
    apply hU e idx ent hg
    rcases hc with hc | hc
    · exact Or.inl hc
    · exact Or.inr (by omega)
  -- the entity of slot `k` in `em0`, if dead, is still there in `em`
  have hslotk : ∀ e ent, ecs_entity_manager_get em0 e = some (k, ent) →
      ecs_map_get em.id_to_index e = some k ∧ em.entities[k]? = some ent ∧
        ent.destroyed = false := by
    intro e ent hg
    have h2 := (ecs_entity_manager_get_eq_some _ _ _ _).1 (hU e k ent hg (Or.inr (Nat.le_refl _)))
    obtain ⟨x, hx, _, hxd⟩ := hslots.1 e k h2.1
    rw [h2.2] at hx
    have h4 := Option.some.inj hx
    subst h4
    exact ⟨h2.1, h2.2, hxd⟩
  unfold ecs_update_entity_at
  cases hek : em.entities[k]? with
  | none =>
    refine ⟨hok, hslots, hU2, ?_⟩
    intro e idx ent hg hd hlt
    by_cases hik : idx < k
    · exact hD e idx ent hg hd hik
    · have hidx : idx = k := by omega
      subst hidx
      have h2 := (hslotk e ent hg).2.1
      rw [hek] at h2
      cases h2
  | some entk =>
    by_cases hc : entk.dead = true ∧ entk.destroyed = false
    · have hcond : (entk.dead && !entk.destroyed) = true := by simp [hc.1, hc.2]
      simp only [hcond, if_true]
      have hgk : ecs_map_get em.id_to_index entk.id = some k := hslots.2 k entk hek hc.2
      refine ⟨ecs_entity_manager_destroy_ok _ _ hok,
        ecs_entity_manager_destroy_slots_ok _ _ hok hslots, ?_, ?_⟩
      · intro e idx ent hg hc2
        have h1 := hU2 e idx ent hg hc2
        apply ecs_entity_manager_destroy_get_other em entk.id e idx ent hok h1
        intro hee
        subst hee
        have h2 := (ecs_entity_manager_get_eq_some _ _ _ _).1 h1
        rw [hgk] at h2
        have hik : k = idx := Option.some.inj h2.1
        subst hik
        rw [hek] at h2
        have h3 := Option.some.inj h2.2
        subst h3
        rcases hc2 with hc2 | hc2
        · rw [hc.1] at hc2; cases hc2
        · omega
      · intro e idx ent hg hd hlt
        by_cases hik : idx < k
        · exact ecs_entity_manager_destroy_swept_keep em entk.id e idx hok (hD e idx ent hg hd hik)
        · have hidx : idx = k := by omega
          subst hidx
          obtain ⟨h1, h2, _⟩ := hslotk e ent hg
          rw [hek] at h2
          have h3 := Option.some.inj h2
          subst h3
          have hid : entk.id = e := by
            have := hgk
            have h5 := (hok.2.2.2.1 _ _).1 this
            have h6 := (hok.2.2.2.1 _ _).1 h1
            rw [h5] at h6
            exact Option.some.inj h6
          rw [hid]
          exact ecs_entity_manager_destroy_swept em e idx hok hslots h1
    · have hcond : (entk.dead && !entk.destroyed) = false := by
        cases hd : entk.dead <;> cases hx : entk.destroyed <;> simp_all
      simp only [hcond]
      refine ⟨hok, hslots, hU2, ?_⟩
      intro e idx ent hg hd hlt
      by_cases hik : idx < k
      · exact hD e idx ent hg hd hik
      · have hidx : idx = k := by omega
        subst hidx
        obtain ⟨_, h2, hxd⟩ := hslotk e ent hg
        rw [hek] at h2
        have h3 := Option.some.inj h2
        subst h3
        exact absurd ⟨hd, hxd⟩ hc
theorem ecs_sweep_inv_range (em0 : ecs_entity_manager) (n : Nat)
    (hok : ecs_entity_manager_ok em0) (hslots : ecs_entity_manager_slots_ok em0) :
    ecs_sweep_inv em0 ((List.range n).foldl ecs_update_entity_at em0) n := by
  induction n with
  | zero =>
    refine ⟨hok, hslots, fun e idx ent hg _ => hg, ?_⟩
    intro e idx ent _ _ hlt
    omega
  | succ n ih =>
    rw [List.range_succ, List.foldl_append]
    exact ecs_sweep_inv_step em0 _ n ih

theorem ecs_update_entities_fold (xs : List Nat) (w : ecs_world) :
    (xs.foldl
      (fun w entity_index =>
        match w.entity_manager.entities[entity_index]? with
        | none => w
        | some entity =>
          if entity.dead && !entity.destroyed then ecs_world_entity_destroy w entity.id
          else w) w).entity_manager
      = xs.foldl ecs_update_entity_at w.entity_manager := by
  induction xs generalizing w with
  | nil => rfl
  | cons x xs ih =>
    rw [List.foldl_cons, List.foldl_cons, ih]
    congr 1
    unfold ecs_update_entity_at
    cases w.entity_manager.entities[x]? with
    | none => rfl
    | some entity =>
      dsimp only
      split <;> rfl

theorem ecs_update_entities_entity_manager (w : ecs_world) :
    (ecs_update_entities w).entity_manager
      = (List.range w.entity_manager.cap).foldl ecs_update_entity_at w.entity_manager :=
  ecs_update_entities_fold _ w

theorem ecs_sweep_inv_slots_ok {em0 em : ecs_entity_manager} {k : Nat}
    (h : ecs_sweep_inv em0 em k) : ecs_entity_manager_slots_ok em := h.2.1

theorem ecs_step_slots_ok {w w2 : ecs_world} (hs : ecs_step w w2)
    (hok : ecs_world_ok w) (h : ecs_entity_manager_slots_ok w.entity_manager) :
    ecs_entity_manager_slots_ok w2.entity_manager := by
  cases hs with
  | register size hid => exact h
  | unregister c => exact h
  | create hid => exact ecs_entity_manager_create_slots_ok _ hid hok.1 h
  | destroy e =>
    unfold ecs_entity_destroy_in
    split
    · exact h
    · rename_i idx ent hget
      have hh := (ecs_entity_manager_get_eq_some _ _ _ _).1 hget
      exact ecs_entity_manager_slots_ok_set _ idx ent _ h hh.2 rfl rfl
  | attach e c j =>
    unfold ecs_world_entity_component_attach
    split
    · exact h
    · rename_i idx ent hget
      have hh := (ecs_entity_manager_get_eq_some _ _ _ _).1 hget
      exact ecs_entity_manager_slots_ok_set _ idx ent _ h hh.2 rfl rfl
  | detach e c =>
    unfold ecs_world_entity_component_detach
    split
    · exact h
    · rename_i idx ent hget
      have hh := (ecs_entity_manager_get_eq_some _ _ _ _).1 hget
      exact ecs_entity_manager_slots_ok_set _ idx ent _ h hh.2 rfl rfl
  | write e c bytes =>
    unfold ecs_component_write
    split
    · exact h
    · split <;> exact h
  | query args => exact h
  | update =>
    rw [ecs_update_entities_entity_manager]
    exact ecs_sweep_inv_slots_ok (ecs_sweep_inv_range _ _ hok.1 h)

theorem ecs_reachable_slots_ok {w : ecs_world} (hr : ecs_reachable w) :
    ecs_entity_manager_slots_ok w.entity_manager := by
  induction hr with
  | zero =>
    constructor
    · intro e idx hg; simp [ecs_world_zero, ecs_map_get] at hg
    · intro idx ent hx; simp [ecs_world_zero] at hx
  | step hr0 hs ih => exact ecs_step_slots_ok hs (ecs_reachable_ok hr0) ih

/-- The entity sweep of `ecs_update` on a well-formed world: a resolvable
entity that is marked dead is swept, one that is not marked dead stays
resolvable at the same slot with the same record. -/
theorem ecs_update_entities_sweep (w : ecs_world) (hok : ecs_world_ok w)
    (hslots : ecs_entity_manager_slots_ok w.entity_manager) (e idx : Nat) (ent : ecs_entity)
    (hget : ecs_entity_manager_get w.entity_manager e = some (idx, ent)) :
    (ent.dead = true →
      ecs_entity_swept (ecs_update_entities w).entity_manager e idx) ∧
    (ent.dead = false →
      ecs_entity_manager_get (ecs_update_entities w).entity_manager e = some (idx, ent)) := by
  have hinv := ecs_sweep_inv_range w.entity_manager w.entity_manager.cap hok.1 hslots
  rw [← ecs_update_entities_entity_manager] at hinv
  obtain ⟨_, _, hU, hD⟩ := hinv
  have hh := (ecs_entity_manager_get_eq_some _ _ _ _).1 hget
  have hlt : idx < w.entity_manager.cap := (hok.1.2.2.2.2.1 _ _ hh.1).1
  exact ⟨fun hd => hD e idx ent hget hd hlt, fun hd => hU e idx ent hget (Or.inl hd)⟩
theorem ecs_step_id {w w2 : ecs_world} (hs : ecs_step w w2) : w2.id = w.id := by
  cases hs with
  | register size hid => rfl
  | unregister c => rfl
  | create hid => rfl
  | destroy e => unfold ecs_entity_destroy_in; split <;> rfl
  | attach e c j => unfold ecs_world_entity_component_attach; split <;> rfl
  | detach e c => unfold ecs_world_entity_component_detach; split <;> rfl
  | write e c bytes =>
    unfold ecs_component_write
    split
    · rfl
    · split <;> rfl
  | query args => rfl
  | update =>
    unfold ecs_update_entities
    generalize List.range w.entity_manager.cap = xs
    induction xs generalizing w with
    | nil => rfl
    | cons x xs ih =>
      rw [List.foldl_cons, ih]
      split
      · rfl
      · split <;> rfl

theorem ecs_update_worlds_id (i : ecs)
    (h0 : ecs_map_get i.world_manager.id_to_index 0 = none)
    (hid : ∀ w ∈ i.world_manager.worlds, w.id = 0) :
    ecs_update_worlds i = i := by
  unfold ecs_update_worlds
  generalize List.range i.world_manager.cap = xs
  induction xs with
  | nil => rfl
  | cons x xs ih =>
    rw [List.foldl_cons]
    have hstep : (match i.world_manager.worlds[x]? with
        | none => i
        | some world =>
          if world.dead && !world.destroyed then
            { i with world_manager := ecs_world_manager_destroy i.world_manager world.id }
          else i) = i := by
      cases hx : i.world_manager.worlds[x]? with
      | none => rfl
      | some world =>
        have hw : world.id = 0 := hid world (List.getElem?_mem hx)
        have hd : ecs_world_manager_destroy i.world_manager world.id = i.world_manager := by
          unfold ecs_world_manager_destroy
          rw [hw, h0]
        simp only [hd]
        split <;> rfl
    rw [hstep]
    exact ih

theorem ecs_instance_ok_put (i : ecs) (wp : Nat) (w2 : ecs_world)
    (h : ecs_instance_ok i)
    (h2 : w2.id = 0 ∧ ecs_world_ok w2 ∧ ecs_entity_manager_slots_ok w2.entity_manager) :
    ecs_instance_ok (ecs_world_put i wp w2) := by
  obtain ⟨hcap, h0, hw⟩ := h
  refine ⟨by simpa [ecs_world_put] using hcap, h0, ?_⟩
  intro w hmem
  rcases List.mem_or_eq_of_mem_set hmem with hmem | rfl
  · exact hw w hmem
  · exact h2

theorem ecs_world_manager_get_mem (wm : ecs_world_manager) (wid wp : Nat) (w : ecs_world)
    (h : ecs_world_manager_get wm wid = some (wp, w)) :
    wm.worlds[wp]? = some w := by
  unfold ecs_world_manager_get at h
  cases hg : ecs_map_get wm.id_to_index wid with
  | none => rw [hg] at h; cases h
  | some i =>
    rw [hg] at h
    unfold ecs_world_manager_get_at at h
    by_cases hi : i ≥ wm.cap
    · simp only [hi, if_true] at h; cases h
    · simp only [hi, if_false] at h
      cases hw : wm.worlds[i]? with
      | none => rw [hw] at h; cases h
      | some x =>
        rw [hw] at h
        simp only [Option.some.injEq, Prod.mk.injEq] at h
        obtain ⟨rfl, rfl⟩ := h
        exact hw

theorem ecs_update_eq (i : ecs) (wp : Nat) (w : ecs_world) (h : ecs_instance_ok i)
    (hcur : ecs_world_manager_get i.world_manager i.current_world_id = some (wp, w)) :
    ecs_update i = ecs_world_put i wp (ecs_update_entities w) := by
  have hmem := List.getElem?_mem (ecs_world_manager_get_mem _ _ _ _ hcur)
  obtain ⟨hwid, hwok, hwslots⟩ := h.2.2 w hmem
  have h2 := ecs_instance_ok_put i wp (ecs_update_entities w) h
    ⟨by rw [ecs_step_id (ecs_step.update w)]; exact hwid,
      ecs_update_entities_ok w hwok,
      ecs_step_slots_ok (ecs_step.update w) hwok hwslots⟩
  unfold ecs_update
  rw [hcur]
  exact ecs_update_worlds_id _ h2.2.1 (fun x hx => (h2.2.2 x hx).1)

theorem ecs_instance_step_ok {i i2 : ecs} (hs : ecs_instance_step i i2)
    (h : ecs_instance_ok i) : ecs_instance_ok i2 := by
  cases hs with
  | world_create hid =>
    obtain ⟨hcap, h0, hw⟩ := h
    have hmod : (i.world_manager.current_id + 1) % 2 ^ 64 = i.world_manager.current_id + 1 :=
      Nat.mod_eq_of_lt hid
    refine ⟨?_, ?_, ?_⟩
    · simp [ecs_world_create, hcap]
    · show ecs_map_get (ecs_map_set i.world_manager.id_to_index _ _) 0 = none
      rw [ecs_map_get_set, hmod]
      simp [h0]
    · intro w hmem
      simp only [ecs_world_create, da_push, List.mem_append, List.mem_singleton] at hmem
      rcases hmem with hmem | rfl
      · exact hw w hmem
      · exact ⟨rfl, ecs_world_zero_ok, ecs_reachable_slots_ok .zero⟩
  | world_destroy world_id =>
    unfold ecs_world_destroy
    split
    · exact h
    · split
      · exact h
      · rename_i world hx
        exact ecs_instance_ok_put i _ _ h (h.2.2 world (List.getElem?_mem hx))
  | world_current_set world_id => exact h
  | world wp w w2 hcur hs =>
    have hmem := List.getElem?_mem (ecs_world_manager_get_mem _ _ _ _ hcur)
    obtain ⟨hwid, hwok, hwslots⟩ := h.2.2 w hmem
    exact ecs_instance_ok_put i wp w2 h
      ⟨by rw [ecs_step_id hs]; exact hwid, ecs_step_ok hs hwok, ecs_step_slots_ok hs hwok hwslots⟩
  | update =>
    cases hcur : ecs_world_manager_get i.world_manager i.current_world_id with
    | none =>
      have : ecs_update i = i := by unfold ecs_update; rw [hcur]
      rw [this]; exact h
    | some p =>
      obtain ⟨wp, w⟩ := p
      rw [ecs_update_eq i wp w h hcur]
      have hmem := List.getElem?_mem (ecs_world_manager_get_mem _ _ _ _ hcur)
      obtain ⟨hwid, hwok, hwslots⟩ := h.2.2 w hmem
      exact ecs_instance_ok_put i wp _ h
        ⟨by rw [ecs_step_id (ecs_step.update w)]; exact hwid,
          ecs_update_entities_ok w hwok,
          ecs_step_slots_ok (ecs_step.update w) hwok hwslots⟩

theorem ecs_instance_reachable_ok {i : ecs} (hr : ecs_instance_reachable i) :
    ecs_instance_ok i := by
  induction hr with
  | zero =>
    refine ⟨rfl, rfl, ?_⟩
    intro w hw
    simp [ecs_instance_zero] at hw
  | step _ hs ih => exact ecs_instance_step_ok hs ih

/-- Claim C13: in every instance reachable through the public interface whose
current world resolves, after `ecs_update` the current world resolves at the
same slot and, in its entity table, every entity that was marked dead and not
destroyed is swept (its id is absent from `id_to_index`, its record is flagged
destroyed, its slot index is on the free list), while every entity that was
not marked dead resolves at the same slot with the same record (same mask). -/
theorem ecs_update_sweeps_dead (i : ecs) (wp : Nat) (w : ecs_world)
    (hr : ecs_instance_reachable i)
    (hcur : ecs_world_manager_get i.world_manager i.current_world_id = some (wp, w)) :
    ∃ w2 : ecs_world,
      ecs_world_manager_get (ecs_update i).world_manager (ecs_update i).current_world_id
        = some (wp, w2) ∧
      (∀ (idx : Nat) (ent : ecs_entity), w.entity_manager.entities[idx]? = some ent →
        ent.dead = true → ent.destroyed = false →
        ecs_entity_swept w2.entity_manager ent.id idx) ∧
      (∀ (e idx : Nat) (ent : ecs_entity),
        ecs_entity_manager_get w.entity_manager e = some (idx, ent) → ent.dead = false →
        ecs_entity_manager_get w2.entity_manager e = some (idx, ent)) := by
  have hok := ecs_instance_reachable_ok hr
  have hmem := List.getElem?_mem (ecs_world_manager_get_mem _ _ _ _ hcur)
  obtain ⟨_, hwok, hwslots⟩ := hok.2.2 w hmem
  refine ⟨ecs_update_entities w, ?_, ?_, ?_⟩
  · rw [ecs_update_eq i wp w hok hcur]
    exact ecs_world_manager_get_put i _ wp w _ hcur
  · intro idx ent hent hd hx
    have hg := hwslots.2 idx ent hent hx
    have hget : ecs_entity_manager_get w.entity_manager ent.id = some (idx, ent) :=
      (ecs_entity_manager_get_eq_some _ _ _ _).2 ⟨hg, hent⟩
    exact (ecs_update_entities_sweep w hwok hwslots ent.id idx ent hget).1 hd
  · intro e idx ent hget hd
    exact (ecs_update_entities_sweep w hwok hwslots e idx ent hget).2 hd
theorem ecs_scenario_instance_dead_reachable :
    ecs_instance_reachable ecs_scenario_instance_dead := by
  have h1 := ecs_instance_reachable.zero.step (.world_create _ (by decide))
  have h2 := h1.step (.world _ 0 ecs_world_zero _ (by decide) (.create _ (by decide)))
  have h3 := h2.step (.world _ 0 (ecs_world_entity_create ecs_world_zero).2 _ (by decide)
    (.create _ (by decide)))
  have h4 := h3.step (.world _ 0
    (ecs_world_entity_create (ecs_world_entity_create ecs_world_zero).2).2 _ (by decide)
    (.destroy _ 1))
  have he : ecs_world_put
      (ecs_world_put
        (ecs_world_put (ecs_world_create ecs_instance_zero).2 0
          (ecs_world_entity_create ecs_world_zero).2) 0
        (ecs_world_entity_create (ecs_world_entity_create ecs_world_zero).2).2) 0
      (ecs_entity_destroy_in
        (ecs_world_entity_create (ecs_world_entity_create ecs_world_zero).2).2 1)
      = ecs_scenario_instance_dead := by decide
  rw [← he]
  exact h4

/-- Witness of C13: in the instance with one world and two entities of which
entity 1 was marked dead, `ecs_update` sweeps entity 1 (slot 0 goes on the
free list) and keeps entity 2 at slot 1. -/
theorem ecs_update_sweeps_dead_witness :
    ecs_instance_reachable ecs_scenario_instance_dead ∧
    ecs_world_manager_get ecs_scenario_instance_dead.world_manager
      ecs_scenario_instance_dead.current_world_id
      = some (0, ecs_scenario_dead) ∧
    ecs_world_manager_get (ecs_update ecs_scenario_instance_dead).world_manager
      (ecs_update ecs_scenario_instance_dead).current_world_id
      = some (0, ecs_update_entities ecs_scenario_dead) ∧
    (ecs_update_entities ecs_scenario_dead).entity_manager.free_slots = [0] ∧
    ecs_entity_manager_get (ecs_update_entities ecs_scenario_dead).entity_manager 1 = none ∧
    ∃ w2 : ecs_world,
      ecs_world_manager_get (ecs_update ecs_scenario_instance_dead).world_manager
        (ecs_update ecs_scenario_instance_dead).current_world_id = some (0, w2) ∧
      (∀ (idx : Nat) (ent : ecs_entity),
        ecs_scenario_dead.entity_manager.entities[idx]? = some ent →
        ent.dead = true → ent.destroyed = false →
        ecs_entity_swept w2.entity_manager ent.id idx) ∧
      (∀ (e idx : Nat) (ent : ecs_entity),
        ecs_entity_manager_get ecs_scenario_dead.entity_manager e = some (idx, ent) →
        ent.dead = false →
        ecs_entity_manager_get w2.entity_manager e = some (idx, ent)) :=
  ⟨ecs_scenario_instance_dead_reachable, by decide, by decide, by decide, by decide,
    ecs_update_sweeps_dead ecs_scenario_instance_dead 0 ecs_scenario_dead
      ecs_scenario_instance_dead_reachable (by decide)⟩
/-! ## The two maps of a store stay inverse to each other -/

theorem ecs_component_list_add_inverse (l : ecs_component_list) (e : Nat)
    (j : Nat → Nat) (h : ecs_component_list_inverse l) :
    ecs_component_list_inverse (ecs_component_list_add l e none (some j)) := by
  obtain ⟨hu1, hu2, hinv, hbnd⟩ := h
  rw [ecs_component_list_add_some]
  cases hg : ecs_map_get l.entity_to_index e with
  | some x => exact ⟨hu1, hu2, hinv, hbnd⟩
  | none =>
    have hfresh : ∀ x, ecs_map_get l.index_to_entity l.count ≠ some x := by
      intro x hx
      have := hbnd _ _ ((hinv _ _).2 hx)
      omega
    refine ⟨ecs_map_unique_set _ _ _ hu1, ecs_map_unique_set _ _ _ hu2, ?_, ?_⟩
    · intro e2 i
      show ecs_map_get (ecs_map_set l.entity_to_index e l.count) e2 = some i ↔
        ecs_map_get (ecs_map_set l.index_to_entity l.count e) i = some e2
      simp only [ecs_map_get_set]
      by_cases he : e2 = e
      · by_cases hi : i = l.count
        · simp [he, hi]
        · have h1 : ¬ l.count = i := fun h => hi h.symm
          have h2 : ecs_map_get l.index_to_entity i ≠ some e := by
            intro hx
            rw [(hinv _ _).2 hx] at hg
            cases hg
          simp [he, hi, h1, h2]
      · by_cases hi : i = l.count
        · have h1 : ecs_map_get l.entity_to_index e2 ≠ some l.count :=
            fun hx => hfresh e2 ((hinv _ _).1 hx)
          have h2 : ¬ e = e2 := fun h => he h.symm
          simp [he, hi, h1, h2]
        · simp [he, hi, hinv]
    · intro e2 i hg2
      show i < l.count + 1
      have hg3 : ecs_map_get (ecs_map_set l.entity_to_index e l.count) e2 = some i := hg2
      simp only [ecs_map_get_set] at hg3
      by_cases he : e2 = e
      · simp only [he, if_true, Option.some.injEq] at hg3
        omega
      · simp only [he, if_false] at hg3
        exact Nat.lt_succ_of_lt (hbnd _ _ hg3)

theorem ecs_component_list_remove_inverse (l : ecs_component_list) (e : Nat)
    (h : ecs_component_list_inverse l) :
    ecs_component_list_inverse (ecs_component_list_remove l e) := by
  have h0 := h
  obtain ⟨hu1, hu2, hinv, hbnd⟩ := h
  have hc : ∀ (a b : Option Nat),
      ecs_component_list_inverse (match a, b with
        | some src, some dst =>
          ({ l with data := ecs_mem_copy l.data src dst l.unit_size } : ecs_component_list)
        | _, _ => l) := by
    intro a b
    cases a <;> cases b <;> exact h0
  have hcount : ∀ (a b : Option Nat),
      (match a, b with
        | some src, some dst =>
          ({ l with data := ecs_mem_copy l.data src dst l.unit_size } : ecs_component_list)
        | _, _ => l).count = l.count := by
    intro a b
    cases a <;> cases b <;> rfl
  unfold ecs_component_list_remove
  split
  · exact h0
  · cases hg : ecs_map_get l.entity_to_index e with
    | none => exact h0
    | some index =>
      dsimp only
      cases hgl : ecs_map_get l.index_to_entity (l.count - 1) with
      | none => exact hc _ _
      | some last_entity =>
        have hL : ecs_map_get l.entity_to_index last_entity = some (l.count - 1) :=
          (hinv _ _).2 hgl
        have hE : ecs_map_get l.index_to_entity index = some e := (hinv _ _).1 hg
        have hu1s := ecs_map_unique_set l.entity_to_index last_entity index hu1
        have hu2s := ecs_map_unique_set l.index_to_entity index last_entity hu2
        refine ⟨ecs_map_unique_unset _ _ hu1s, ecs_map_unique_unset _ _ hu2s, ?_, ?_⟩
        · intro e2 i
          show ecs_map_get (ecs_map_unset (ecs_map_set l.entity_to_index last_entity index) e)
              e2 = some i ↔
            ecs_map_get (ecs_map_unset (ecs_map_set l.index_to_entity index last_entity)
              (l.count - 1)) i = some e2
          rw [ecs_map_get_unset _ _ _ hu1s, ecs_map_get_unset _ _ _ hu2s,
            ecs_map_get_set, ecs_map_get_set]
          have key1 : ∀ x, ecs_map_get l.entity_to_index x = some index → x = e := by
            intro x hx
            have := (hinv _ _).1 hx
            rw [hE] at this
            exact (Option.some.inj this).symm
          have key2 : ∀ x, ecs_map_get l.entity_to_index x = some (l.count - 1) →
              x = last_entity := by
            intro x hx
            have := (hinv _ _).1 hx
            rw [hgl] at this
            exact (Option.some.inj this).symm
          have key3 : ∀ y, ecs_map_get l.entity_to_index e = some y → y = index := by
            intro y hy
            rw [hg] at hy
            exact (Option.some.inj hy).symm
          have key4 : ∀ y, ecs_map_get l.entity_to_index last_entity = some y →
              y = l.count - 1 := by
            intro y hy
            rw [hL] at hy
            exact (Option.some.inj hy).symm
          by_cases he : e2 = e
          · subst he
            by_cases hi : i = l.count - 1
            · simp [hi]
            · by_cases hi2 : i = index
              · subst hi2
                simp only [if_true, hi, if_false, Option.some.injEq]
                constructor
                · intro hx; cases hx
                · intro hx
                  subst hx
                  exact absurd (key4 _ hg) hi
              · simp only [if_true, hi, hi2, if_false]
                constructor
                · intro hx; cases hx
                · intro hx
                  exact absurd (key3 _ ((hinv _ _).2 hx)) hi2
          · by_cases hl : e2 = last_entity
            · subst hl
              simp only [he, if_false, if_true, Option.some.injEq]
              by_cases hi : i = l.count - 1
              · subst hi
                simp only [if_true]
                constructor
                · intro hx
                  exact absurd (key1 _ (hx ▸ hL)) he
                · intro hx; cases hx
              · by_cases hi2 : i = index
                · have hi3 : ¬ index = l.count - 1 := hi2 ▸ hi
                  simp [hi2, hi3]
                · simp only [hi, hi2, if_false]
                  constructor
                  · intro hx; exact absurd hx.symm hi2
                  · intro hx
                    exact absurd (key4 _ ((hinv _ _).2 hx)) hi
            · simp only [he, hl, if_false]
              by_cases hi : i = l.count - 1
              · subst hi
                simp only [if_true]
                constructor
                · intro hx; exact absurd (key2 _ hx) hl
                · intro hx; cases hx
              · by_cases hi2 : i = index
                · subst hi2
                  simp only [hi, if_false, if_true, Option.some.injEq]
                  constructor
                  · intro hx; exact absurd (key1 _ hx) he
                  · intro hx; exact absurd hx.symm hl
                · simp only [hi, hi2, if_false]
                  exact hinv _ _
        · intro e2 i hg2
          simp only [hcount]
          have hg3 : ecs_map_get
              (ecs_map_unset (ecs_map_set l.entity_to_index last_entity index) e) e2
              = some i := hg2
          rw [ecs_map_get_unset _ _ _ hu1s, ecs_map_get_set] at hg3
          by_cases he : e2 = e
          · simp [he] at hg3
          · simp only [he, if_false] at hg3
            by_cases hl : e2 = last_entity
            · simp only [hl, if_true, Option.some.injEq] at hg3
              rw [← hg3]
              exact hbnd _ _ hg
            · simp only [hl, if_false] at hg3
              exact hbnd _ _ hg3

/-- In every store reachable by add and remove the two maps are inverse to
each other and record only slot indices below `count`. -/
theorem ecs_component_list_reachable_inverse {l : ecs_component_list}
    (hr : ecs_component_list_reachable l) : ecs_component_list_inverse l := by
  induction hr with
  | empty id unit_size =>
    refine ⟨List.nodup_nil, List.nodup_nil, ?_, ?_⟩
    · intro e i; simp [ecs_map_get]
    · intro e i h; simp [ecs_map_get] at h
  | add e j _ ih => exact ecs_component_list_add_inverse _ e j ih
  | remove e _ ih => exact ecs_component_list_remove_inverse _ e ih

/-! ## The map refines a finite partial map -/

/-- Claim C21: under key uniqueness the map refines a finite partial map. With
`ecs_map_abs m` the function sending `k` to `ecs_map_get m k`, `ecs_map_set`
yields the abstraction updated at the key (value `v` there, unchanged at every
other key) and `ecs_map_unset` yields the abstraction with the key absent and
unchanged at every other key. -/
theorem ecs_map_refines (m : ecs_map) (k v : Nat) (h : ecs_map_unique m) :
    ecs_map_abs (ecs_map_set m k v) = ecs_partial_map_set (ecs_map_abs m) k v ∧
    ecs_map_abs (ecs_map_unset m k) = ecs_partial_map_unset (ecs_map_abs m) k := by
  constructor
  · funext k2
    exact ecs_map_get_set m k v k2
  · funext k2
    exact ecs_map_get_unset m k k2 h

/-- Witness of C21: the map with a tombstoned first slot and the live key 2;
setting key 2 updates in place, setting key 3 fills the tombstoned slot. -/
theorem ecs_map_refines_witness :
    ecs_map_unique ecs_scenario_map ∧
    ecs_map_get (ecs_map_set ecs_scenario_map 2 7) 2 = some 7 ∧
    ecs_map_get (ecs_map_set ecs_scenario_map 3 30) 2 = some 20 ∧
    ecs_map_get (ecs_map_unset ecs_scenario_map 2) 2 = none ∧
    (ecs_map_abs (ecs_map_set ecs_scenario_map 3 30)
        = ecs_partial_map_set (ecs_map_abs ecs_scenario_map) 3 30 ∧
      ecs_map_abs (ecs_map_unset ecs_scenario_map 3)
        = ecs_partial_map_unset (ecs_map_abs ecs_scenario_map) 3) :=
  ⟨by unfold ecs_map_unique; decide, by decide, by decide, by decide,
    ecs_map_refines ecs_scenario_map 3 30 (by unfold ecs_map_unique; decide)⟩

/-- Without key uniqueness the unset half fails: in a map with two live
entries of key 5, unsetting 5 uncovers the second entry. -/
theorem ecs_map_unset_needs_unique :
    ecs_map_get (ecs_map_unset ecs_scenario_map_dup 5) 5 = some 2 := by decide

/-! ## The public query -/

/-- Claim C22: `ecs_query` returns null and leaves the whole instance (hence
every world's query-result buffer) unchanged when the current world id does
not resolve or the resolved world is marked dead; otherwise it returns the
pointer to the current world's result buffer, which `ecs_world_query` has
rewritten, and no other world is touched. -/
theorem ecs_query_spec (inst : ecs) (args : List Nat) :
    (ecs_world_manager_get inst.world_manager inst.current_world_id = none →
      ecs_query inst args = (none, inst)) ∧
    (∀ (wp : Nat) (w : ecs_world),
      ecs_world_manager_get inst.world_manager inst.current_world_id = some (wp, w) →
      w.dead = true → ecs_query inst args = (none, inst)) ∧
    (∀ (wp : Nat) (w : ecs_world),
      ecs_world_manager_get inst.world_manager inst.current_world_id = some (wp, w) →
      w.dead = false →
      ecs_query inst args = (some wp, ecs_world_put inst wp (ecs_world_query w args)) ∧
      ecs_world_manager_get (ecs_query inst args).2.world_manager
        (ecs_query inst args).2.current_world_id = some (wp, ecs_world_query w args) ∧
      ∀ j, j ≠ wp →
        (ecs_query inst args).2.world_manager.worlds[j]? = inst.world_manager.worlds[j]?) := by
  refine ⟨?_, ?_, ?_⟩
  · intro h
    unfold ecs_query; rw [h]
  · intro wp w h hd
    unfold ecs_query; rw [h]
    simp [hd]
  · intro wp w h hd
    have hq : ecs_query inst args
        = (some wp, ecs_world_put inst wp (ecs_world_query w args)) := by
      unfold ecs_query; rw [h]
      simp [hd]
    refine ⟨hq, ?_, ?_⟩
    · rw [hq]
      exact ecs_world_manager_get_put inst _ wp w _ h
    · intro j hj
      rw [hq]
      have hne : ¬ wp = j := fun h => hj h.symm
      simp [ecs_world_put, List.getElem?_set, hne]

/-- Witness of C22: the instance whose only world is marked dead (null, nothing
changed), the zero instance (no current world), and the instance with a live
world and two entities (pointer to world slot 0, `count` 2). -/
theorem ecs_query_spec_witness :
    ecs_query ecs_instance_zero [] = (none, ecs_instance_zero) ∧
    ecs_query ecs_scenario_dead_world [1] = (none, ecs_scenario_dead_world) ∧
    (ecs_query ecs_scenario_instance []).1 = some 0 ∧
    ((ecs_query ecs_scenario_instance []).2.world_manager.worlds.map
      (fun w => w.query_result.count)) = [2] :=
  ⟨(ecs_query_spec ecs_instance_zero []).1 (by decide),
    (ecs_query_spec ecs_scenario_dead_world [1]).2.1 0
      { ecs_world_zero with dead := true } (by decide) (by decide),
    by rw [((ecs_query_spec ecs_scenario_instance []).2.2 0
      (ecs_world_entity_create (ecs_world_entity_create ecs_world_zero).2).2
      (by decide) (by decide)).1],
    by decide⟩
/-! ## Detach and the other mask bits -/

theorem ecs_scenario_bits_reachable : ecs_reachable ecs_scenario_bits := by
  have h1 := ecs_scenario_wide_reachable.step (.attach _ 1 32 ecs_junk)
  exact h1.step (.attach _ 1 1 ecs_junk)

/-- Claim C23, evaluated at a failing input: in the reachable world with 33
component types where the live entity 1 has components 1, 32 and 33,
`ecs_world_entity_component_detach(world, 1, 32)` also clears component 33
(`has(1, 33)` goes from 1 to 0), and
`ecs_world_entity_component_detach(world, 1, 33)` clears component 1
(`has(1, 1)` goes from 1 to 0) while leaving component 33 set. -/
theorem ecs_detach_clears_other_bits :
    ecs_reachable ecs_scenario_bits ∧
    ecs_entity_live ecs_scenario_bits 1 = true ∧
    ecs_world_entity_component_has ecs_scenario_bits 1 1 = 1 ∧
    ecs_world_entity_component_has ecs_scenario_bits 1 32 = 1 ∧
    ecs_world_entity_component_has ecs_scenario_bits 1 33 = 1 ∧
    ecs_world_entity_component_has
      (ecs_world_entity_component_detach ecs_scenario_bits 1 32) 1 33 = 0 ∧
    ecs_world_entity_component_has
      (ecs_world_entity_component_detach ecs_scenario_bits 1 33) 1 1 = 0 ∧
    ecs_world_entity_component_has
      (ecs_world_entity_component_detach ecs_scenario_bits 1 33) 1 33 = 1 :=
  ⟨ecs_scenario_bits_reachable, by decide, by decide, by decide, by decide, by decide,
    by decide, by decide⟩

/-! ## Store accesses stay in bounds -/

theorem ecs_component_list_reachable_sized {l : ecs_component_list}
    (hr : ecs_component_list_reachable l) : ecs_component_list_sized l := by
  induction hr with
  | empty id unit_size => exact ⟨Nat.le_refl _, by simp⟩
  | add e j _ ih => exact ecs_component_list_add_sized _ e j ih
  | remove e _ ih => exact ecs_component_list_remove_sized _ e ih

theorem ecs_component_list_add_count (l : ecs_component_list) (e : Nat) (j : Nat → Nat)
    (hnew : ecs_map_get l.entity_to_index e = none) :
    (ecs_component_list_add l e none (some j)).count = l.count + 1 ∧
    (ecs_component_list_add l e none (some j)).unit_size = l.unit_size := by
  rw [ecs_component_list_add_some]
  rw [hnew]
  exact ⟨rfl, rfl⟩

/-- Claim C24: in every store reachable from the empty store by
`ecs_component_list_add` and `ecs_component_list_remove`, `count` does not
exceed `cap`, the buffer holds `cap * unit_size` bytes, every slot index
recorded in `entity_to_index` is below `count`, so `ecs_component_list_get`
returns a pointer to an instance that lies inside the buffer, and the slot
`count` that a following add writes lies below the capacity after growth, its
bytes inside the buffer. -/
theorem ecs_component_list_in_bounds (l : ecs_component_list)
    (hr : ecs_component_list_reachable l) :
    l.count ≤ l.cap ∧ l.data.length = l.cap * l.unit_size ∧
    (∀ e i, ecs_map_get l.entity_to_index e = some i →
      i < l.count ∧ ecs_component_list_get l e = some (i * l.unit_size) ∧
      i * l.unit_size + l.unit_size ≤ l.data.length) ∧
    (∀ (e : Nat) (junk : Nat → Nat), ecs_map_get l.entity_to_index e = none →
      l.count < (ecs_component_list_add l e none (some junk)).cap ∧
      l.count * l.unit_size + l.unit_size
        ≤ (ecs_component_list_add l e none (some junk)).data.length) := by
  obtain ⟨hc, hd⟩ := ecs_component_list_reachable_sized hr
  obtain ⟨_, _, _, hbnd⟩ := ecs_component_list_reachable_inverse hr
  refine ⟨hc, hd, ?_, ?_⟩
  · intro e i hg
    have hi := hbnd e i hg
    refine ⟨hi, ?_, ?_⟩
    · unfold ecs_component_list_get
      rw [hg]
      unfold ecs_component_list_get_at
      have : ¬ i ≥ l.count := by omega
      simp [this]
    · rw [hd]
      calc i * l.unit_size + l.unit_size = (i + 1) * l.unit_size := by ring
        _ ≤ l.cap * l.unit_size := Nat.mul_le_mul_right _ (by omega)
  · intro e junk hnew
    obtain ⟨hc2, hd2⟩ := ecs_component_list_add_sized l e junk ⟨hc, hd⟩
    obtain ⟨hcount, hunit⟩ := ecs_component_list_add_count l e junk hnew
    rw [hcount] at hc2
    rw [hunit] at hd2
    refine ⟨by omega, ?_⟩
    rw [hd2]
    calc l.count * l.unit_size + l.unit_size = (l.count + 1) * l.unit_size := by ring
      _ ≤ (ecs_component_list_add l e none (some junk)).cap * l.unit_size :=
        Nat.mul_le_mul_right _ hc2

/-- Witness of C24: the store after add of entity 1 and remove of entity 1
(stale `count` 1, `cap` 1); a following add of entity 2 writes slot 1 below
the grown capacity 3. -/
theorem ecs_component_list_in_bounds_witness :
    ecs_component_list_reachable (ecs_component_list_remove ecs_scenario_store 1) ∧
    (ecs_component_list_add (ecs_component_list_remove ecs_scenario_store 1) 2 none
      (some ecs_junk)).cap = 3 ∧
    ((ecs_component_list_remove ecs_scenario_store 1).count
      ≤ (ecs_component_list_remove ecs_scenario_store 1).cap ∧
    (ecs_component_list_remove ecs_scenario_store 1).data.length
      = (ecs_component_list_remove ecs_scenario_store 1).cap
        * (ecs_component_list_remove ecs_scenario_store 1).unit_size ∧
    (∀ e i,
      ecs_map_get (ecs_component_list_remove ecs_scenario_store 1).entity_to_index e
        = some i →
      i < (ecs_component_list_remove ecs_scenario_store 1).count ∧
      ecs_component_list_get (ecs_component_list_remove ecs_scenario_store 1) e
        = some (i * (ecs_component_list_remove ecs_scenario_store 1).unit_size) ∧
      i * (ecs_component_list_remove ecs_scenario_store 1).unit_size
        + (ecs_component_list_remove ecs_scenario_store 1).unit_size
        ≤ (ecs_component_list_remove ecs_scenario_store 1).data.length) ∧
    (∀ (e : Nat) (junk : Nat → Nat),
      ecs_map_get (ecs_component_list_remove ecs_scenario_store 1).entity_to_index e
        = none →
      (ecs_component_list_remove ecs_scenario_store 1).count
        < (ecs_component_list_add (ecs_component_list_remove ecs_scenario_store 1) e none
            (some junk)).cap ∧
      (ecs_component_list_remove ecs_scenario_store 1).count
          * (ecs_component_list_remove ecs_scenario_store 1).unit_size
        + (ecs_component_list_remove ecs_scenario_store 1).unit_size
        ≤ (ecs_component_list_add (ecs_component_list_remove ecs_scenario_store 1) e none
            (some junk)).data.length)) :=
  ⟨.remove 1 (.add 1 ecs_junk (.empty 1 1)), by decide,
    ecs_component_list_in_bounds _ (.remove 1 (.add 1 ecs_junk (.empty 1 1)))⟩
/-- The part of C23 about other entities holds: in a reachable world a detach
on entity `e` leaves `ecs_world_entity_component_has` of every other entity
unchanged, for every component id. -/
theorem ecs_detach_other_entity (w : ecs_world) (hr : ecs_reachable w)
    (e e2 c c2 : Nat) (hne : e2 ≠ e) :
    ecs_world_entity_component_has (ecs_world_entity_component_detach w e c) e2 c2
      = ecs_world_entity_component_has w e2 c2 := by
  obtain ⟨_, _, _, hinv, _, _, _⟩ := (ecs_reachable_ok hr).1
  have hget : ecs_entity_manager_get
      (ecs_world_entity_component_detach w e c).entity_manager e2
      = ecs_entity_manager_get w.entity_manager e2 := by
    unfold ecs_world_entity_component_detach
    cases hge : ecs_entity_manager_get w.entity_manager e with
    | none => rfl
    | some p =>
      obtain ⟨idx, ent⟩ := p
      have hh := (ecs_entity_manager_get_eq_some _ _ _ _).1 hge
      dsimp only
      unfold ecs_entity_manager_get
      cases hg2 : ecs_map_get w.entity_manager.id_to_index e2 with
      | none => rfl
      | some i2 =>
        have hi : ¬ idx = i2 := by
          rintro rfl
          have h1 := (hinv _ _).1 hh.1
          rw [(hinv _ _).1 hg2] at h1
          exact hne (Option.some.inj h1)
        unfold ecs_entity_manager_get_at
        simp only [List.length_set]
        by_cases hlt : i2 < w.entity_manager.entities.length
        · simp only [hlt, dite_true, List.getElem_set_ne hi]
        · simp only [hlt, dite_false]
  unfold ecs_world_entity_component_has
  rw [hget]
/-! ## Well-formedness of the reachable entity tables -/

theorem ecs_entity_manager_create_free_complete (em : ecs_entity_manager)
    (hok : ecs_entity_manager_ok em) (h : ecs_entity_manager_free_complete em) :
    ecs_entity_manager_free_complete (ecs_entity_manager_create em).2 := by
  obtain ⟨hcap, hu1, hu2, hinv, hbnd, hnd, hfree⟩ := hok
  unfold ecs_entity_manager_create
  by_cases hlen : da_len em.free_slots > 0
  · simp only [hlen, if_true]
    have hne : em.free_slots ≠ [] := by
      intro h0; rw [h0] at hlen; simp at hlen
    have hlast : em.free_slots.getD (da_len em.free_slots - 1) 0
        = em.free_slots.getLast hne := by
      rw [List.getLast_eq_getElem, List.getD_eq_getElem?_getD,
        List.getElem?_eq_getElem (by simp [da_len]; exact List.length_pos.2 hne)]
      rfl
    rw [hlast]
    generalize hidx : em.free_slots.getLast hne = idx
    have hsplit : em.free_slots = em.free_slots.dropLast ++ [idx] := by
      rw [← hidx]; exact (List.dropLast_append_getLast hne).symm
    intro f hf hg
    have hg2 : ecs_map_get (ecs_map_set em.index_to_id idx ((em.current_id + 1) % 2 ^ 64)) f
        = none := hg
    rw [ecs_map_get_set] at hg2
    by_cases hfi : f = idx
    · simp [hfi] at hg2
    · simp only [hfi, if_false] at hg2
      have hmem := h f hf hg2
      rw [hsplit] at hmem
      rcases List.mem_append.1 hmem with hm | hm
      · exact hm
      · exact absurd (List.mem_singleton.1 hm) hfi
  · simp only [hlen, if_false]
    intro f hf hg
    have hg2 : ecs_map_get
        (ecs_map_set em.index_to_id (da_len em.entities) ((em.current_id + 1) % 2 ^ 64)) f
        = none := hg
    have hf2 : f < em.cap + 1 := hf
    rw [ecs_map_get_set] at hg2
    by_cases hfi : f = da_len em.entities
    · simp [hfi] at hg2
    · simp only [hfi, if_false] at hg2
      have hne : f ≠ em.entities.length := hfi
      exact h f (by omega) hg2

theorem ecs_entity_manager_destroy_free_complete (em : ecs_entity_manager) (e0 : Nat)
    (hok : ecs_entity_manager_ok em) (h : ecs_entity_manager_free_complete em) :
    ecs_entity_manager_free_complete (ecs_entity_manager_destroy em e0) := by
  obtain ⟨hcap, hu1, hu2, hinv, hbnd, hnd, hfree⟩ := hok
  unfold ecs_entity_manager_destroy
  cases hg0 : ecs_map_get em.id_to_index e0 with
  | none => exact h
  | some idx0 =>
    intro f hf hg
    have hf2 : f < em.cap := hf
    have hg2 : ecs_map_get (ecs_map_unset em.index_to_id idx0) f = none := hg
    show f ∈ em.free_slots ++ [idx0]
    by_cases hfi : f = idx0
    · simp [hfi]
    · rw [ecs_map_get_unset_ne _ _ _ hfi] at hg2
      exact List.mem_append_left _ (h f hf2 hg2)

theorem ecs_entity_manager_reachable_wf {em : ecs_entity_manager}
    (hr : ecs_entity_manager_reachable em) :
    ecs_entity_manager_ok em ∧ ecs_entity_manager_slots_ok em ∧
      ecs_entity_manager_free_complete em := by
  induction hr with
  | zero =>
    refine ⟨ecs_world_zero_ok.1, ecs_reachable_slots_ok .zero, ?_⟩
    intro f hf _
    exact absurd hf (Nat.not_lt_zero f)
  | create hid _ ih =>
    exact ⟨ecs_entity_manager_create_ok _ hid ih.1,
      ecs_entity_manager_create_slots_ok _ hid ih.1 ih.2.1,
      ecs_entity_manager_create_free_complete _ ih.1 ih.2.2⟩
  | destroy e _ ih =>
    exact ⟨ecs_entity_manager_destroy_ok _ e ih.1,
      ecs_entity_manager_destroy_slots_ok _ e ih.1 ih.2.1,
      ecs_entity_manager_destroy_free_complete _ e ih.1 ih.2.2⟩

/-- Claim C25: in every entity manager reachable from the zero-initialised one
by `ecs_entity_manager_create` and `ecs_entity_manager_destroy`, `cap` is the
number of entity slots, `id_to_index` and `index_to_id` are inverse to each
other, every mapped id resolves through `ecs_entity_manager_get` to a slot
below `cap` that holds the non-destroyed entity with that id, every slot
holding a non-destroyed entity is the slot its id is mapped to, and the
free-slot list has no repetition and contains exactly the slots below `cap`
that are not mapped. -/
theorem ecs_entity_manager_well_formed (em : ecs_entity_manager)
    (hr : ecs_entity_manager_reachable em) :
    em.cap = em.entities.length ∧
    (∀ e i, ecs_map_get em.id_to_index e = some i ↔
      ecs_map_get em.index_to_id i = some e) ∧
    (∀ e i, ecs_map_get em.id_to_index e = some i →
      i < em.cap ∧
      ∃ ent, ecs_entity_manager_get em e = some (i, ent) ∧ ent.id = e ∧
        ent.destroyed = false) ∧
    (∀ i ent, em.entities[i]? = some ent → ent.destroyed = false →
      ecs_map_get em.id_to_index ent.id = some i) ∧
    em.free_slots.Nodup ∧
    (∀ f, f ∈ em.free_slots ↔ (f < em.cap ∧ ecs_map_get em.index_to_id f = none)) := by
  obtain ⟨⟨hcap, _, _, hinv, hbnd, hnd, hfree⟩, ⟨hL, hJ⟩, hcomplete⟩ :=
    ecs_entity_manager_reachable_wf hr
  refine ⟨hcap, hinv, ?_, hJ, hnd, ?_⟩
  · intro e i hg
    obtain ⟨ent, hent, hid, hd⟩ := hL e i hg
    exact ⟨(hbnd e i hg).1, ent,
      (ecs_entity_manager_get_eq_some _ _ _ _).2 ⟨hg, hent⟩, hid, hd⟩
  · intro f
    exact ⟨fun hf => hfree f hf, fun hf => hcomplete f hf.1 hf.2⟩

/-- Witness of C25: the manager after create, create, destroy 1: entity 2 is
mapped to slot 1, slot 0 is the only free slot. -/
theorem ecs_entity_manager_well_formed_witness :
    ecs_entity_manager_reachable ecs_scenario_table ∧
    ecs_scenario_table.free_slots = [0] ∧
    ecs_map_get ecs_scenario_table.id_to_index 2 = some 1 ∧
    ecs_map_get ecs_scenario_table.id_to_index 1 = none ∧
    (ecs_scenario_table.cap = ecs_scenario_table.entities.length ∧
    (∀ e i, ecs_map_get ecs_scenario_table.id_to_index e = some i ↔
      ecs_map_get ecs_scenario_table.index_to_id i = some e) ∧
    (∀ e i, ecs_map_get ecs_scenario_table.id_to_index e = some i →
      i < ecs_scenario_table.cap ∧
      ∃ ent, ecs_entity_manager_get ecs_scenario_table e = some (i, ent) ∧ ent.id = e ∧
        ent.destroyed = false) ∧
    (∀ i ent, ecs_scenario_table.entities[i]? = some ent → ent.destroyed = false →
      ecs_map_get ecs_scenario_table.id_to_index ent.id = some i) ∧
    ecs_scenario_table.free_slots.Nodup ∧
    (∀ f, f ∈ ecs_scenario_table.free_slots ↔
      (f < ecs_scenario_table.cap ∧ ecs_map_get ecs_scenario_table.index_to_id f = none))) :=
  ⟨.destroy 1 (.create (by decide) (.create (by decide) .zero)), by decide, by decide,
    by decide,
    ecs_entity_manager_well_formed ecs_scenario_table
      (.destroy 1 (.create (by decide) (.create (by decide) .zero)))⟩

end ECS
